import Mathlib

/-!
# Enhanced SpeedStep driver with voltage override (`est_phc.c`)

A shallow embedding of the driver's table resolver (`est_init_main`), its
frequency selector (`est_sysctl_helper`) and its voltage override engine
(`phc_est_sysctl_helper`, `phc_atoi`), followed by theorems about them.

Conventions of the embedding

* C `int` values are `Int`; where an `int` computation can leave the 32-bit
  range (`phc_atoi`) it is reduced by `wrap32` (two's-complement wraparound).
  Unsigned values (`uint16_t` identifiers, 64-bit MSR values) are `Nat`.
* A C string is the list of the characters that precede its terminating NUL;
  the test `*pc != 0` of the source is the test for the empty list.
* The driver's file-scope variables and the two model-specific registers it
  touches are the fields of `Driver`.  The only `uint16_t` array the driver
  ever allocates is the one `malloc`ed in `est_init_main`; its contents are
  the field `heap`, and a `uint16_t *` variable is a `TablePtr`.
-/

namespace EstPhc

/-! ## Encoding codec (lines 992-996, 1009-1010) -/

/-- Macro `#define MSR2FREQINC(msr) (((int) (msr) >> 8) & 0xff)` -/
def MSR2FREQINC (msr : Nat) : Nat := (msr >>> 8) &&& 0xff

/-- Macro `#define MSR2VOLTINC(msr) ((int) (msr) & 0xff)` -/
def MSR2VOLTINC (msr : Nat) : Nat := msr &&& 0xff

/-- Macro `#define MSR2MHZ(msr, bus) ((MSR2FREQINC((msr)) * (bus) + 50) / 100)`.
The product is at most `255 * bus`, far inside the `int` range for every bus
clock the platform reports, so no wraparound is modelled here. -/
def MSR2MHZ (msr bus : Nat) : Nat := (MSR2FREQINC msr * bus + 50) / 100

/-- Macro `#define MSR2MV(msr) (MSR2VOLTINC(msr) * 16 + 700)` -/
def MSR2MV (msr : Nat) : Nat := MSR2VOLTINC msr * 16 + 700

/-- Macro `#define PHC_ID16(FID, VID) ( ((FID) << 8) | (VID) )` -/
def PHC_ID16 (FID VID : Nat) : Nat := (FID <<< 8) ||| VID

/-- Macro `#define PHC_MAXLEN 30` -/
def PHC_MAXLEN : Nat := 30

/-- Possible bus speeds: `enum { BUS100 = 10000, BUS133 = 13333, ... }` -/
def BUS100 : Nat := 10000

/-- See `BUS100`. -/
def BUS133 : Nat := 13333

/-- Error number `EINVAL` of the kernel. -/
def EINVAL : Nat := 22

/-- Error number `EOPNOTSUPP` of the kernel. -/
def EOPNOTSUPP : Nat := 45

/-- Number of the control register `MSR_PERF_CTL`. -/
def MSR_PERF_CTL : Nat := 0x199

/-! ## State -/

/-- Value of a `uint16_t *` variable of the driver (`fake_table`,
`phc_origin_table`, the `table` field of `fake_fqlist`): either NULL or the
address of the array that `est_init_main` obtains from `malloc`. -/
inductive TablePtr where
  | NULL
  | heap
deriving DecidableEq, Repr

/-- Value of `est_fqlist` outside `est_init_main`: NULL or `&fake_fqlist`. -/
inductive FqlistPtr where
  | NULL
  | fake_fqlist
deriving DecidableEq, Repr

/-- The `struct fqlist` (lines 897-902) as used for `fake_fqlist`. -/
structure fqlist where
  vendor : Int
  bus_clk : Nat
  n : Nat
  table : TablePtr
deriving DecidableEq, Repr

/-- One element of the constant catalog `est_cpus`: a `struct fqlist` together
with the constant array its `table` field points to. -/
structure fqentry where
  vendor : Int
  bus_clk : Nat
  n : Nat
  table : List Nat
deriving DecidableEq, Repr

/-- The `struct msr_cpu_broadcast`, the argument of the broadcast primitive. -/
structure msr_cpu_broadcast where
  msr_read : Bool
  msr_type : Nat
  msr_mask : Nat
  msr_value : Nat
deriving DecidableEq, Repr

/-- The file-scope variables of the driver, the strings it registers with
sysctl, the two registers it reads, and the log of the broadcasts it issued. -/
structure Driver where
  est_fqlist : FqlistPtr
  fake_fqlist : fqlist
  fake_table : TablePtr
  phc_origin_table : TablePtr
  heap : List Nat
  phc_string_vids : List Char
  phc_original_vids : List Char
  phc_fids : List Char
  bus_clock : Nat
  perf_status : Nat
  perf_ctl : Nat
  broadcasts : List msr_cpu_broadcast
deriving DecidableEq, Repr

/-- Read `p[i]` for a `uint16_t *p` of the driver. -/
def load (s : Driver) (p : TablePtr) (i : Nat) : Nat :=
  match p with
  | .heap => s.heap.getD i 0
  | .NULL => 0

/-- Write `p[i] = v` for a `uint16_t *p` of the driver; the stored value is
truncated to 16 bits. -/
def store (s : Driver) (p : TablePtr) (i : Nat) (v : Nat) : Driver :=
  match p with
  | .heap => { s with heap := s.heap.set i (v % 65536) }
  | .NULL => s

/-- Modelled from the spec: the broadcast primitive `msr_cpu_broadcast` is an
external collaborator.  It applies one identifier to every core: the bits of
the register selected by the mask (the driver always passes `0xffff`, the low
16 bits) are replaced by the value.  The call is appended to the log. -/
def do_msr_cpu_broadcast (s : Driver) (mcb : msr_cpu_broadcast) : Driver :=
  { s with
    broadcasts := s.broadcasts ++ [mcb]
    perf_ctl :=
      if mcb.msr_type = MSR_PERF_CTL then
        s.perf_ctl / (mcb.msr_mask + 1) * (mcb.msr_mask + 1)
          + mcb.msr_value % (mcb.msr_mask + 1)
      else s.perf_ctl }

/-! ## `phc_atoi` (lines 1015-1041) -/

/-- Two's-complement wraparound of a C `int` (32 bits): the representative of
`x` modulo `2^32` in `[-2^31, 2^31)`. -/
def wrap32 (x : Int) : Int :=
  let r := (x % 4294967296).toNat
  if r < 2147483648 then (r : Int) else (r : Int) - 4294967296

/-- The `isdigit` of the kernel: `'0' <= c && c <= '9'`. -/
def isdigit (c : Char) : Bool := decide ('0' ≤ c) && decide (c ≤ '9')

/-- First loop of `phc_atoi`:
`while ( (*pc != 0) && ! isdigit(*pc) ) pc++;` -/
def phc_skip : List Char → List Char
  | [] => []
  | c :: pc => if isdigit c then c :: pc else phc_skip pc

/-- Second loop of `phc_atoi`:
`while (isdigit(*pc)) { result = *pc - '0' + 10 * (result); pc++; }`,
returning the final `result` and `pc`. -/
def phc_digits (result : Int) : List Char → Int × List Char
  | [] => (result, [])
  | c :: pc =>
    if isdigit c then
      phc_digits (wrap32 ((c.toNat : Int) - ('0'.toNat : Int) + 10 * result)) pc
    else (result, c :: pc)

/-- Function `phc_atoi(string, &remain)`: the returned `int` and the value of `remain`
afterwards (left as it was when -1 is returned). -/
def phc_atoi (string remain : List Char) : Int × List Char :=
  match phc_skip string with
  | [] => (-1, remain)
  | c :: pc => phc_digits 0 (c :: pc)

/-! ## `phc_est_sysctl_helper` (lines 1043-1138) -/

/-- The test `strncmp(a, b, n) == 0`. -/
def strncmp_eq_zero (a b : List Char) (n : Nat) : Bool := decide (a.take n = b.take n)

/-- First round (lines 1077-1100), rows `i .. i + k - 1`: check the input
values against `phc_origin_table` and collect them in `vids`.  Yields the
error number on failure, else `vids` and the final `remain`. -/
def phc_check_vids (s : Driver) :
    Nat → Nat → List Char → List Char → List Int → Except Nat (List Int × List Char)
  | 0, _, _, remain, vids => .ok (vids, remain)
  | k + 1, i, string, remain, vids =>
    let ref_vid := MSR2VOLTINC (load s s.phc_origin_table i)
    let r := phc_atoi string remain
    if r.1 = -1 then .error EINVAL
    else if r.1 < 0 ∨ r.1 > (ref_vid : Int) then .error EINVAL
    else phc_check_vids s k (i + 1) r.2 r.2 (vids ++ [r.1])

/-- Second round (lines 1106-1114), rows `i .. i + k - 1`:
`fake_table[i] = PHC_ID16(MSR2FREQINC(phc_origin_table[i]), vids[i])`. -/
def phc_save_vids (vids : List Int) : Nat → Nat → Driver → Driver
  | 0, _, s => s
  | k + 1, i, s =>
    let ref_fid := MSR2FREQINC (load s s.phc_origin_table i)
    phc_save_vids vids k (i + 1)
      (store s s.fake_table i (PHC_ID16 ref_fid (vids.getD i 0).toNat))

/-- The scan of lines 1124-1126 and 1169-1171, started at `i`:
`for (; i > 0; i--) if (MSR2MHZ(est_fqlist->table[i], bus_clock) >= fq) break;`
yielding the final `i`. -/
def est_scan (s : Driver) (fq : Int) : Nat → Nat
  | 0 => 0
  | i + 1 =>
    if (MSR2MHZ (load s s.fake_fqlist.table (i + 1)) s.bus_clock : Int) ≥ fq then i + 1
    else est_scan s fq i

/-- Lines 1122-1132 and 1169-1177: select a row for `fq` (scan from
`est_fqlist->n - 1`) and broadcast its identifier with mask `0xffff`. -/
def est_set_state (s : Driver) (fq : Int) : Driver :=
  let i := est_scan s fq (s.fake_fqlist.n - 1)
  do_msr_cpu_broadcast s
    { msr_read := true, msr_type := MSR_PERF_CTL, msr_mask := 0xffff,
      msr_value := load s s.fake_fqlist.table i }

/-- Function `phc_est_sysctl_helper`: handler of the node `phc.vids`.  `error` is the
result of `sysctl_lookup`; `newp` is `none` for a read and otherwise the
string that `sysctl_lookup` left in `input_string` (the text written by the
operator).  Yields the returned error number and the new state.  The
allocation of `vids` (`kmem_alloc` with `KM_SLEEP`) does not fail. -/
def phc_est_sysctl_helper (s : Driver) (error : Nat) (newp : Option (List Char)) :
    Nat × Driver :=
  if s.est_fqlist = .NULL then (EOPNOTSUPP, s)
  else
    match newp with
    | none => (error, s)
    | some input_string =>
      if error ≠ 0 ∨ strncmp_eq_zero input_string s.phc_string_vids PHC_MAXLEN then
        (error, s)
      else
        match phc_check_vids s s.fake_fqlist.n 0 input_string input_string [] with
        | .error e => (e, s)
        | .ok (vids, remain) =>
          -- *remain = 0: the input string now ends where remain points
          let input_string := input_string.take (input_string.length - remain.length)
          let s1 := phc_save_vids vids s.fake_fqlist.n 0 s
          -- strncpy(phc_string_vids, input_string, PHC_MAXLEN)
          let s2 := { s1 with phc_string_vids := input_string.take PHC_MAXLEN }
          (0, est_set_state s2 (MSR2MHZ s2.perf_status s2.bus_clock))

/-! ## `est_sysctl_helper` (lines 1140-1181) -/

/-- The node a request is addressed to: `rnode->sysctl_num` is
`est_node_target`, `est_node_current`, or neither. -/
inductive SysctlNode where
  | target
  | current
  | other
deriving DecidableEq, Repr

/-- Function `est_sysctl_helper`: handler of `frequency.target` and
`frequency.current`.  `error` is the result of `sysctl_lookup`; `newp` is
`none` for a read and otherwise the integer written. -/
def est_sysctl_helper (s : Driver) (rnode : SysctlNode) (error : Nat) (newp : Option Int) :
    Nat × Driver :=
  if s.est_fqlist = .NULL then (EOPNOTSUPP, s)
  else
    match rnode with
    | .other => (EOPNOTSUPP, s)
    | .current =>
      match newp with
      | none => (error, s)
      | some _ => if error ≠ 0 then (error, s) else (0, s)
    | .target =>
      let oldfq : Int := (MSR2MHZ s.perf_ctl s.bus_clock : Int)
      match newp with
      | none => (error, s)
      | some fq =>
        if error ≠ 0 then (error, s)
        else if fq ≠ oldfq then (0, est_set_state s fq)
        else (0, s)

/-- Operation `setTarget(requestedMHz)`: a successful write to
`frequency.target`. -/
def setTarget (s : Driver) (requestedMHz : Int) : Nat × Driver :=
  est_sysctl_helper s .target 0 (some requestedMHz)

/-- Operation `applyOverride(inputText)`: a successful write to `phc.vids`. -/
def applyOverride (s : Driver) (inputText : List Char) : Nat × Driver :=
  phc_est_sysctl_helper s 0 (some inputText)

/-! ## `est_init_main` (lines 1203-1512) -/

/-- The two builds of the driver: the sanity checks of lines 1245-1270 and the
catalog search of lines 1275-1288 are selected by `__i386__` / `__amd64__`. -/
inductive Arch where
  | i386
  | amd64
deriving DecidableEq, Repr

/-- Macro `#define BUS_CLK(fqp) ((fqp)->bus_clk ? BUS133 : BUS100)` -/
def BUS_CLK (bus_clk : Nat) : Nat := if bus_clk ≠ 0 then BUS133 else BUS100

/-- The file-scope variables at entry of `est_init_main` (static storage is
zero-initialised, `RUN_ONCE` admits a single run) and the two registers. -/
def boot (perf_status perf_ctl : Nat) : Driver :=
  { est_fqlist := .NULL
    fake_fqlist := { vendor := 0, bus_clk := 0, n := 0, table := .NULL }
    fake_table := .NULL
    phc_origin_table := .NULL
    heap := []
    phc_string_vids := []
    phc_original_vids := []
    phc_fids := []
    bus_clock := 0
    perf_status := perf_status
    perf_ctl := perf_ctl
    broadcasts := [] }

/-- The loop of lines 1353-1365, `k` iterations from the running values
`freq` and `volt`: the identifiers stored in `fake_table` (each truncated to
`uint16_t`). -/
def est_fake_rows (freqinc voltinc : Int) : Nat → Int → Int → List Nat
  | 0, _, _ => []
  | k + 1, freq, volt =>
    ((((freq + 99).tdiv 100) * 256 + (volt + 99).tdiv 100) % 65536).toNat
      :: est_fake_rows freqinc voltinc k (freq - freqinc) (volt - voltinc)

/-- The loops of lines 1417-1421 and 1430-1434, iterations `i .. i + k - 1`:
`for (; i < n && len < PHC_MAXLEN; i++)`
`len += snprintf(buf + len, size - len, "%d%s", f(table[i]), i < n - 1 ? " " : "")`,
yielding the string in `buf`.  `snprintf` stores at most `size - len - 1`
characters and returns the untruncated length; once `len` has reached `size`
the string in the buffer no longer changes. -/
def phc_print_ids (s : Driver) (f : Nat → Nat) (size : Nat) :
    Nat → Nat → Nat → List Char → List Char
  | 0, _, _, buf => buf
  | k + 1, i, len, buf =>
    if len < PHC_MAXLEN then
      let text := Nat.toDigits 10 (f (load s s.fake_fqlist.table i))
        ++ (if i < s.fake_fqlist.n - 1 then [' '] else [])
      let buf := if len < size then buf ++ text.take (size - len - 1) else buf
      phc_print_ids s f size k (i + 1) (len + text.length) buf
    else buf

/-- Lines 1391-1440 of `est_init_main`, run once a table exists: the origin
pointer is set by `memcpy(&phc_origin_table, &fake_table, sizeof(fake_table))`,
which copies the pointer variable `fake_table` itself, and the id strings are
created (`strlcpy(phc_string_vids, phc_original_vids, vids_len)` at the end;
the copy is kept whole also when it is longer than the `PHC_MAXLEN` bytes
allocated for `phc_string_vids`). -/
def est_init_finish (s : Driver) : Driver :=
  let s := { s with phc_origin_table := s.fake_table }
  let n := s.fake_fqlist.n
  let fids_len := n * 3 + 1
  let phc_fids := phc_print_ids s MSR2FREQINC fids_len n 0 0 []
  let vids_len := n * 3 + 1
  let phc_original_vids := phc_print_ids s MSR2VOLTINC vids_len n 0 0 []
  { s with
    phc_fids := phc_fids
    phc_original_vids := phc_original_vids
    phc_string_vids := phc_original_vids.take (vids_len - 1) }

/-- Function `est_init_main(vendor)`, from the zero-initialised statics.  `est_cpus` is
the catalog, `bus` the bus clock reported by the platform (0 when unknown),
`perf_status` the value of `MSR_PERF_STATUS`.  The string `freq_names` and the
creation of the sysctl nodes (external, taken to succeed) are left out; a
negative `tablesize` gives an empty array and `n = (unsigned) tablesize`. -/
def est_init_main (arch : Arch) (est_cpus : List fqentry) (vendor : Int) (bus : Nat)
    (perf_status perf_ctl : Nat) : Driver :=
  let s : Driver := { boot perf_status perf_ctl with bus_clock := bus }
  if bus = 0 then s
  else
    let msr := perf_status
    let idhi := (msr >>> 32) &&& 0xffff
    let idlo := (msr >>> 48) &&& 0xffff
    let cur := msr &&& 0xffff
    let crhi := (idhi >>> 8) &&& 0xff
    let crlo := (idlo >>> 8) &&& 0xff
    let crcur := (cur >>> 8) &&& 0xff
    if arch = .i386 ∧ (idhi = 0 ∨ idlo = 0 ∨ cur = 0 ∨ crcur < crlo ∨ crcur > crhi) then s
    else if arch = .amd64 ∧ (crlo = 0 ∨ crhi = crlo) then s
    else if arch = .amd64 ∧
        (crhi = 0 ∨ crcur = 0 ∨ crlo > crhi ∨ crcur < crlo ∨ crcur > crhi) then s
    else
      let found : Option fqentry :=
        if arch = .i386 then
          est_cpus.find? (fun fql =>
            decide (vendor = fql.vendor) && decide (bus = BUS_CLK fql.bus_clk)
              && decide (idhi = fql.table.getD 0 0)
              && decide (idlo = fql.table.getD (fql.n - 1) 0))
        else none
      match found with
      | none =>
        if idhi = idlo then s
        else
          let minfreq : Int := MSR2FREQINC idlo
          let maxfreq : Int := MSR2FREQINC idhi
          let minvolt : Int := MSR2VOLTINC idlo
          let maxvolt : Int := MSR2VOLTINC idhi
          let freqinc : Int := maxfreq - minfreq
          let voltinc : Int := maxvolt - minvolt
          if freqinc = 0 then s
          else
            let tablesize : Int :=
              if freqinc < voltinc ∨ voltinc = 0 then maxfreq - minfreq + 1
              else maxvolt - minvolt + 1
            let voltinc' : Int :=
              if freqinc < voltinc ∨ voltinc = 0 then
                (if voltinc ≠ 0 then (voltinc * 100).tdiv freqinc - 1 else voltinc)
              else 100
            let freqinc' : Int :=
              if freqinc < voltinc ∨ voltinc = 0 then 100
              else (freqinc * 100).tdiv voltinc - 1
            est_init_finish
              { s with
                heap := est_fake_rows freqinc' voltinc' tablesize.toNat
                  (maxfreq * 100) (maxvolt * 100)
                fake_table := .heap
                fake_fqlist :=
                  { s.fake_fqlist with
                    n := (tablesize % 4294967296).toNat
                    vendor := vendor
                    table := .heap }
                est_fqlist := .fake_fqlist }
      | some fql =>
        est_init_finish
          { s with
            heap := fql.table.take fql.n
            fake_table := .heap
            fake_fqlist :=
              { vendor := fql.vendor, bus_clk := fql.bus_clk, n := fql.n, table := .heap }
            est_fqlist := .fake_fqlist }

/-! ## Observations and specification-side notions -/

/-- The Live Table: the rows `est_fqlist->table[0 .. n-1]`. -/
def live_table (s : Driver) : List Nat :=
  (List.range s.fake_fqlist.n).map (load s s.fake_fqlist.table)

/-- The Origin Table as the driver reads it: the rows
`phc_origin_table[0 .. n-1]`. -/
def origin_table (s : Driver) : List Nat :=
  (List.range s.fake_fqlist.n).map (load s s.phc_origin_table)

/-- The state of a driver whose initialisation produced a table: `est_fqlist`
is `&fake_fqlist`, the three table pointers hold the address of the allocated
array, and `n` is the number of its elements. -/
def Functional (s : Driver) : Prop :=
  s.est_fqlist = .fake_fqlist ∧ s.fake_fqlist.table = .heap ∧ s.fake_table = .heap ∧
    s.phc_origin_table = .heap ∧ s.fake_fqlist.n = s.heap.length

instance (s : Driver) : Decidable (Functional s) := by
  unfold Functional; infer_instance

/-- Specification side of the tokenizer: the decimal values (unbounded) of the
maximal runs of decimal digits of a text, in order.  `acc` is the value of the
run being read, if any. -/
def decimal_values_from : Option Nat → List Char → List Nat
  | acc, [] => acc.toList
  | none, c :: cs =>
    if isdigit c then decimal_values_from (some (c.toNat - 48)) cs
    else decimal_values_from none cs
  | some v, c :: cs =>
    if isdigit c then decimal_values_from (some (10 * v + (c.toNat - 48))) cs
    else v :: decimal_values_from none cs

/-- The decimal values present in a text. -/
def decimal_values (text : List Char) : List Nat := decimal_values_from none text

/-- One request reaching the driver after initialisation: a call of one of
the two handlers with arbitrary arguments, or a change of the two registers
by the hardware between calls. -/
inductive Call where
  | est (rnode : SysctlNode) (error : Nat) (newp : Option Int)
  | phc (error : Nat) (newp : Option (List Char))
  | registers (perf_status perf_ctl : Nat)

/-- Effect of one request on the state. -/
def Call.apply (s : Driver) : Call → Driver
  | .est rnode error newp => (est_sysctl_helper s rnode error newp).2
  | .phc error newp => (phc_est_sysctl_helper s error newp).2
  | .registers perf_status perf_ctl =>
    { s with perf_status := perf_status, perf_ctl := perf_ctl }

/-- Effect of a sequence of requests, first request first. -/
def run (s : Driver) (calls : List Call) : Driver := calls.foldl Call.apply s

/-- The first round over the list of decimal values of the input text rather
than over the text: `k` rows from row `i`, `ref i` being the bound for row `i`.
Used to state what `phc_check_vids` computes. -/
def check_values (ref : Nat → Nat) : Nat → Nat → List Nat → Except Nat (List Int)
  | 0, _, _ => .ok []
  | _ + 1, _, [] => .error EINVAL
  | k + 1, i, v :: vs =>
    if wrap32 v = -1 then .error EINVAL
    else if wrap32 v < 0 ∨ wrap32 v > (ref i : Int) then .error EINVAL
    else (check_values ref k (i + 1) vs).map (fun l => wrap32 v :: l)

/-- Table `t'` has the rows of table `t` up to lowered voltage-steps: the same
length and, row by row, the same frequency-step and a voltage-step that is
not above. -/
def Lowered (t' t : List Nat) : Prop :=
  t'.length = t.length ∧
    ∀ j, MSR2FREQINC (t'.getD j 0) = MSR2FREQINC (t.getD j 0) ∧
      MSR2VOLTINC (t'.getD j 0) ≤ MSR2VOLTINC (t.getD j 0)

/-! ## Concrete runs used in the examples -/

/-- An initialisation through the interpolation fallback: amd64 build, bus
clock 100 MHz, `MSR_PERF_STATUS` reporting highest = (8, 30), lowest = (6, 13)
and current = highest, `MSR_PERF_CTL` holding the highest identifier.  The
table has the rows (8, 30), (7, 22), (6, 14), that is 800, 700 and 600 MHz. -/
def sample_init : Driver :=
  est_init_main .amd64 [] 0 10000 0x060D081E0000081E 0x081E

/-- A seven-row table with the voltage-steps 30, 28, 24, 20, 18, 16, 13 of the
override scenario; row 3 decodes to 1000 MHz at a bus clock of 100 MHz. -/
def scenario_table : List Nat :=
  [PHC_ID16 14 30, PHC_ID16 12 28, PHC_ID16 11 24, PHC_ID16 10 20, PHC_ID16 9 18,
    PHC_ID16 8 16, PHC_ID16 6 13]

/-- An initialisation through a catalog match (i386 build) against a catalog
of one entry that holds `scenario_table`; the hardware reports the first and
the last identifier of that table. -/
def scenario_init : Driver :=
  est_init_main .i386 [{ vendor := 0, bus_clk := 0, n := 7, table := scenario_table }]
    0 10000 0x060D0E1E00000E1E 0x0E1E

/-! ## The catalog (lines 107-990) -/

/-- Macro `#define ID16(MHz, mV, bus_clk)`
`((((MHz * 100 + 50) / bus_clk) << 8) | ((mV ? mV - 700 : 0) >> 4))`,
as the `uint16_t` it initialises. -/
def ID16 (MHz mV bus_clk : Int) : Nat :=
  ((Int.lor (((MHz * 100 + 50).tdiv bus_clk) <<< 8)
    ((if mV ≠ 0 then mV - 700 else 0) >>> 4)) % 65536).toNat

/-- Modelled from the spec: the vendor tag `CPUVENDOR_INTEL` is a constant of
the header `x86/cputypes.h`, which is not among the sources; only its being
different from `CPUVENDOR_IDT` matters. -/
def CPUVENDOR_INTEL : Int := 0

/-- Modelled from the spec: the vendor tag `CPUVENDOR_IDT`, see
`CPUVENDOR_INTEL`. -/
def CPUVENDOR_IDT : Int := 4

/-- Macro `#define ENTRY(ven, bus_clk, tab)`
`{ CPUVENDOR_##ven, bus_clk == BUS133 ? 1 : 0, __arraycount(tab), tab }`. -/
def ENTRY (ven : Int) (bus_clk : Nat) (tab : List Nat) : fqentry :=
  { vendor := ven, bus_clk := if bus_clk = BUS133 then 1 else 0, n := tab.length, table := tab }

/-- Catalog table `pm130_900_ulv` (lines 115-119). -/
def pm130_900_ulv : List Nat :=
  [ID16 900 1004 BUS100, ID16 800 988 BUS100, ID16 600 844 BUS100]

/-- Catalog table `pm130_1000_ulv` (lines 122-127). -/
def pm130_1000_ulv : List Nat :=
  [ID16 1000 1004 BUS100, ID16 900 988 BUS100, ID16 800 972 BUS100, ID16 600 844 BUS100]

/-- Catalog table `pm130_1100_ulv` (lines 130-136). -/
def pm130_1100_ulv : List Nat :=
  [ID16 1100 1004 BUS100, ID16 1000 988 BUS100, ID16 900 972 BUS100, ID16 800 956 BUS100,
    ID16 600 844 BUS100]

/-- Catalog table `pm130_1100_lv` (lines 139-145). -/
def pm130_1100_lv : List Nat :=
  [ID16 1100 1180 BUS100, ID16 1000 1164 BUS100, ID16 900 1100 BUS100,
    ID16 800 1020 BUS100, ID16 600 956 BUS100]

/-- Catalog table `pm130_1200_lv` (lines 148-155). -/
def pm130_1200_lv : List Nat :=
  [ID16 1200 1180 BUS100, ID16 1100 1164 BUS100, ID16 1000 1100 BUS100,
    ID16 900 1020 BUS100, ID16 800 1004 BUS100, ID16 600 956 BUS100]

/-- Catalog table `pm130_1300_lv` (lines 158-166). -/
def pm130_1300_lv : List Nat :=
  [ID16 1300 1180 BUS100, ID16 1200 1164 BUS100, ID16 1100 1100 BUS100,
    ID16 1000 1020 BUS100, ID16 900 1004 BUS100, ID16 800 988 BUS100, ID16 600 956 BUS100]

/-- Catalog table `pm130_1300` (lines 169-175). -/
def pm130_1300 : List Nat :=
  [ID16 1300 1388 BUS100, ID16 1200 1356 BUS100, ID16 1000 1292 BUS100,
    ID16 800 1260 BUS100, ID16 600 956 BUS100]

/-- Catalog table `pm130_1400` (lines 178-184). -/
def pm130_1400 : List Nat :=
  [ID16 1400 1484 BUS100, ID16 1200 1436 BUS100, ID16 1000 1308 BUS100,
    ID16 800 1180 BUS100, ID16 600 956 BUS100]

/-- Catalog table `pm130_1500` (lines 187-194). -/
def pm130_1500 : List Nat :=
  [ID16 1500 1484 BUS100, ID16 1400 1452 BUS100, ID16 1200 1356 BUS100,
    ID16 1000 1228 BUS100, ID16 800 1116 BUS100, ID16 600 956 BUS100]

/-- Catalog table `pm130_1600` (lines 197-204). -/
def pm130_1600 : List Nat :=
  [ID16 1600 1484 BUS100, ID16 1400 1420 BUS100, ID16 1200 1276 BUS100,
    ID16 1000 1164 BUS100, ID16 800 1036 BUS100, ID16 600 956 BUS100]

/-- Catalog table `pm130_1700` (lines 207-214). -/
def pm130_1700 : List Nat :=
  [ID16 1700 1484 BUS100, ID16 1400 1308 BUS100, ID16 1200 1228 BUS100,
    ID16 1000 1116 BUS100, ID16 800 1004 BUS100, ID16 600 956 BUS100]

/-- Catalog table `pm90_n723` (lines 217-222). -/
def pm90_n723 : List Nat :=
  [ID16 1000 940 BUS100, ID16 900 908 BUS100, ID16 800 876 BUS100, ID16 600 812 BUS100]

/-- Catalog table `pm90_n733g` (lines 225-231). -/
def pm90_n733g : List Nat :=
  [ID16 1100 956 BUS100, ID16 1000 940 BUS100, ID16 900 908 BUS100, ID16 800 876 BUS100,
    ID16 600 812 BUS100]

/-- Catalog table `pm90_n733h` (lines 234-240). -/
def pm90_n733h : List Nat :=
  [ID16 1100 940 BUS100, ID16 1000 924 BUS100, ID16 900 892 BUS100, ID16 800 876 BUS100,
    ID16 600 812 BUS100]

/-- Catalog table `pm90_n733i` (lines 243-249). -/
def pm90_n733i : List Nat :=
  [ID16 1100 924 BUS100, ID16 1000 908 BUS100, ID16 900 892 BUS100, ID16 800 860 BUS100,
    ID16 600 812 BUS100]

/-- Catalog table `pm90_n733j` (lines 252-258). -/
def pm90_n733j : List Nat :=
  [ID16 1100 908 BUS100, ID16 1000 892 BUS100, ID16 900 876 BUS100, ID16 800 860 BUS100,
    ID16 600 812 BUS100]

/-- Catalog table `pm90_n733k` (lines 261-267). -/
def pm90_n733k : List Nat :=
  [ID16 1100 892 BUS100, ID16 1000 876 BUS100, ID16 900 860 BUS100, ID16 800 844 BUS100,
    ID16 600 812 BUS100]

/-- Catalog table `pm90_n733l` (lines 270-276). -/
def pm90_n733l : List Nat :=
  [ID16 1100 876 BUS100, ID16 1000 876 BUS100, ID16 900 860 BUS100, ID16 800 844 BUS100,
    ID16 600 812 BUS100]

/-- Catalog table `pm90_n753g` (lines 279-286). -/
def pm90_n753g : List Nat :=
  [ID16 1200 956 BUS100, ID16 1100 940 BUS100, ID16 1000 908 BUS100, ID16 900 892 BUS100,
    ID16 800 860 BUS100, ID16 600 812 BUS100]

/-- Catalog table `pm90_n753h` (lines 289-296). -/
def pm90_n753h : List Nat :=
  [ID16 1200 940 BUS100, ID16 1100 924 BUS100, ID16 1000 908 BUS100, ID16 900 876 BUS100,
    ID16 800 860 BUS100, ID16 600 812 BUS100]

/-- Catalog table `pm90_n753i` (lines 299-306). -/
def pm90_n753i : List Nat :=
  [ID16 1200 924 BUS100, ID16 1100 908 BUS100, ID16 1000 892 BUS100, ID16 900 876 BUS100,
    ID16 800 860 BUS100, ID16 600 812 BUS100]

/-- Catalog table `pm90_n753j` (lines 309-316). -/
def pm90_n753j : List Nat :=
  [ID16 1200 908 BUS100, ID16 1100 892 BUS100, ID16 1000 876 BUS100, ID16 900 860 BUS100,
    ID16 800 844 BUS100, ID16 600 812 BUS100]

/-- Catalog table `pm90_n753k` (lines 319-326). -/
def pm90_n753k : List Nat :=
  [ID16 1200 892 BUS100, ID16 1100 892 BUS100, ID16 1000 876 BUS100, ID16 900 860 BUS100,
    ID16 800 844 BUS100, ID16 600 812 BUS100]

/-- Catalog table `pm90_n753l` (lines 329-336). -/
def pm90_n753l : List Nat :=
  [ID16 1200 876 BUS100, ID16 1100 876 BUS100, ID16 1000 860 BUS100, ID16 900 844 BUS100,
    ID16 800 844 BUS100, ID16 600 812 BUS100]

/-- Catalog table `pm90_n773g` (lines 339-347). -/
def pm90_n773g : List Nat :=
  [ID16 1300 956 BUS100, ID16 1200 940 BUS100, ID16 1100 924 BUS100, ID16 1000 908 BUS100,
    ID16 900 876 BUS100, ID16 800 860 BUS100, ID16 600 812 BUS100]

/-- Catalog table `pm90_n773h` (lines 350-358). -/
def pm90_n773h : List Nat :=
  [ID16 1300 940 BUS100, ID16 1200 924 BUS100, ID16 1100 908 BUS100, ID16 1000 892 BUS100,
    ID16 900 876 BUS100, ID16 800 860 BUS100, ID16 600 812 BUS100]

/-- Catalog table `pm90_n773i` (lines 361-369). -/
def pm90_n773i : List Nat :=
  [ID16 1300 924 BUS100, ID16 1200 908 BUS100, ID16 1100 892 BUS100, ID16 1000 876 BUS100,
    ID16 900 860 BUS100, ID16 800 844 BUS100, ID16 600 812 BUS100]

/-- Catalog table `pm90_n773j` (lines 372-380). -/
def pm90_n773j : List Nat :=
  [ID16 1300 908 BUS100, ID16 1200 908 BUS100, ID16 1100 892 BUS100, ID16 1000 876 BUS100,
    ID16 900 860 BUS100, ID16 800 844 BUS100, ID16 600 812 BUS100]

/-- Catalog table `pm90_n773k` (lines 383-391). -/
def pm90_n773k : List Nat :=
  [ID16 1300 892 BUS100, ID16 1200 892 BUS100, ID16 1100 876 BUS100, ID16 1000 860 BUS100,
    ID16 900 860 BUS100, ID16 800 844 BUS100, ID16 600 812 BUS100]

/-- Catalog table `pm90_n773l` (lines 394-402). -/
def pm90_n773l : List Nat :=
  [ID16 1300 876 BUS100, ID16 1200 876 BUS100, ID16 1100 860 BUS100, ID16 1000 860 BUS100,
    ID16 900 844 BUS100, ID16 800 844 BUS100, ID16 600 812 BUS100]

/-- Catalog table `pm90_n738` (lines 405-414). -/
def pm90_n738 : List Nat :=
  [ID16 1400 1116 BUS100, ID16 1300 1116 BUS100, ID16 1200 1100 BUS100,
    ID16 1100 1068 BUS100, ID16 1000 1052 BUS100, ID16 900 1036 BUS100,
    ID16 800 1020 BUS100, ID16 600 988 BUS100]

/-- Catalog table `pm90_n758` (lines 417-427). -/
def pm90_n758 : List Nat :=
  [ID16 1500 1116 BUS100, ID16 1400 1116 BUS100, ID16 1300 1100 BUS100,
    ID16 1200 1084 BUS100, ID16 1100 1068 BUS100, ID16 1000 1052 BUS100,
    ID16 900 1036 BUS100, ID16 800 1020 BUS100, ID16 600 988 BUS100]

/-- Catalog table `pm90_n778` (lines 430-441). -/
def pm90_n778 : List Nat :=
  [ID16 1600 1116 BUS100, ID16 1500 1116 BUS100, ID16 1400 1100 BUS100,
    ID16 1300 1184 BUS100, ID16 1200 1068 BUS100, ID16 1100 1052 BUS100,
    ID16 1000 1052 BUS100, ID16 900 1036 BUS100, ID16 800 1020 BUS100, ID16 600 988 BUS100]

/-- Catalog table `pm90_n710` (lines 444-450). -/
def pm90_n710 : List Nat :=
  [ID16 1400 1340 BUS133, ID16 1200 1228 BUS133, ID16 1000 1148 BUS133,
    ID16 800 1068 BUS133, ID16 600 998 BUS133]

/-- Catalog table `pm90_n715a` (lines 453-459). -/
def pm90_n715a : List Nat :=
  [ID16 1500 1340 BUS100, ID16 1200 1228 BUS100, ID16 1000 1148 BUS100,
    ID16 800 1068 BUS100, ID16 600 988 BUS100]

/-- Catalog table `pm90_n715b` (lines 462-468). -/
def pm90_n715b : List Nat :=
  [ID16 1500 1324 BUS100, ID16 1200 1212 BUS100, ID16 1000 1148 BUS100,
    ID16 800 1068 BUS100, ID16 600 988 BUS100]

/-- Catalog table `pm90_n715c` (lines 471-477). -/
def pm90_n715c : List Nat :=
  [ID16 1500 1308 BUS100, ID16 1200 1212 BUS100, ID16 1000 1132 BUS100,
    ID16 800 1068 BUS100, ID16 600 988 BUS100]

/-- Catalog table `pm90_n715d` (lines 480-486). -/
def pm90_n715d : List Nat :=
  [ID16 1500 1276 BUS100, ID16 1200 1180 BUS100, ID16 1000 1116 BUS100,
    ID16 800 1052 BUS100, ID16 600 988 BUS100]

/-- Catalog table `pm90_n725a` (lines 489-496). -/
def pm90_n725a : List Nat :=
  [ID16 1600 1340 BUS100, ID16 1400 1276 BUS100, ID16 1200 1212 BUS100,
    ID16 1000 1132 BUS100, ID16 800 1068 BUS100, ID16 600 988 BUS100]

/-- Catalog table `pm90_n725b` (lines 499-506). -/
def pm90_n725b : List Nat :=
  [ID16 1600 1324 BUS100, ID16 1400 1260 BUS100, ID16 1200 1196 BUS100,
    ID16 1000 1132 BUS100, ID16 800 1068 BUS100, ID16 600 988 BUS100]

/-- Catalog table `pm90_n725c` (lines 509-516). -/
def pm90_n725c : List Nat :=
  [ID16 1600 1308 BUS100, ID16 1400 1244 BUS100, ID16 1200 1180 BUS100,
    ID16 1000 1116 BUS100, ID16 800 1052 BUS100, ID16 600 988 BUS100]

/-- Catalog table `pm90_n725d` (lines 519-526). -/
def pm90_n725d : List Nat :=
  [ID16 1600 1276 BUS100, ID16 1400 1228 BUS100, ID16 1200 1164 BUS100,
    ID16 1000 1116 BUS100, ID16 800 1052 BUS100, ID16 600 988 BUS100]

/-- Catalog table `pm90_n730` (lines 529-535). -/
def pm90_n730 : List Nat :=
  [ID16 1600 1308 BUS133, ID16 1333 1260 BUS133, ID16 1200 1212 BUS133,
    ID16 1067 1180 BUS133, ID16 800 988 BUS133]

/-- Catalog table `pm90_n735a` (lines 538-545). -/
def pm90_n735a : List Nat :=
  [ID16 1700 1340 BUS100, ID16 1400 1244 BUS100, ID16 1200 1180 BUS100,
    ID16 1000 1116 BUS100, ID16 800 1052 BUS100, ID16 600 988 BUS100]

/-- Catalog table `pm90_n735b` (lines 548-555). -/
def pm90_n735b : List Nat :=
  [ID16 1700 1324 BUS100, ID16 1400 1244 BUS100, ID16 1200 1180 BUS100,
    ID16 1000 1116 BUS100, ID16 800 1052 BUS100, ID16 600 988 BUS100]

/-- Catalog table `pm90_n735c` (lines 558-565). -/
def pm90_n735c : List Nat :=
  [ID16 1700 1308 BUS100, ID16 1400 1228 BUS100, ID16 1200 1164 BUS100,
    ID16 1000 1116 BUS100, ID16 800 1052 BUS100, ID16 600 988 BUS100]

/-- Catalog table `pm90_n735d` (lines 568-575). -/
def pm90_n735d : List Nat :=
  [ID16 1700 1276 BUS100, ID16 1400 1212 BUS100, ID16 1200 1148 BUS100,
    ID16 1000 1100 BUS100, ID16 800 1052 BUS100, ID16 600 988 BUS100]

/-- Catalog table `pm90_n740` (lines 578-583). -/
def pm90_n740 : List Nat :=
  [ID16 1733 1356 BUS133, ID16 1333 1212 BUS133, ID16 1067 1100 BUS133, ID16 800 988 BUS133]

/-- Catalog table `pm90_n745a` (lines 586-594). -/
def pm90_n745a : List Nat :=
  [ID16 1800 1340 BUS100, ID16 1600 1292 BUS100, ID16 1400 1228 BUS100,
    ID16 1200 1164 BUS100, ID16 1000 1116 BUS100, ID16 800 1052 BUS100, ID16 600 988 BUS100]

/-- Catalog table `pm90_n745b` (lines 597-605). -/
def pm90_n745b : List Nat :=
  [ID16 1800 1324 BUS100, ID16 1600 1276 BUS100, ID16 1400 1212 BUS100,
    ID16 1200 1164 BUS100, ID16 1000 1116 BUS100, ID16 800 1052 BUS100, ID16 600 988 BUS100]

/-- Catalog table `pm90_n745c` (lines 608-616). -/
def pm90_n745c : List Nat :=
  [ID16 1800 1308 BUS100, ID16 1600 1260 BUS100, ID16 1400 1212 BUS100,
    ID16 1200 1148 BUS100, ID16 1000 1100 BUS100, ID16 800 1052 BUS100, ID16 600 988 BUS100]

/-- Catalog table `pm90_n745d` (lines 619-627). -/
def pm90_n745d : List Nat :=
  [ID16 1800 1276 BUS100, ID16 1600 1228 BUS100, ID16 1400 1180 BUS100,
    ID16 1200 1132 BUS100, ID16 1000 1084 BUS100, ID16 800 1036 BUS100, ID16 600 988 BUS100]

/-- Catalog table `pm90_n750` (lines 631-637). -/
def pm90_n750 : List Nat :=
  [ID16 1867 1308 BUS133, ID16 1600 1228 BUS133, ID16 1333 1148 BUS133,
    ID16 1067 1068 BUS133, ID16 800 988 BUS133]

/-- Catalog table `pm90_n755a` (lines 640-649). -/
def pm90_n755a : List Nat :=
  [ID16 2000 1340 BUS100, ID16 1800 1292 BUS100, ID16 1600 1244 BUS100,
    ID16 1400 1196 BUS100, ID16 1200 1148 BUS100, ID16 1000 1100 BUS100,
    ID16 800 1052 BUS100, ID16 600 988 BUS100]

/-- Catalog table `pm90_n755b` (lines 652-661). -/
def pm90_n755b : List Nat :=
  [ID16 2000 1324 BUS100, ID16 1800 1276 BUS100, ID16 1600 1228 BUS100,
    ID16 1400 1180 BUS100, ID16 1200 1132 BUS100, ID16 1000 1084 BUS100,
    ID16 800 1036 BUS100, ID16 600 988 BUS100]

/-- Catalog table `pm90_n755c` (lines 664-673). -/
def pm90_n755c : List Nat :=
  [ID16 2000 1308 BUS100, ID16 1800 1276 BUS100, ID16 1600 1228 BUS100,
    ID16 1400 1180 BUS100, ID16 1200 1132 BUS100, ID16 1000 1084 BUS100,
    ID16 800 1036 BUS100, ID16 600 988 BUS100]

/-- Catalog table `pm90_n755d` (lines 676-685). -/
def pm90_n755d : List Nat :=
  [ID16 2000 1276 BUS100, ID16 1800 1244 BUS100, ID16 1600 1196 BUS100,
    ID16 1400 1164 BUS100, ID16 1200 1116 BUS100, ID16 1000 1084 BUS100,
    ID16 800 1036 BUS100, ID16 600 988 BUS100]

/-- Catalog table `pm90_n760` (lines 688-694). -/
def pm90_n760 : List Nat :=
  [ID16 2000 1356 BUS133, ID16 1600 1244 BUS133, ID16 1333 1164 BUS133,
    ID16 1067 1084 BUS133, ID16 800 988 BUS133]

/-- Catalog table `pm90_n765a` (lines 697-706). -/
def pm90_n765a : List Nat :=
  [ID16 2100 1340 BUS100, ID16 1800 1276 BUS100, ID16 1600 1228 BUS100,
    ID16 1400 1180 BUS100, ID16 1200 1132 BUS100, ID16 1000 1084 BUS100,
    ID16 800 1036 BUS100, ID16 600 988 BUS100]

/-- Catalog table `pm90_n765b` (lines 709-718). -/
def pm90_n765b : List Nat :=
  [ID16 2100 1324 BUS100, ID16 1800 1260 BUS100, ID16 1600 1212 BUS100,
    ID16 1400 1180 BUS100, ID16 1200 1132 BUS100, ID16 1000 1084 BUS100,
    ID16 800 1036 BUS100, ID16 600 988 BUS100]

/-- Catalog table `pm90_n765c` (lines 721-730). -/
def pm90_n765c : List Nat :=
  [ID16 2100 1308 BUS100, ID16 1800 1244 BUS100, ID16 1600 1212 BUS100,
    ID16 1400 1164 BUS100, ID16 1200 1116 BUS100, ID16 1000 1084 BUS100,
    ID16 800 1036 BUS100, ID16 600 988 BUS100]

/-- Catalog table `pm90_n765e` (lines 733-742). -/
def pm90_n765e : List Nat :=
  [ID16 2100 1356 BUS100, ID16 1800 1292 BUS100, ID16 1600 1244 BUS100,
    ID16 1400 1196 BUS100, ID16 1200 1148 BUS100, ID16 1000 1100 BUS100,
    ID16 800 1052 BUS100, ID16 600 988 BUS100]

/-- Catalog table `pm90_n770` (lines 745-752). -/
def pm90_n770 : List Nat :=
  [ID16 2133 1356 BUS133, ID16 1867 1292 BUS133, ID16 1600 1212 BUS133,
    ID16 1333 1148 BUS133, ID16 1067 1068 BUS133, ID16 800 988 BUS133]

/-- Catalog table `pm90_n780` (lines 755-762). -/
def pm90_n780 : List Nat :=
  [ID16 2267 1388 BUS133, ID16 1867 1292 BUS133, ID16 1600 1212 BUS133,
    ID16 1333 1148 BUS133, ID16 1067 1068 BUS133, ID16 800 988 BUS133]

/-- Catalog table `C7M_770_ULV` (lines 770-775). -/
def C7M_770_ULV : List Nat :=
  [ID16 1000 844 BUS100, ID16 800 796 BUS100, ID16 600 796 BUS100, ID16 400 796 BUS100]

/-- Catalog table `C7M_779_ULV` (lines 778-783). -/
def C7M_779_ULV : List Nat :=
  [ID16 1000 796 BUS100, ID16 800 796 BUS100, ID16 600 796 BUS100, ID16 400 796 BUS100]

/-- Catalog table `C7M_772_ULV` (lines 786-792). -/
def C7M_772_ULV : List Nat :=
  [ID16 1200 844 BUS100, ID16 1000 844 BUS100, ID16 800 828 BUS100, ID16 600 796 BUS100,
    ID16 400 796 BUS100]

/-- Catalog table `C7M_775_ULV` (lines 795-802). -/
def C7M_775_ULV : List Nat :=
  [ID16 1500 956 BUS100, ID16 1400 940 BUS100, ID16 1000 860 BUS100, ID16 800 828 BUS100,
    ID16 600 796 BUS100, ID16 400 796 BUS100]

/-- Catalog table `C7M_771` (lines 805-811). -/
def C7M_771 : List Nat :=
  [ID16 1200 860 BUS100, ID16 1000 860 BUS100, ID16 800 844 BUS100, ID16 600 844 BUS100,
    ID16 400 844 BUS100]

/-- Catalog table `C7M_754` (lines 814-821). -/
def C7M_754 : List Nat :=
  [ID16 1500 1004 BUS100, ID16 1400 988 BUS100, ID16 1000 940 BUS100, ID16 800 844 BUS100,
    ID16 600 844 BUS100, ID16 400 844 BUS100]

/-- Catalog table `C7M_764` (lines 824-831). -/
def C7M_764 : List Nat :=
  [ID16 1600 1084 BUS100, ID16 1400 1052 BUS100, ID16 1000 1004 BUS100,
    ID16 800 844 BUS100, ID16 600 844 BUS100, ID16 400 844 BUS100]

/-- Catalog table `C7M_784` (lines 834-842). -/
def C7M_784 : List Nat :=
  [ID16 1800 1148 BUS100, ID16 1600 1100 BUS100, ID16 1400 1052 BUS100,
    ID16 1000 1004 BUS100, ID16 800 844 BUS100, ID16 600 844 BUS100, ID16 400 844 BUS100]

/-- Catalog table `C7M_794` (lines 845-854). -/
def C7M_794 : List Nat :=
  [ID16 2000 1148 BUS100, ID16 1800 1132 BUS100, ID16 1600 1100 BUS100,
    ID16 1400 1052 BUS100, ID16 1000 1004 BUS100, ID16 800 844 BUS100, ID16 600 844 BUS100,
    ID16 400 844 BUS100]

/-- Catalog table `C7M_765` (lines 857-864). -/
def C7M_765 : List Nat :=
  [ID16 1600 1084 BUS133, ID16 1467 1052 BUS133, ID16 1200 1004 BUS133,
    ID16 800 844 BUS133, ID16 667 844 BUS133, ID16 533 844 BUS133]

/-- Catalog table `C7M_785` (lines 867-875). -/
def C7M_785 : List Nat :=
  [ID16 1867 1148 BUS133, ID16 1600 1100 BUS133, ID16 1467 1052 BUS133,
    ID16 1200 1004 BUS133, ID16 800 844 BUS133, ID16 667 844 BUS133, ID16 533 844 BUS133]

/-- Catalog table `C7M_795` (lines 878-887). -/
def C7M_795 : List Nat :=
  [ID16 2000 1148 BUS133, ID16 1867 1132 BUS133, ID16 1600 1100 BUS133,
    ID16 1467 1052 BUS133, ID16 1200 1004 BUS133, ID16 800 844 BUS133, ID16 667 844 BUS133,
    ID16 533 844 BUS133]

/-- Catalog table `eden90_1000` (lines 890-895). -/
def eden90_1000 : List Nat :=
  [ID16 1000 844 BUS100, ID16 800 844 BUS100, ID16 600 844 BUS100, ID16 400 844 BUS100]

/-- The catalog `est_cpus` (lines 909-990), in source order. -/
def est_cpus : List fqentry :=
  [ENTRY CPUVENDOR_INTEL BUS100 pm130_900_ulv, ENTRY CPUVENDOR_INTEL BUS100 pm130_1000_ulv,
    ENTRY CPUVENDOR_INTEL BUS100 pm130_1100_ulv,
    ENTRY CPUVENDOR_INTEL BUS100 pm130_1100_lv, ENTRY CPUVENDOR_INTEL BUS100 pm130_1200_lv,
    ENTRY CPUVENDOR_INTEL BUS100 pm130_1300_lv, ENTRY CPUVENDOR_INTEL BUS100 pm130_1300,
    ENTRY CPUVENDOR_INTEL BUS100 pm130_1400, ENTRY CPUVENDOR_INTEL BUS100 pm130_1500,
    ENTRY CPUVENDOR_INTEL BUS100 pm130_1600, ENTRY CPUVENDOR_INTEL BUS100 pm130_1700,
    ENTRY CPUVENDOR_INTEL BUS100 pm90_n723, ENTRY CPUVENDOR_INTEL BUS100 pm90_n733g,
    ENTRY CPUVENDOR_INTEL BUS100 pm90_n733h, ENTRY CPUVENDOR_INTEL BUS100 pm90_n733i,
    ENTRY CPUVENDOR_INTEL BUS100 pm90_n733j, ENTRY CPUVENDOR_INTEL BUS100 pm90_n733k,
    ENTRY CPUVENDOR_INTEL BUS100 pm90_n733l, ENTRY CPUVENDOR_INTEL BUS100 pm90_n753g,
    ENTRY CPUVENDOR_INTEL BUS100 pm90_n753h, ENTRY CPUVENDOR_INTEL BUS100 pm90_n753i,
    ENTRY CPUVENDOR_INTEL BUS100 pm90_n753j, ENTRY CPUVENDOR_INTEL BUS100 pm90_n753k,
    ENTRY CPUVENDOR_INTEL BUS100 pm90_n753l, ENTRY CPUVENDOR_INTEL BUS100 pm90_n773g,
    ENTRY CPUVENDOR_INTEL BUS100 pm90_n773h, ENTRY CPUVENDOR_INTEL BUS100 pm90_n773i,
    ENTRY CPUVENDOR_INTEL BUS100 pm90_n773j, ENTRY CPUVENDOR_INTEL BUS100 pm90_n773k,
    ENTRY CPUVENDOR_INTEL BUS100 pm90_n773l, ENTRY CPUVENDOR_INTEL BUS100 pm90_n738,
    ENTRY CPUVENDOR_INTEL BUS100 pm90_n758, ENTRY CPUVENDOR_INTEL BUS100 pm90_n778,
    ENTRY CPUVENDOR_INTEL BUS133 pm90_n710, ENTRY CPUVENDOR_INTEL BUS100 pm90_n715a,
    ENTRY CPUVENDOR_INTEL BUS100 pm90_n715b, ENTRY CPUVENDOR_INTEL BUS100 pm90_n715c,
    ENTRY CPUVENDOR_INTEL BUS100 pm90_n715d, ENTRY CPUVENDOR_INTEL BUS100 pm90_n725a,
    ENTRY CPUVENDOR_INTEL BUS100 pm90_n725b, ENTRY CPUVENDOR_INTEL BUS100 pm90_n725c,
    ENTRY CPUVENDOR_INTEL BUS100 pm90_n725d, ENTRY CPUVENDOR_INTEL BUS133 pm90_n730,
    ENTRY CPUVENDOR_INTEL BUS100 pm90_n735a, ENTRY CPUVENDOR_INTEL BUS100 pm90_n735b,
    ENTRY CPUVENDOR_INTEL BUS100 pm90_n735c, ENTRY CPUVENDOR_INTEL BUS100 pm90_n735d,
    ENTRY CPUVENDOR_INTEL BUS133 pm90_n740, ENTRY CPUVENDOR_INTEL BUS100 pm90_n745a,
    ENTRY CPUVENDOR_INTEL BUS100 pm90_n745b, ENTRY CPUVENDOR_INTEL BUS100 pm90_n745c,
    ENTRY CPUVENDOR_INTEL BUS100 pm90_n745d, ENTRY CPUVENDOR_INTEL BUS133 pm90_n750,
    ENTRY CPUVENDOR_INTEL BUS100 pm90_n755a, ENTRY CPUVENDOR_INTEL BUS100 pm90_n755b,
    ENTRY CPUVENDOR_INTEL BUS100 pm90_n755c, ENTRY CPUVENDOR_INTEL BUS100 pm90_n755d,
    ENTRY CPUVENDOR_INTEL BUS133 pm90_n760, ENTRY CPUVENDOR_INTEL BUS100 pm90_n765a,
    ENTRY CPUVENDOR_INTEL BUS100 pm90_n765b, ENTRY CPUVENDOR_INTEL BUS100 pm90_n765c,
    ENTRY CPUVENDOR_INTEL BUS100 pm90_n765e, ENTRY CPUVENDOR_INTEL BUS133 pm90_n770,
    ENTRY CPUVENDOR_INTEL BUS133 pm90_n780, ENTRY CPUVENDOR_IDT BUS100 C7M_770_ULV,
    ENTRY CPUVENDOR_IDT BUS100 C7M_779_ULV, ENTRY CPUVENDOR_IDT BUS100 C7M_772_ULV,
    ENTRY CPUVENDOR_IDT BUS100 C7M_771, ENTRY CPUVENDOR_IDT BUS100 C7M_775_ULV,
    ENTRY CPUVENDOR_IDT BUS100 C7M_754, ENTRY CPUVENDOR_IDT BUS100 C7M_764,
    ENTRY CPUVENDOR_IDT BUS133 C7M_765, ENTRY CPUVENDOR_IDT BUS100 C7M_784,
    ENTRY CPUVENDOR_IDT BUS133 C7M_785, ENTRY CPUVENDOR_IDT BUS100 C7M_794,
    ENTRY CPUVENDOR_IDT BUS133 C7M_795, ENTRY CPUVENDOR_IDT BUS100 eden90_1000]

/-! ## Further specification-side notions -/

/-- The raw highest-performance identifier in a value of `MSR_PERF_STATUS`
(`idhi`, line 1238). -/
def raw_highest (msr : Nat) : Nat := (msr >>> 32) &&& 0xffff

/-- The raw lowest-performance identifier in a value of `MSR_PERF_STATUS`
(`idlo`, line 1239). -/
def raw_lowest (msr : Nat) : Nat := (msr >>> 48) &&& 0xffff

/-- The raw current identifier in a value of `MSR_PERF_STATUS` (`cur`,
line 1240). -/
def raw_current (msr : Nat) : Nat := msr &&& 0xffff

/-- The test of lines 1282-1283: the catalog entry has the detected vendor and
bus clock, its first element is the highest identifier and its last element
is the lowest identifier. -/
def est_match (vendor : Int) (bus idhi idlo : Nat) (fql : fqentry) : Bool :=
  decide (vendor = fql.vendor) && decide (bus = BUS_CLK fql.bus_clk)
    && decide (idhi = fql.table.getD 0 0)
    && decide (idlo = fql.table.getD (fql.n - 1) 0)

/-- The part of a text up to and including its `n`-th run of decimal digits
(the whole text when it has fewer runs). -/
def text_through_values : Nat → List Char → List Char
  | 0, _ => []
  | n + 1, text =>
    text.takeWhile (fun c => !isdigit c)
      ++ (text.dropWhile (fun c => !isdigit c)).takeWhile isdigit
      ++ text_through_values n
        ((text.dropWhile (fun c => !isdigit c)).dropWhile isdigit)

/-- The voltage-steps of a table in decimal, in table order, joined by single
spaces. -/
def joined_voltage_steps (table : List Nat) : List Char :=
  (" ".toList).intercalate (table.map (fun id => Nat.toDigits 10 (MSR2VOLTINC id)))

/-- The number of rows `tablesize` that lines 1324-1344 of `est_init_main`
compute for the raw identifiers `idhi` and `idlo` (the computation of
`est_init_main`, by itself). -/
def est_fake_size (idhi idlo : Nat) : Int :=
  let minfreq : Int := MSR2FREQINC idlo
  let maxfreq : Int := MSR2FREQINC idhi
  let minvolt : Int := MSR2VOLTINC idlo
  let maxvolt : Int := MSR2VOLTINC idhi
  let freqinc : Int := maxfreq - minfreq
  let voltinc : Int := maxvolt - minvolt
  if freqinc < voltinc ∨ voltinc = 0 then maxfreq - minfreq + 1
  else maxvolt - minvolt + 1

/-- The decrement of `volt` per row (`voltinc` after lines 1335-1344), for the
raw identifiers `idhi` and `idlo`. -/
def est_fake_voltinc (idhi idlo : Nat) : Int :=
  let minfreq : Int := MSR2FREQINC idlo
  let maxfreq : Int := MSR2FREQINC idhi
  let minvolt : Int := MSR2VOLTINC idlo
  let maxvolt : Int := MSR2VOLTINC idhi
  let freqinc : Int := maxfreq - minfreq
  let voltinc : Int := maxvolt - minvolt
  if freqinc < voltinc ∨ voltinc = 0 then
    (if voltinc ≠ 0 then (voltinc * 100).tdiv freqinc - 1 else voltinc)
  else 100

/-- The decrement of `freq` per row (`freqinc` after lines 1335-1344), for the
raw identifiers `idhi` and `idlo`. -/
def est_fake_freqinc (idhi idlo : Nat) : Int :=
  let minfreq : Int := MSR2FREQINC idlo
  let maxfreq : Int := MSR2FREQINC idhi
  let minvolt : Int := MSR2VOLTINC idlo
  let maxvolt : Int := MSR2VOLTINC idhi
  let freqinc : Int := maxfreq - minfreq
  let voltinc : Int := maxvolt - minvolt
  if freqinc < voltinc ∨ voltinc = 0 then 100
  else (freqinc * 100).tdiv voltinc - 1

/-- The table that the interpolation of lines 1324-1365 builds for the raw
identifiers `idhi` and `idlo`. -/
def est_fake_table (idhi idlo : Nat) : List Nat :=
  est_fake_rows (est_fake_freqinc idhi idlo) (est_fake_voltinc idhi idlo)
    (est_fake_size idhi idlo).toNat
    ((MSR2FREQINC idhi : Int) * 100) ((MSR2VOLTINC idhi : Int) * 100)

/-- The state in which `est_init_main` returns when it creates no table. -/
def est_no_table (bus perf_status perf_ctl : Nat) : Driver :=
  { boot perf_status perf_ctl with bus_clock := bus }

/-- An initialisation through a catalog match: i386 build, Intel, bus clock
100 MHz, `MSR_PERF_STATUS` reporting highest = (14, 26) and lowest = (6, 18),
the first and the last identifier of `pm90_n738`, and current = (7, 18);
`MSR_PERF_CTL` holds (13, 26).  The table has the rows of `pm90_n738`: 1400,
1300, 1200, 1100, 1000, 900, 800 and 600 MHz; the status register decodes to
700 MHz and the control register to 1300 MHz. -/
def n738_init : Driver :=
  est_init_main .i386 est_cpus CPUVENDOR_INTEL 10000 0x06120E1A00000712 0x0D1A

/-! ## Specification-side notions for the interpolation and the catalog -/

/-- Specification side (claim C23): the ceiling of `x / 100`, the least integer
`n` with `x ≤ 100 * n`. -/
def ceil100 (x : Int) : Int := -((-x) / 100)

/-- Specification side (claim C23): the closed form of the interpolated table
for lowest = (minF, minV) and highest = (maxF, maxV), in the words of the
specification; `pack` is `PHC_ID16`. -/
def closed_form_table (maxF minF maxV minV : Nat) : List Nat :=
  let freqSpan := maxF - minF
  let voltSpan := maxV - minV
  if freqSpan < voltSpan ∨ voltSpan = 0 then
    let d := if voltSpan = 0 then 0 else voltSpan * 100 / freqSpan - 1
    (List.range (freqSpan + 1)).map (fun (j : Nat) =>
      PHC_ID16 (maxF - j) (ceil100 (100 * (maxV : Int) - (j : Int) * (d : Int))).toNat)
  else
    let d := freqSpan * 100 / voltSpan - 1
    (List.range (voltSpan + 1)).map (fun (j : Nat) =>
      PHC_ID16 (ceil100 (100 * (maxF : Int) - (j : Int) * (d : Int))).toNat (maxV - j))

/-- Specification side (claim C27): `a / b` rounded to the nearest integer
(halves upward), for `b > 0`. -/
def round_nearest (a b : Nat) : Nat := (2 * a + b) / (2 * b)

/-- Bus speed `BUS166` of the `enum` of line 112. -/
def BUS166 : Nat := 16666

/-- Bus speed `BUS200` of the `enum` of line 112. -/
def BUS200 : Nat := 20000

/-! ## The catalog rows as written, and a long table -/

/-- The rows of the catalog tables as written in the source (lines 115-895),
in the order of `est_cpus`: for each table the arguments `(MHz, mV, bus_clk)`
of its `ID16` rows. -/
def est_cpus_rows : List (List (Nat × Nat × Nat)) :=
  [
    -- pm130_900_ulv
    [(900, 1004, BUS100), (800, 988, BUS100), (600, 844, BUS100)],
    -- pm130_1000_ulv
    [(1000, 1004, BUS100), (900, 988, BUS100), (800, 972, BUS100), (600, 844, BUS100)],
    -- pm130_1100_ulv
    [(1100, 1004, BUS100), (1000, 988, BUS100), (900, 972, BUS100), (800, 956, BUS100),
      (600, 844, BUS100)],
    -- pm130_1100_lv
    [(1100, 1180, BUS100), (1000, 1164, BUS100), (900, 1100, BUS100), (800, 1020, BUS100),
      (600, 956, BUS100)],
    -- pm130_1200_lv
    [(1200, 1180, BUS100), (1100, 1164, BUS100), (1000, 1100, BUS100), (900, 1020, BUS100),
      (800, 1004, BUS100), (600, 956, BUS100)],
    -- pm130_1300_lv
    [(1300, 1180, BUS100), (1200, 1164, BUS100), (1100, 1100, BUS100), (1000, 1020, BUS100),
      (900, 1004, BUS100), (800, 988, BUS100), (600, 956, BUS100)],
    -- pm130_1300
    [(1300, 1388, BUS100), (1200, 1356, BUS100), (1000, 1292, BUS100), (800, 1260, BUS100),
      (600, 956, BUS100)],
    -- pm130_1400
    [(1400, 1484, BUS100), (1200, 1436, BUS100), (1000, 1308, BUS100), (800, 1180, BUS100),
      (600, 956, BUS100)],
    -- pm130_1500
    [(1500, 1484, BUS100), (1400, 1452, BUS100), (1200, 1356, BUS100), (1000, 1228, BUS100),
      (800, 1116, BUS100), (600, 956, BUS100)],
    -- pm130_1600
    [(1600, 1484, BUS100), (1400, 1420, BUS100), (1200, 1276, BUS100), (1000, 1164, BUS100),
      (800, 1036, BUS100), (600, 956, BUS100)],
    -- pm130_1700
    [(1700, 1484, BUS100), (1400, 1308, BUS100), (1200, 1228, BUS100), (1000, 1116, BUS100),
      (800, 1004, BUS100), (600, 956, BUS100)],
    -- pm90_n723
    [(1000, 940, BUS100), (900, 908, BUS100), (800, 876, BUS100), (600, 812, BUS100)],
    -- pm90_n733g
    [(1100, 956, BUS100), (1000, 940, BUS100), (900, 908, BUS100), (800, 876, BUS100),
      (600, 812, BUS100)],
    -- pm90_n733h
    [(1100, 940, BUS100), (1000, 924, BUS100), (900, 892, BUS100), (800, 876, BUS100),
      (600, 812, BUS100)],
    -- pm90_n733i
    [(1100, 924, BUS100), (1000, 908, BUS100), (900, 892, BUS100), (800, 860, BUS100),
      (600, 812, BUS100)],
    -- pm90_n733j
    [(1100, 908, BUS100), (1000, 892, BUS100), (900, 876, BUS100), (800, 860, BUS100),
      (600, 812, BUS100)],
    -- pm90_n733k
    [(1100, 892, BUS100), (1000, 876, BUS100), (900, 860, BUS100), (800, 844, BUS100),
      (600, 812, BUS100)],
    -- pm90_n733l
    [(1100, 876, BUS100), (1000, 876, BUS100), (900, 860, BUS100), (800, 844, BUS100),
      (600, 812, BUS100)],
    -- pm90_n753g
    [(1200, 956, BUS100), (1100, 940, BUS100), (1000, 908, BUS100), (900, 892, BUS100),
      (800, 860, BUS100), (600, 812, BUS100)],
    -- pm90_n753h
    [(1200, 940, BUS100), (1100, 924, BUS100), (1000, 908, BUS100), (900, 876, BUS100),
      (800, 860, BUS100), (600, 812, BUS100)],
    -- pm90_n753i
    [(1200, 924, BUS100), (1100, 908, BUS100), (1000, 892, BUS100), (900, 876, BUS100),
      (800, 860, BUS100), (600, 812, BUS100)],
    -- pm90_n753j
    [(1200, 908, BUS100), (1100, 892, BUS100), (1000, 876, BUS100), (900, 860, BUS100),
      (800, 844, BUS100), (600, 812, BUS100)],
    -- pm90_n753k
    [(1200, 892, BUS100), (1100, 892, BUS100), (1000, 876, BUS100), (900, 860, BUS100),
      (800, 844, BUS100), (600, 812, BUS100)],
    -- pm90_n753l
    [(1200, 876, BUS100), (1100, 876, BUS100), (1000, 860, BUS100), (900, 844, BUS100),
      (800, 844, BUS100), (600, 812, BUS100)],
    -- pm90_n773g
    [(1300, 956, BUS100), (1200, 940, BUS100), (1100, 924, BUS100), (1000, 908, BUS100),
      (900, 876, BUS100), (800, 860, BUS100), (600, 812, BUS100)],
    -- pm90_n773h
    [(1300, 940, BUS100), (1200, 924, BUS100), (1100, 908, BUS100), (1000, 892, BUS100),
      (900, 876, BUS100), (800, 860, BUS100), (600, 812, BUS100)],
    -- pm90_n773i
    [(1300, 924, BUS100), (1200, 908, BUS100), (1100, 892, BUS100), (1000, 876, BUS100),
      (900, 860, BUS100), (800, 844, BUS100), (600, 812, BUS100)],
    -- pm90_n773j
    [(1300, 908, BUS100), (1200, 908, BUS100), (1100, 892, BUS100), (1000, 876, BUS100),
      (900, 860, BUS100), (800, 844, BUS100), (600, 812, BUS100)],
    -- pm90_n773k
    [(1300, 892, BUS100), (1200, 892, BUS100), (1100, 876, BUS100), (1000, 860, BUS100),
      (900, 860, BUS100), (800, 844, BUS100), (600, 812, BUS100)],
    -- pm90_n773l
    [(1300, 876, BUS100), (1200, 876, BUS100), (1100, 860, BUS100), (1000, 860, BUS100),
      (900, 844, BUS100), (800, 844, BUS100), (600, 812, BUS100)],
    -- pm90_n738
    [(1400, 1116, BUS100), (1300, 1116, BUS100), (1200, 1100, BUS100), (1100, 1068, BUS100),
      (1000, 1052, BUS100), (900, 1036, BUS100), (800, 1020, BUS100), (600, 988, BUS100)],
    -- pm90_n758
    [(1500, 1116, BUS100), (1400, 1116, BUS100), (1300, 1100, BUS100), (1200, 1084, BUS100),
      (1100, 1068, BUS100), (1000, 1052, BUS100), (900, 1036, BUS100), (800, 1020, BUS100),
      (600, 988, BUS100)],
    -- pm90_n778
    [(1600, 1116, BUS100), (1500, 1116, BUS100), (1400, 1100, BUS100), (1300, 1184, BUS100),
      (1200, 1068, BUS100), (1100, 1052, BUS100), (1000, 1052, BUS100), (900, 1036, BUS100),
      (800, 1020, BUS100), (600, 988, BUS100)],
    -- pm90_n710
    [(1400, 1340, BUS133), (1200, 1228, BUS133), (1000, 1148, BUS133), (800, 1068, BUS133),
      (600, 998, BUS133)],
    -- pm90_n715a
    [(1500, 1340, BUS100), (1200, 1228, BUS100), (1000, 1148, BUS100), (800, 1068, BUS100),
      (600, 988, BUS100)],
    -- pm90_n715b
    [(1500, 1324, BUS100), (1200, 1212, BUS100), (1000, 1148, BUS100), (800, 1068, BUS100),
      (600, 988, BUS100)],
    -- pm90_n715c
    [(1500, 1308, BUS100), (1200, 1212, BUS100), (1000, 1132, BUS100), (800, 1068, BUS100),
      (600, 988, BUS100)],
    -- pm90_n715d
    [(1500, 1276, BUS100), (1200, 1180, BUS100), (1000, 1116, BUS100), (800, 1052, BUS100),
      (600, 988, BUS100)],
    -- pm90_n725a
    [(1600, 1340, BUS100), (1400, 1276, BUS100), (1200, 1212, BUS100), (1000, 1132, BUS100),
      (800, 1068, BUS100), (600, 988, BUS100)],
    -- pm90_n725b
    [(1600, 1324, BUS100), (1400, 1260, BUS100), (1200, 1196, BUS100), (1000, 1132, BUS100),
      (800, 1068, BUS100), (600, 988, BUS100)],
    -- pm90_n725c
    [(1600, 1308, BUS100), (1400, 1244, BUS100), (1200, 1180, BUS100), (1000, 1116, BUS100),
      (800, 1052, BUS100), (600, 988, BUS100)],
    -- pm90_n725d
    [(1600, 1276, BUS100), (1400, 1228, BUS100), (1200, 1164, BUS100), (1000, 1116, BUS100),
      (800, 1052, BUS100), (600, 988, BUS100)],
    -- pm90_n730
    [(1600, 1308, BUS133), (1333, 1260, BUS133), (1200, 1212, BUS133), (1067, 1180, BUS133),
      (800, 988, BUS133)],
    -- pm90_n735a
    [(1700, 1340, BUS100), (1400, 1244, BUS100), (1200, 1180, BUS100), (1000, 1116, BUS100),
      (800, 1052, BUS100), (600, 988, BUS100)],
    -- pm90_n735b
    [(1700, 1324, BUS100), (1400, 1244, BUS100), (1200, 1180, BUS100), (1000, 1116, BUS100),
      (800, 1052, BUS100), (600, 988, BUS100)],
    -- pm90_n735c
    [(1700, 1308, BUS100), (1400, 1228, BUS100), (1200, 1164, BUS100), (1000, 1116, BUS100),
      (800, 1052, BUS100), (600, 988, BUS100)],
    -- pm90_n735d
    [(1700, 1276, BUS100), (1400, 1212, BUS100), (1200, 1148, BUS100), (1000, 1100, BUS100),
      (800, 1052, BUS100), (600, 988, BUS100)],
    -- pm90_n740
    [(1733, 1356, BUS133), (1333, 1212, BUS133), (1067, 1100, BUS133), (800, 988, BUS133)],
    -- pm90_n745a
    [(1800, 1340, BUS100), (1600, 1292, BUS100), (1400, 1228, BUS100), (1200, 1164, BUS100),
      (1000, 1116, BUS100), (800, 1052, BUS100), (600, 988, BUS100)],
    -- pm90_n745b
    [(1800, 1324, BUS100), (1600, 1276, BUS100), (1400, 1212, BUS100), (1200, 1164, BUS100),
      (1000, 1116, BUS100), (800, 1052, BUS100), (600, 988, BUS100)],
    -- pm90_n745c
    [(1800, 1308, BUS100), (1600, 1260, BUS100), (1400, 1212, BUS100), (1200, 1148, BUS100),
      (1000, 1100, BUS100), (800, 1052, BUS100), (600, 988, BUS100)],
    -- pm90_n745d
    [(1800, 1276, BUS100), (1600, 1228, BUS100), (1400, 1180, BUS100), (1200, 1132, BUS100),
      (1000, 1084, BUS100), (800, 1036, BUS100), (600, 988, BUS100)],
    -- pm90_n750
    [(1867, 1308, BUS133), (1600, 1228, BUS133), (1333, 1148, BUS133), (1067, 1068, BUS133),
      (800, 988, BUS133)],
    -- pm90_n755a
    [(2000, 1340, BUS100), (1800, 1292, BUS100), (1600, 1244, BUS100), (1400, 1196, BUS100),
      (1200, 1148, BUS100), (1000, 1100, BUS100), (800, 1052, BUS100), (600, 988, BUS100)],
    -- pm90_n755b
    [(2000, 1324, BUS100), (1800, 1276, BUS100), (1600, 1228, BUS100), (1400, 1180, BUS100),
      (1200, 1132, BUS100), (1000, 1084, BUS100), (800, 1036, BUS100), (600, 988, BUS100)],
    -- pm90_n755c
    [(2000, 1308, BUS100), (1800, 1276, BUS100), (1600, 1228, BUS100), (1400, 1180, BUS100),
      (1200, 1132, BUS100), (1000, 1084, BUS100), (800, 1036, BUS100), (600, 988, BUS100)],
    -- pm90_n755d
    [(2000, 1276, BUS100), (1800, 1244, BUS100), (1600, 1196, BUS100), (1400, 1164, BUS100),
      (1200, 1116, BUS100), (1000, 1084, BUS100), (800, 1036, BUS100), (600, 988, BUS100)],
    -- pm90_n760
    [(2000, 1356, BUS133), (1600, 1244, BUS133), (1333, 1164, BUS133), (1067, 1084, BUS133),
      (800, 988, BUS133)],
    -- pm90_n765a
    [(2100, 1340, BUS100), (1800, 1276, BUS100), (1600, 1228, BUS100), (1400, 1180, BUS100),
      (1200, 1132, BUS100), (1000, 1084, BUS100), (800, 1036, BUS100), (600, 988, BUS100)],
    -- pm90_n765b
    [(2100, 1324, BUS100), (1800, 1260, BUS100), (1600, 1212, BUS100), (1400, 1180, BUS100),
      (1200, 1132, BUS100), (1000, 1084, BUS100), (800, 1036, BUS100), (600, 988, BUS100)],
    -- pm90_n765c
    [(2100, 1308, BUS100), (1800, 1244, BUS100), (1600, 1212, BUS100), (1400, 1164, BUS100),
      (1200, 1116, BUS100), (1000, 1084, BUS100), (800, 1036, BUS100), (600, 988, BUS100)],
    -- pm90_n765e
    [(2100, 1356, BUS100), (1800, 1292, BUS100), (1600, 1244, BUS100), (1400, 1196, BUS100),
      (1200, 1148, BUS100), (1000, 1100, BUS100), (800, 1052, BUS100), (600, 988, BUS100)],
    -- pm90_n770
    [(2133, 1356, BUS133), (1867, 1292, BUS133), (1600, 1212, BUS133), (1333, 1148, BUS133),
      (1067, 1068, BUS133), (800, 988, BUS133)],
    -- pm90_n780
    [(2267, 1388, BUS133), (1867, 1292, BUS133), (1600, 1212, BUS133), (1333, 1148, BUS133),
      (1067, 1068, BUS133), (800, 988, BUS133)],
    -- C7M_770_ULV
    [(1000, 844, BUS100), (800, 796, BUS100), (600, 796, BUS100), (400, 796, BUS100)],
    -- C7M_779_ULV
    [(1000, 796, BUS100), (800, 796, BUS100), (600, 796, BUS100), (400, 796, BUS100)],
    -- C7M_772_ULV
    [(1200, 844, BUS100), (1000, 844, BUS100), (800, 828, BUS100), (600, 796, BUS100),
      (400, 796, BUS100)],
    -- C7M_771
    [(1200, 860, BUS100), (1000, 860, BUS100), (800, 844, BUS100), (600, 844, BUS100),
      (400, 844, BUS100)],
    -- C7M_775_ULV
    [(1500, 956, BUS100), (1400, 940, BUS100), (1000, 860, BUS100), (800, 828, BUS100),
      (600, 796, BUS100), (400, 796, BUS100)],
    -- C7M_754
    [(1500, 1004, BUS100), (1400, 988, BUS100), (1000, 940, BUS100), (800, 844, BUS100),
      (600, 844, BUS100), (400, 844, BUS100)],
    -- C7M_764
    [(1600, 1084, BUS100), (1400, 1052, BUS100), (1000, 1004, BUS100), (800, 844, BUS100),
      (600, 844, BUS100), (400, 844, BUS100)],
    -- C7M_765
    [(1600, 1084, BUS133), (1467, 1052, BUS133), (1200, 1004, BUS133), (800, 844, BUS133),
      (667, 844, BUS133), (533, 844, BUS133)],
    -- C7M_784
    [(1800, 1148, BUS100), (1600, 1100, BUS100), (1400, 1052, BUS100), (1000, 1004, BUS100),
      (800, 844, BUS100), (600, 844, BUS100), (400, 844, BUS100)],
    -- C7M_785
    [(1867, 1148, BUS133), (1600, 1100, BUS133), (1467, 1052, BUS133), (1200, 1004, BUS133),
      (800, 844, BUS133), (667, 844, BUS133), (533, 844, BUS133)],
    -- C7M_794
    [(2000, 1148, BUS100), (1800, 1132, BUS100), (1600, 1100, BUS100), (1400, 1052, BUS100),
      (1000, 1004, BUS100), (800, 844, BUS100), (600, 844, BUS100), (400, 844, BUS100)],
    -- C7M_795
    [(2000, 1148, BUS133), (1867, 1132, BUS133), (1600, 1100, BUS133), (1467, 1052, BUS133),
      (1200, 1004, BUS133), (800, 844, BUS133), (667, 844, BUS133), (533, 844, BUS133)],
    -- eden90_1000
    [(1000, 844, BUS100), (800, 844, BUS100), (600, 844, BUS100), (400, 844, BUS100)]
  ]

/-- The identifier that the row `ID16(MHz, mV, bus_clk)` of a table holds. -/
def row_id (p : Nat × Nat × Nat) : Nat := ID16 p.1 p.2.1 p.2.2

/-- Specification side (claim C32): decoding the identifier of a row with the
bus clock gives back the MHz and the mV the row lists. -/
def row_faithful (p : Nat × Nat × Nat) : Prop :=
  MSR2MHZ (row_id p) p.2.2 = p.1 ∧ MSR2MV (row_id p) = p.2.1

instance (p : Nat × Nat × Nat) : Decidable (row_faithful p) := by
  unfold row_faithful; infer_instance

/-- An initialisation that yields a table of more than 15 rows: amd64 build,
bus clock 100 MHz, `MSR_PERF_STATUS` reporting highest = (24, 40),
lowest = (6, 13) and current = highest.  The interpolation steps the frequency
by whole units and stores 19 rows. -/
def long_init : Driver :=
  est_init_main .amd64 est_cpus CPUVENDOR_INTEL 10000 0x060D182800001828 0x1828

/-! # Theorems -/

/-! ## Codec and tokenizer lemmas -/

theorem MSR2VOLTINC_eq (x : Nat) : MSR2VOLTINC x = x % 256 := by
  unfold MSR2VOLTINC
  exact Nat.and_pow_two_sub_one_eq_mod x 8

theorem MSR2FREQINC_eq (x : Nat) : MSR2FREQINC x = x / 256 % 256 := by
  unfold MSR2FREQINC
  rw [Nat.shiftRight_eq_div_pow]
  exact Nat.and_pow_two_sub_one_eq_mod _ 8

theorem PHC_ID16_eq (f v : Nat) (hv : v < 256) : PHC_ID16 f v = f * 256 + v := by
  unfold PHC_ID16
  rw [Nat.shiftLeft_eq, Nat.mul_comm f]
  exact (Nat.mul_add_lt_is_or (i := 8) hv f).symm

theorem wrap32_eq (x : Int) :
    wrap32 x = (x + 2147483648) % 4294967296 - 2147483648 := by
  unfold wrap32
  simp only
  split <;> omega

theorem wrap32_of_small (v : Nat) (h : v < 2147483648) : wrap32 v = v := by
  rw [wrap32_eq]; omega

theorem wrap32_step (d x : Int) : wrap32 (d + 10 * wrap32 x) = wrap32 (d + 10 * x) := by
  simp only [wrap32_eq]; omega

theorem isdigit_toNat (c : Char) (h : isdigit c = true) :
    (c.toNat : Int) - ('0'.toNat : Int) = ((c.toNat - 48 : Nat) : Int) := by
  have h48 : 48 ≤ c.toNat := by
    simp only [isdigit, Bool.and_eq_true, decide_eq_true_eq] at h
    have := h.1
    rw [Char.le_def] at this
    exact this
  have : ('0'.toNat : Int) = 48 := by decide
  rw [this]; omega

theorem phc_digits_spec (pc : List Char) : ∀ v : Nat, ∃ (w : Nat) (rest : List Char),
    phc_digits (wrap32 v) pc = (wrap32 w, rest) ∧
      decimal_values_from (some v) pc = w :: decimal_values_from none rest := by
  induction pc with
  | nil => intro v; exact ⟨v, [], rfl, rfl⟩
  | cons c pc ih =>
    intro v
    by_cases hc : isdigit c = true
    · obtain ⟨w, rest, h1, h2⟩ := ih (10 * v + (c.toNat - 48))
      refine ⟨w, rest, ?_, ?_⟩
      · rw [← h1]
        simp only [phc_digits, hc, if_true]
        rw [wrap32_step, isdigit_toNat c hc]
        congr 2
        push_cast; ring
      · simp only [decimal_values_from, hc, if_true]; exact h2
    · refine ⟨v, c :: pc, ?_, ?_⟩
      · simp [phc_digits, hc]
      · simp [decimal_values_from, hc]

theorem phc_skip_spec (l : List Char) :
    decimal_values_from none (phc_skip l) = decimal_values_from none l ∧
      (phc_skip l = [] ∨ ∃ c pc, phc_skip l = c :: pc ∧ isdigit c = true) := by
  induction l with
  | nil => exact ⟨rfl, Or.inl rfl⟩
  | cons c l ih =>
    by_cases hc : isdigit c = true
    · simp only [phc_skip, hc, if_true]
      exact ⟨trivial, Or.inr ⟨c, l, rfl, hc⟩⟩
    · simp only [phc_skip, hc, decimal_values_from, Bool.false_eq_true, if_false]
      exact ih

theorem phc_atoi_nil (string remain : List Char) (h : decimal_values string = []) :
    phc_atoi string remain = (-1, remain) := by
  obtain ⟨h1, h2⟩ := phc_skip_spec string
  unfold phc_atoi
  rcases h2 with h2 | ⟨c, pc, h2, hc⟩
  · rw [h2]
  · exfalso
    rw [h2] at h1
    unfold decimal_values at h
    rw [h] at h1
    simp only [decimal_values_from, hc, if_true] at h1
    obtain ⟨w, rest, -, h4⟩ := phc_digits_spec pc (c.toNat - 48)
    rw [h4] at h1
    exact List.cons_ne_nil _ _ h1

theorem phc_atoi_cons (string remain : List Char) (v : Nat) (vs : List Nat)
    (h : decimal_values string = v :: vs) :
    ∃ rest, phc_atoi string remain = (wrap32 v, rest) ∧ decimal_values rest = vs := by
  obtain ⟨h1, h2⟩ := phc_skip_spec string
  unfold decimal_values at h
  unfold phc_atoi
  rcases h2 with h2 | ⟨c, pc, h2, hc⟩
  · rw [h2] at h1
    rw [h] at h1
    simp [decimal_values_from] at h1
  · rw [h2] at h1 ⊢
    rw [h] at h1
    simp only [decimal_values_from, hc, if_true] at h1
    obtain ⟨w, rest, h3, h4⟩ := phc_digits_spec pc (c.toNat - 48)
    rw [h4] at h1
    injection h1 with hw hr
    refine ⟨rest, ?_, hr⟩
    simp only [phc_digits, hc, if_true]
    rw [isdigit_toNat c hc]
    simp only [mul_zero, add_zero]
    rw [h3, hw]


theorem phc_check_vids_spec (s : Driver) (k : Nat) :
    ∀ (i : Nat) (string remain : List Char) (vids : List Int),
      (phc_check_vids s k i string remain vids).map Prod.fst =
        (check_values (fun j => MSR2VOLTINC (load s s.phc_origin_table j)) k i
          (decimal_values string)).map (fun l => vids ++ l) := by
  induction k with
  | zero => intro i string remain vids; simp [phc_check_vids, check_values, Except.map]
  | succ k ih =>
    intro i string remain vids
    cases hv : decimal_values string with
    | nil =>
      simp only [phc_check_vids, check_values, phc_atoi_nil string remain hv]
      simp [Except.map]
    | cons v vs =>
      obtain ⟨rest, h1, h2⟩ := phc_atoi_cons string remain v vs hv
      simp only [phc_check_vids, check_values, h1]
      have ihh := ih (i + 1) rest rest (vids ++ [wrap32 v])
      rw [h2] at ihh
      generalize wrap32 v = w at ihh ⊢
      by_cases c1 : w = -1
      · simp [c1, Except.map]
      · by_cases c2 : w < 0 ∨ w > (MSR2VOLTINC (load s s.phc_origin_table i) : Int)
        · simp only [c1, c2, if_true, if_false]; simp [Except.map]
        · simp only [c1, c2, if_false]
          rw [ihh]
          cases check_values (fun j => MSR2VOLTINC (load s s.phc_origin_table j)) k (i + 1) vs <;>
            simp [Except.map]

theorem check_values_ok (ref : Nat → Nat) (k : Nat) :
    ∀ (i : Nat) (vs : List Nat) (out : List Int), check_values ref k i vs = .ok out →
      out.length = k ∧ ∀ j, j < k → 0 ≤ out.getD j 0 ∧ out.getD j 0 ≤ (ref (i + j) : Int) := by
  induction k with
  | zero =>
    intro i vs out h
    simp only [check_values, Except.ok.injEq] at h
    subst h
    exact ⟨rfl, fun j hj => absurd hj (Nat.not_lt_zero j)⟩
  | succ k ih =>
    intro i vs out h
    cases vs with
    | nil => simp [check_values] at h
    | cons v vs =>
      simp only [check_values] at h
      generalize wrap32 v = w at h
      by_cases c1 : w = -1
      · simp [c1] at h
      · by_cases c2 : w < 0 ∨ w > (ref i : Int)
        · simp [c1, c2] at h
        · simp only [c1, c2, if_false] at h
          cases hr : check_values ref k (i + 1) vs with
          | error e => rw [hr] at h; simp [Except.map] at h
          | ok l =>
            rw [hr] at h
            simp only [Except.map, Except.ok.injEq] at h
            subst h
            obtain ⟨hl, hb⟩ := ih (i + 1) vs l hr
            refine ⟨by simp [hl], ?_⟩
            intro j hj
            cases j with
            | zero =>
              simp only [List.getD_cons_zero, Nat.add_zero]
              omega
            | succ j =>
              have := hb j (by omega)
              simp only [List.getD_cons_succ]
              rw [show i + (j + 1) = i + 1 + j by omega]
              exact this

theorem check_values_within (ref : Nat → Nat) (k : Nat) :
    ∀ (i : Nat) (vs : List Nat), k ≤ vs.length →
      (∀ j, j < k → vs.getD j 0 ≤ ref (i + j)) → (∀ j, ref j < 256) →
      check_values ref k i vs = .ok ((vs.take k).map Int.ofNat) := by
  induction k with
  | zero => intro i vs _ _ _; rfl
  | succ k ih =>
    intro i vs hl hb hr
    cases vs with
    | nil => simp at hl
    | cons v vs =>
      have hv : v ≤ ref i := by simpa using hb 0 (by omega)
      have hr0 := hr i
      have hw : wrap32 v = v := wrap32_of_small v (by omega)
      simp only [check_values, hw]
      have c1 : ¬ ((v : Int) = -1) := by omega
      have c2 : ¬ ((v : Int) < 0 ∨ (v : Int) > (ref i : Int)) := by omega
      simp only [c1, c2, if_false]
      rw [ih (i + 1) vs (by simpa using hl) (fun j hj => by
        have := hb (j + 1) (by omega)
        simp only [List.getD_cons_succ] at this
        rw [show i + 1 + j = i + (j + 1) by omega]
        exact this) hr]
      simp [Except.map]


theorem check_values_error (ref : Nat → Nat) (k : Nat) :
    ∀ (i : Nat) (vs : List Nat) (e : Nat), check_values ref k i vs = .error e → e = EINVAL := by
  induction k with
  | zero => intro i vs e h; simp [check_values] at h
  | succ k ih =>
    intro i vs e h
    cases vs with
    | nil => simp only [check_values, Except.error.injEq] at h; exact h.symm
    | cons v vs =>
      simp only [check_values] at h
      by_cases c1 : wrap32 v = -1
      · simp only [c1, if_true, Except.error.injEq] at h; exact h.symm
      · by_cases c2 : wrap32 v < 0 ∨ wrap32 v > (ref i : Int)
        · simp only [c1, c2, if_true, if_false, Except.error.injEq] at h; exact h.symm
        · simp only [c1, c2, if_false] at h
          cases hr : check_values ref k (i + 1) vs with
          | error e2 =>
            rw [hr] at h
            simp only [Except.map, Except.error.injEq] at h
            subst h
            exact ih (i + 1) vs e2 hr
          | ok l => rw [hr] at h; simp [Except.map] at h


theorem check_values_short (ref : Nat → Nat) (k : Nat) :
    ∀ (i : Nat) (vs : List Nat), vs.length < k → check_values ref k i vs = .error EINVAL := by
  induction k with
  | zero => intro i vs h; exact absurd h (Nat.not_lt_zero _)
  | succ k ih =>
    intro i vs h
    cases vs with
    | nil => rfl
    | cons v vs =>
      simp only [check_values]
      by_cases c1 : wrap32 v = -1
      · simp [c1]
      · by_cases c2 : wrap32 v < 0 ∨ wrap32 v > (ref i : Int)
        · simp [c1, c2]
        · simp only [c1, c2, if_false]
          rw [ih (i + 1) vs (by simpa using h)]
          rfl


theorem check_values_take (ref : Nat → Nat) (k : Nat) :
    ∀ (i : Nat) (vs : List Nat), check_values ref k i (vs.take k) = check_values ref k i vs := by
  induction k with
  | zero => intro i vs; rfl
  | succ k ih =>
    intro i vs
    cases vs with
    | nil => rfl
    | cons v vs =>
      simp only [List.take_succ_cons, check_values]
      rw [ih (i + 1) vs]

/-! ## The two rounds of the override and the scan -/

theorem phc_save_vids_spec (vids : List Int) (k : Nat) :
    ∀ (i : Nat) (s : Driver), s.phc_origin_table = .heap → s.fake_table = .heap →
      phc_save_vids vids k i s = { s with heap := (phc_save_vids vids k i s).heap } ∧
      (phc_save_vids vids k i s).heap.length = s.heap.length ∧
      ∀ j, (phc_save_vids vids k i s).heap[j]? =
        if i ≤ j ∧ j < i + k then
          s.heap[j]?.map (fun row => PHC_ID16 (MSR2FREQINC row) (vids.getD j 0).toNat % 65536)
        else s.heap[j]? := by
  induction k with
  | zero =>
    intro i s _ _
    refine ⟨rfl, rfl, fun j => ?_⟩
    have : ¬ (i ≤ j ∧ j < i + 0) := by omega
    simp only [phc_save_vids, this, if_false]
  | succ k ih =>
    intro i s ho hf
    have hs : phc_save_vids vids (k + 1) i s =
        phc_save_vids vids k (i + 1)
          { s with heap := (s.heap.set i
              (PHC_ID16 (MSR2FREQINC (s.heap.getD i 0)) (vids.getD i 0).toNat % 65536)) } := by
      simp only [phc_save_vids, ho, hf, load, store]
    rw [hs]
    obtain ⟨h1, h2, h3⟩ := ih (i + 1)
      { s with heap := (s.heap.set i
          (PHC_ID16 (MSR2FREQINC (s.heap.getD i 0)) (vids.getD i 0).toNat % 65536)) } ho hf
    refine ⟨?_, ?_, ?_⟩
    · rw [h1]
    · rw [h2]; simp
    · intro j
      rw [h3 j]
      simp only [List.getElem?_set]
      by_cases hj : i = j
      · subst hj
        have c1 : ¬ (i + 1 ≤ i ∧ i < i + 1 + k) := by omega
        have c2 : i ≤ i ∧ i < i + (k + 1) := by omega
        simp only [c1, c2, if_true, if_false]
        by_cases hl : i < s.heap.length
        · simp [hl, List.getD_eq_getElem?_getD, List.getElem?_eq_getElem hl]
        · simp [hl, List.getElem?_eq_none (Nat.le_of_not_lt hl)]
      · simp only [hj, if_false]
        by_cases c : i + 1 ≤ j ∧ j < i + 1 + k
        · have c2 : i ≤ j ∧ j < i + (k + 1) := by omega
          simp only [c, c2, and_self, if_true]
        · have c2 : ¬ (i ≤ j ∧ j < i + (k + 1)) := by omega
          simp only [c, c2, if_false]

theorem est_scan_spec (s : Driver) (fq : Int) (i : Nat) :
    est_scan s fq i ≤ i ∧
    (∀ j, est_scan s fq i < j → j ≤ i →
      (MSR2MHZ (load s s.fake_fqlist.table j) s.bus_clock : Int) < fq) ∧
    (est_scan s fq i ≠ 0 →
      fq ≤ (MSR2MHZ (load s s.fake_fqlist.table (est_scan s fq i)) s.bus_clock : Int)) := by
  induction i with
  | zero =>
    refine ⟨Nat.le_refl _, fun j h1 h2 => ?_, fun h => absurd rfl h⟩
    simp only [est_scan] at h1
    omega
  | succ i ih =>
    by_cases c : (MSR2MHZ (load s s.fake_fqlist.table (i + 1)) s.bus_clock : Int) ≥ fq
    · have : est_scan s fq (i + 1) = i + 1 := by simp only [est_scan, c, if_true]
      rw [this]
      exact ⟨Nat.le_refl _, fun j h1 h2 => by omega, fun _ => c⟩
    · have : est_scan s fq (i + 1) = est_scan s fq i := by simp only [est_scan, c, if_false]
      rw [this]
      obtain ⟨h1, h2, h3⟩ := ih
      refine ⟨by omega, fun j hj1 hj2 => ?_, h3⟩
      by_cases hj : j = i + 1
      · subst hj; omega
      · exact h2 j hj1 (by omega)

theorem saved_row (row v : Nat) (hv : v ≤ MSR2VOLTINC row) :
    MSR2FREQINC (PHC_ID16 (MSR2FREQINC row) v % 65536) = MSR2FREQINC row ∧
      MSR2VOLTINC (PHC_ID16 (MSR2FREQINC row) v % 65536) = v := by
  have h1 : MSR2VOLTINC row < 256 := by rw [MSR2VOLTINC_eq]; omega
  have h2 : MSR2FREQINC row < 256 := by rw [MSR2FREQINC_eq]; omega
  rw [PHC_ID16_eq _ _ (by omega)]
  generalize MSR2FREQINC row = f at h2 ⊢
  generalize MSR2VOLTINC row = w at h1 hv
  rw [MSR2FREQINC_eq, MSR2VOLTINC_eq]
  omega

theorem phc_helper_result (s : Driver) (error : Nat) (newp : Option (List Char)) :
    phc_est_sysctl_helper s error newp = (error, s) ∨
    phc_est_sysctl_helper s error newp = (EOPNOTSUPP, s) ∨
    phc_est_sysctl_helper s error newp = (EINVAL, s) ∨
    ∃ input vids remain, newp = some input ∧ error = 0 ∧ s.est_fqlist ≠ .NULL ∧
      strncmp_eq_zero input s.phc_string_vids PHC_MAXLEN = false ∧
      phc_check_vids s s.fake_fqlist.n 0 input input [] = .ok (vids, remain) ∧
      phc_est_sysctl_helper s error newp =
        (0, est_set_state
          { phc_save_vids vids s.fake_fqlist.n 0 s with
            phc_string_vids := (input.take (input.length - remain.length)).take PHC_MAXLEN }
          (MSR2MHZ (phc_save_vids vids s.fake_fqlist.n 0 s).perf_status
            (phc_save_vids vids s.fake_fqlist.n 0 s).bus_clock)) := by
  unfold phc_est_sysctl_helper
  by_cases h0 : s.est_fqlist = .NULL
  · simp [h0]
  · cases newp with
    | none => simp [h0]
    | some input =>
      by_cases h1 : error ≠ 0 ∨ strncmp_eq_zero input s.phc_string_vids PHC_MAXLEN = true
      · simp only [h0, h1, if_true, if_false]; left; trivial
      · have he : error = 0 := by
          by_contra hne; exact h1 (Or.inl hne)
        have hc : strncmp_eq_zero input s.phc_string_vids PHC_MAXLEN = false := by
          cases hb : strncmp_eq_zero input s.phc_string_vids PHC_MAXLEN with
          | false => rfl
          | true => exact absurd (Or.inr hb) h1
        simp only [h0, h1, if_false]
        cases hr : phc_check_vids s s.fake_fqlist.n 0 input input [] with
        | error e =>
          have hspec := phc_check_vids_spec s s.fake_fqlist.n 0 input input []
          rw [hr] at hspec
          cases hcv : check_values (fun j => MSR2VOLTINC (load s s.phc_origin_table j))
              s.fake_fqlist.n 0 (decimal_values input) with
          | error e2 =>
            rw [hcv] at hspec
            simp only [Except.map, Except.error.injEq] at hspec
            have := check_values_error _ _ _ _ _ hcv
            right; right; left
            simp only [hspec, this]
          | ok l => rw [hcv] at hspec; simp [Except.map] at hspec
        | ok p =>
          obtain ⟨vids, remain⟩ := p
          right; right; right
          exact ⟨input, vids, remain, rfl, he, h0, hc, hr, rfl⟩

theorem Lowered.refl (t : List Nat) : Lowered t t :=
  ⟨rfl, fun _ => ⟨rfl, Nat.le_refl _⟩⟩

theorem Lowered.trans {a b c : List Nat} (h1 : Lowered a b) (h2 : Lowered b c) :
    Lowered a c :=
  ⟨h1.1.trans h2.1, fun j =>
    ⟨(h1.2 j).1.trans (h2.2 j).1, Nat.le_trans (h1.2 j).2 (h2.2 j).2⟩⟩

theorem range_map_getD (l : List Nat) :
    (List.range l.length).map (fun i => l.getD i 0) = l := by
  apply List.ext_getElem
  · simp
  · intro i h1 h2
    simp [List.getD_eq_getElem?_getD, List.getElem?_eq_getElem h2]

theorem live_table_eq (s : Driver) (h : Functional s) : live_table s = s.heap := by
  obtain ⟨_, h2, _, _, h5⟩ := h
  unfold live_table
  rw [h2, h5]
  exact range_map_getD s.heap

theorem origin_table_eq (s : Driver) (h : Functional s) : origin_table s = s.heap := by
  obtain ⟨_, _, _, h4, h5⟩ := h
  unfold origin_table
  rw [h4, h5]
  exact range_map_getD s.heap

/-- What an accepted first round says about the values it collected. -/
theorem phc_check_vids_ok (s : Driver) (input remain : List Char) (vids : List Int)
    (h : phc_check_vids s s.fake_fqlist.n 0 input input [] = .ok (vids, remain)) :
    check_values (fun j => MSR2VOLTINC (load s s.phc_origin_table j)) s.fake_fqlist.n 0
      (decimal_values input) = .ok vids := by
  have hspec := phc_check_vids_spec s s.fake_fqlist.n 0 input input []
  rw [h] at hspec
  cases hcv : check_values (fun j => MSR2VOLTINC (load s s.phc_origin_table j))
      s.fake_fqlist.n 0 (decimal_values input) with
  | error e => rw [hcv] at hspec; simp [Except.map] at hspec
  | ok l =>
    rw [hcv] at hspec
    simp only [Except.map, List.nil_append, Except.ok.injEq] at hspec
    rw [hspec]

theorem phc_save_lowered (s : Driver) (hf : Functional s) (input remain : List Char)
    (vids : List Int)
    (h : phc_check_vids s s.fake_fqlist.n 0 input input [] = .ok (vids, remain)) :
    Lowered (phc_save_vids vids s.fake_fqlist.n 0 s).heap s.heap := by
  obtain ⟨_, h2, h3, h4, h5⟩ := hf
  obtain ⟨_, hlen, hpt⟩ := phc_save_vids_spec vids s.fake_fqlist.n 0 s h4 h3
  obtain ⟨_, hb⟩ := check_values_ok _ _ _ _ _ (phc_check_vids_ok s input remain vids h)
  refine ⟨hlen, fun j => ?_⟩
  have hj := hpt j
  simp only [List.getD_eq_getElem?_getD]
  rw [hj]
  by_cases c : j < s.heap.length
  · have c2 : 0 ≤ j ∧ j < 0 + s.fake_fqlist.n := by omega
    simp only [c2, and_self, if_true, List.getElem?_eq_getElem c, Option.map_some',
      Option.getD_some]
    have hbj := hb j (by omega)
    simp only [h4, load, Nat.zero_add, List.getD_eq_getElem?_getD, List.getElem?_eq_getElem c,
      Option.getD_some] at hbj
    have hv : (vids.getD j 0).toNat ≤ MSR2VOLTINC s.heap[j] := by
      simp only [List.getD_eq_getElem?_getD]
      omega
    obtain ⟨e1, e2⟩ := saved_row s.heap[j] (vids.getD j 0).toNat hv
    rw [e1, e2]
    exact ⟨rfl, hv⟩
  · have c2 : ¬ (0 ≤ j ∧ j < 0 + s.fake_fqlist.n) := by omega
    simp only [c2, if_false]
    exact ⟨trivial, Nat.le_refl _⟩

/-! ## Invariants of the Live Table -/

theorem est_helper_result (s : Driver) (rnode : SysctlNode) (error : Nat) (newp : Option Int) :
    (est_sysctl_helper s rnode error newp).2 = s ∨
    ∃ fq, newp = some fq ∧ rnode = .target ∧ error = 0 ∧ s.est_fqlist ≠ .NULL ∧
      fq ≠ (MSR2MHZ s.perf_ctl s.bus_clock : Int) ∧
      est_sysctl_helper s rnode error newp = (0, est_set_state s fq) := by
  unfold est_sysctl_helper
  by_cases h0 : s.est_fqlist = .NULL
  · simp [h0]
  · cases rnode with
    | other => simp [h0]
    | current =>
      cases newp with
      | none => simp [h0]
      | some fq => by_cases he : error ≠ 0 <;> simp [h0, he]
    | target =>
      cases newp with
      | none => simp [h0]
      | some fq =>
        by_cases he : error ≠ 0
        · simp [h0, he]
        · by_cases hq : fq ≠ (MSR2MHZ s.perf_ctl s.bus_clock : Int)
          · right
            refine ⟨fq, rfl, rfl, by omega, h0, hq, ?_⟩
            simp only [h0, he, if_false]
            rw [if_pos hq]
          · simp [h0, he, hq]

theorem functional_est_set_state (s : Driver) (fq : Int) (h : Functional s) :
    Functional (est_set_state s fq) := h

theorem phc_accept_state (s : Driver) (hf : Functional s) (input remain : List Char)
    (vids : List Int) (str : List Char) (fq : Int)
    (h : phc_check_vids s s.fake_fqlist.n 0 input input [] = .ok (vids, remain)) :
    Functional (est_set_state
        { phc_save_vids vids s.fake_fqlist.n 0 s with phc_string_vids := str } fq) ∧
      Lowered (est_set_state
        { phc_save_vids vids s.fake_fqlist.n 0 s with phc_string_vids := str } fq).heap
        s.heap := by
  have hl := phc_save_lowered s hf input remain vids h
  obtain ⟨h1, h2, h3, h4, h5⟩ := hf
  obtain ⟨hs, hlen, _⟩ := phc_save_vids_spec vids s.fake_fqlist.n 0 s h4 h3
  refine ⟨?_, hl⟩
  show Functional { phc_save_vids vids s.fake_fqlist.n 0 s with phc_string_vids := str }
  rw [hs]
  exact ⟨h1, h2, h3, h4, by show s.fake_fqlist.n = _; rw [hlen]; exact h5⟩

theorem call_step (s : Driver) (c : Call) (hf : Functional s) :
    Functional (c.apply s) ∧ Lowered (c.apply s).heap s.heap := by
  cases c with
  | est rnode error newp =>
    rcases est_helper_result s rnode error newp with h | ⟨fq, -, -, -, -, -, h⟩
    · simp only [Call.apply, h]; exact ⟨hf, Lowered.refl _⟩
    · simp only [Call.apply, h]; exact ⟨hf, Lowered.refl _⟩
  | phc error newp =>
    rcases phc_helper_result s error newp with h | h | h | ⟨input, vids, remain, -, -, -, -, hc, h⟩
    · simp only [Call.apply, h]; exact ⟨hf, Lowered.refl _⟩
    · simp only [Call.apply, h]; exact ⟨hf, Lowered.refl _⟩
    · simp only [Call.apply, h]; exact ⟨hf, Lowered.refl _⟩
    · simp only [Call.apply, h]
      exact phc_accept_state s hf input remain vids _ _ hc
  | registers st ctl => exact ⟨hf, Lowered.refl _⟩

theorem run_step (calls : List Call) : ∀ (s : Driver), Functional s →
    Functional (run s calls) ∧ Lowered (run s calls).heap s.heap := by
  induction calls with
  | nil => intro s hf; exact ⟨hf, Lowered.refl _⟩
  | cons c calls ih =>
    intro s hf
    obtain ⟨h1, h2⟩ := call_step s c hf
    obtain ⟨h3, h4⟩ := ih (c.apply s) h1
    exact ⟨h3, h4.trans h2⟩

/-- Claim C3: after any sequence of requests following initialisation (calls of
either handler with any arguments, register changes in between), the Live
Table has the length it had when created and the voltage-step of every row is
at most the voltage-step that row had when the table was created. -/
theorem C3_voltage_never_above_factory (s0 : Driver) (calls : List Call) (h : Functional s0) :
    (live_table (run s0 calls)).length = (live_table s0).length ∧
      ∀ i, i < (live_table s0).length →
        MSR2VOLTINC ((live_table (run s0 calls)).getD i 0) ≤
          MSR2VOLTINC ((live_table s0).getD i 0) := by
  obtain ⟨h1, h2⟩ := run_step calls s0 h
  rw [live_table_eq _ h1, live_table_eq _ h]
  exact ⟨h2.1, fun i _ => (h2.2 i).2⟩

/-- Claim C7: after any sequence of setTarget and applyOverride calls (any
handler calls, any arguments) following initialisation, the Live Table has the
same frequency-steps, row by row and in the same order, as when it was
created; in particular its length is unchanged. -/
theorem C7_frequency_steps_fixed (s0 : Driver) (calls : List Call) (h : Functional s0) :
    (live_table (run s0 calls)).map MSR2FREQINC = (live_table s0).map MSR2FREQINC := by
  obtain ⟨h1, h2⟩ := run_step calls s0 h
  rw [live_table_eq _ h1, live_table_eq _ h]
  apply List.ext_getElem
  · simp [h2.1]
  · intro i hi1 hi2
    simp only [List.length_map] at hi1 hi2
    have := (h2.2 i).1
    simp only [List.getD_eq_getElem?_getD, List.getElem?_eq_getElem hi1,
      List.getElem?_eq_getElem hi2, Option.getD_some] at this
    simp only [List.getElem_map]
    exact this

/-! ## Accepted and rejected overrides -/

theorem phc_helper_accept (s : Driver) (input remain : List Char) (vids : List Int)
    (h0 : s.est_fqlist ≠ .NULL)
    (hc : strncmp_eq_zero input s.phc_string_vids PHC_MAXLEN = false)
    (hr : phc_check_vids s s.fake_fqlist.n 0 input input [] = .ok (vids, remain)) :
    phc_est_sysctl_helper s 0 (some input) =
      (0, est_set_state
        { phc_save_vids vids s.fake_fqlist.n 0 s with
          phc_string_vids := (input.take (input.length - remain.length)).take PHC_MAXLEN }
        (MSR2MHZ (phc_save_vids vids s.fake_fqlist.n 0 s).perf_status
          (phc_save_vids vids s.fake_fqlist.n 0 s).bus_clock)) := by
  unfold phc_est_sysctl_helper
  simp only [h0, hc, hr, if_false, ne_eq, not_true_eq_false, false_or, Bool.false_eq_true]

theorem phc_helper_reject (s : Driver) (input : List Char) (e : Nat)
    (h0 : s.est_fqlist ≠ .NULL)
    (hc : strncmp_eq_zero input s.phc_string_vids PHC_MAXLEN = false)
    (hr : phc_check_vids s s.fake_fqlist.n 0 input input [] = .error e) :
    phc_est_sysctl_helper s 0 (some input) = (e, s) := by
  unfold phc_est_sysctl_helper
  simp only [h0, hc, hr, if_false, ne_eq, not_true_eq_false, false_or, Bool.false_eq_true]

/-- The first round decided on the list of decimal values. -/
theorem phc_check_vids_of_values (s : Driver) (input : List Char) :
    (∀ l, check_values (fun j => MSR2VOLTINC (load s s.phc_origin_table j)) s.fake_fqlist.n 0
        (decimal_values input) = .ok l →
      ∃ remain, phc_check_vids s s.fake_fqlist.n 0 input input [] = .ok (l, remain)) ∧
    (∀ e, check_values (fun j => MSR2VOLTINC (load s s.phc_origin_table j)) s.fake_fqlist.n 0
        (decimal_values input) = .error e →
      phc_check_vids s s.fake_fqlist.n 0 input input [] = .error e) := by
  have hspec := phc_check_vids_spec s s.fake_fqlist.n 0 input input []
  constructor
  · intro l hl
    rw [hl] at hspec
    cases hr : phc_check_vids s s.fake_fqlist.n 0 input input [] with
    | error e => rw [hr] at hspec; simp [Except.map] at hspec
    | ok p =>
      rw [hr] at hspec
      simp only [Except.map, List.nil_append, Except.ok.injEq] at hspec
      exact ⟨p.2, by rw [← hspec]⟩
  · intro e he
    rw [he] at hspec
    cases hr : phc_check_vids s s.fake_fqlist.n 0 input input [] with
    | error e2 =>
      rw [hr] at hspec
      simp only [Except.map, Except.error.injEq] at hspec
      rw [hspec]
    | ok p => rw [hr] at hspec; simp [Except.map] at hspec

theorem voltinc_lt (x : Nat) : MSR2VOLTINC x < 256 := by
  rw [MSR2VOLTINC_eq]; omega

theorem freqinc_lt (x : Nat) : MSR2FREQINC x < 256 := by
  rw [MSR2FREQINC_eq]; omega

/-- Claim C5: for an N-row Live Table and an input that differs from the session
string and whose first N decimal values are each at most the voltage-step the
driver reads from the Origin Table for that row, applyOverride returns 0 and
row i of the Live Table becomes `PHC_ID16` of the row's frequency-step and the
i-th value, for every row, in table order. -/
theorem C5_override_applied (s : Driver) (input : List Char) (h : Functional s)
    (hd : strncmp_eq_zero input s.phc_string_vids PHC_MAXLEN = false)
    (hn : (live_table s).length ≤ (decimal_values input).length)
    (hb : ∀ i, i < (live_table s).length →
      (decimal_values input).getD i 0 ≤ MSR2VOLTINC ((origin_table s).getD i 0)) :
    (applyOverride s input).1 = 0 ∧
      live_table (applyOverride s input).2 =
        List.zipWith (fun row v => PHC_ID16 (MSR2FREQINC row) v) (live_table s)
          (decimal_values input) := by
  have hf := h
  obtain ⟨h1, h2, h3, h4, h5⟩ := h
  rw [live_table_eq s hf] at hn hb ⊢
  rw [origin_table_eq s hf] at hb
  have h0 : s.est_fqlist ≠ .NULL := by rw [h1]; decide
  have hcv := check_values_within (fun j => MSR2VOLTINC (load s s.phc_origin_table j))
    s.fake_fqlist.n 0 (decimal_values input) (by omega)
    (fun j hj => by
      have := hb j (by omega)
      simp only [h4, load, Nat.zero_add]
      exact this)
    (fun j => voltinc_lt _)
  obtain ⟨remain, hr⟩ := (phc_check_vids_of_values s input).1 _ hcv
  unfold applyOverride
  rw [phc_helper_accept s input remain _ h0 hd hr]
  refine ⟨rfl, ?_⟩
  obtain ⟨hacc, _⟩ := phc_accept_state s hf input remain _
    ((input.take (input.length - remain.length)).take PHC_MAXLEN)
    (MSR2MHZ (phc_save_vids (List.map Int.ofNat
      (List.take s.fake_fqlist.n (decimal_values input))) s.fake_fqlist.n 0 s).perf_status
      (phc_save_vids (List.map Int.ofNat
      (List.take s.fake_fqlist.n (decimal_values input))) s.fake_fqlist.n 0 s).bus_clock) hr
  rw [live_table_eq _ hacc]
  obtain ⟨_, hlen, hpt⟩ := phc_save_vids_spec (List.map Int.ofNat
      (List.take s.fake_fqlist.n (decimal_values input))) s.fake_fqlist.n 0 s h4 h3
  show (phc_save_vids _ s.fake_fqlist.n 0 s).heap = _
  apply List.ext_getElem?
  intro j
  rw [hpt j, List.getElem?_zipWith]
  by_cases c : j < s.heap.length
  · have c2 : 0 ≤ j ∧ j < 0 + s.fake_fqlist.n := by omega
    have c3 : j < (decimal_values input).length := by omega
    have hbj := hb j c
    simp only [List.getD_eq_getElem?_getD, List.getElem?_eq_getElem c,
      List.getElem?_eq_getElem c3, Option.getD_some] at hbj
    have hv := voltinc_lt s.heap[j]
    have hfq := freqinc_lt s.heap[j]
    have e1 : (List.map Int.ofNat
        (List.take s.fake_fqlist.n (decimal_values input))).getD j 0
          = ((decimal_values input)[j] : Int) := by
      simp [List.getD_eq_getElem?_getD, List.getElem?_take, h5, c, List.getElem?_eq_getElem c3]
    simp only [c2, and_self, if_true, List.getElem?_eq_getElem c, List.getElem?_eq_getElem c3,
      Option.map_some', e1, Int.toNat_ofNat]
    rw [PHC_ID16_eq _ _ (by omega)]
    congr 1
    omega
  · have c2 : ¬ (0 ≤ j ∧ j < 0 + s.fake_fqlist.n) := by omega
    simp only [c2, if_false, List.getElem?_eq_none (Nat.le_of_not_lt c)]

/-- The outcome of an override that differs from the session string, decided
on the list of decimal values of the input. -/
theorem applyOverride_of_values (s : Driver) (input : List Char) (h : Functional s)
    (hd : strncmp_eq_zero input s.phc_string_vids PHC_MAXLEN = false) :
    (∀ e, check_values (fun j => MSR2VOLTINC (load s s.phc_origin_table j)) s.fake_fqlist.n 0
        (decimal_values input) = .error e → applyOverride s input = (e, s)) ∧
    (∀ l, check_values (fun j => MSR2VOLTINC (load s s.phc_origin_table j)) s.fake_fqlist.n 0
        (decimal_values input) = .ok l →
      (applyOverride s input).1 = 0 ∧
      live_table (applyOverride s input).2 = (phc_save_vids l s.fake_fqlist.n 0 s).heap) := by
  have h0 : s.est_fqlist ≠ .NULL := by rw [h.1]; decide
  constructor
  · intro e he
    exact phc_helper_reject s input e h0 hd ((phc_check_vids_of_values s input).2 e he)
  · intro l hl
    obtain ⟨remain, hr⟩ := (phc_check_vids_of_values s input).1 l hl
    unfold applyOverride
    rw [phc_helper_accept s input remain l h0 hd hr]
    refine ⟨rfl, ?_⟩
    obtain ⟨hacc, _⟩ := phc_accept_state s h input remain l
      ((input.take (input.length - remain.length)).take PHC_MAXLEN)
      (MSR2MHZ (phc_save_vids l s.fake_fqlist.n 0 s).perf_status
        (phc_save_vids l s.fake_fqlist.n 0 s).bus_clock) hr
    rw [live_table_eq _ hacc]
    rfl

/-- Claim C6 as amended: an input (differing from the session string) with fewer
decimal values than the Live Table has rows is rejected with `EINVAL` and
leaves the state unchanged; values beyond the N-th are ignored, that is, two
inputs with the same first N values give the same return value and the same
Live Table. -/
theorem C6_fewer_rejected_extra_ignored (s : Driver) (a b : List Char) (h : Functional s)
    (ha : strncmp_eq_zero a s.phc_string_vids PHC_MAXLEN = false)
    (hb : strncmp_eq_zero b s.phc_string_vids PHC_MAXLEN = false) :
    ((decimal_values a).length < (live_table s).length → applyOverride s a = (EINVAL, s)) ∧
    ((decimal_values a).take (live_table s).length =
        (decimal_values b).take (live_table s).length →
      (applyOverride s a).1 = (applyOverride s b).1 ∧
      live_table (applyOverride s a).2 = live_table (applyOverride s b).2) := by
  rw [live_table_eq s h, ← h.2.2.2.2]
  obtain ⟨ea, oa⟩ := applyOverride_of_values s a h ha
  obtain ⟨eb, ob⟩ := applyOverride_of_values s b h hb
  constructor
  · intro hlt
    exact ea _ (check_values_short _ _ _ _ hlt)
  · intro heq
    have hcv : check_values (fun j => MSR2VOLTINC (load s s.phc_origin_table j))
        s.fake_fqlist.n 0 (decimal_values a) =
      check_values (fun j => MSR2VOLTINC (load s s.phc_origin_table j))
        s.fake_fqlist.n 0 (decimal_values b) := by
      rw [← check_values_take _ _ _ (decimal_values a), heq, check_values_take]
    cases hr : check_values (fun j => MSR2VOLTINC (load s s.phc_origin_table j))
        s.fake_fqlist.n 0 (decimal_values b) with
    | error e =>
      rw [hr] at hcv
      rw [ea e hcv, eb e hr]
      exact ⟨rfl, rfl⟩
    | ok l =>
      rw [hr] at hcv
      obtain ⟨a1, a2⟩ := oa l hcv
      obtain ⟨b1, b2⟩ := ob l hr
      exact ⟨a1.trans b1.symm, a2.trans b2.symm⟩

/-! ## Initialisation -/

theorem est_fake_rows_length (fi vi : Int) (k : Nat) :
    ∀ (freq volt : Int), (est_fake_rows fi vi k freq volt).length = k := by
  induction k with
  | zero => intro _ _; rfl
  | succ k ih => intro freq volt; simp only [est_fake_rows, List.length_cons, ih]

theorem est_init_finish_functional (x : Driver) (h1 : x.est_fqlist = .fake_fqlist)
    (h2 : x.fake_fqlist.table = .heap) (h3 : x.fake_table = .heap)
    (h5 : x.fake_fqlist.n = x.heap.length) : Functional (est_init_finish x) :=
  ⟨h1, h2, h3, h3, h5⟩

/-- Initialisation yields no table or a functional state, provided the catalog
records the length of each of its tables and the highest identifier's
voltage-step is not more than one below the lowest's. -/
theorem est_init_main_functional (arch : Arch) (est_cpus : List fqentry) (vendor : Int)
    (bus perf_status perf_ctl : Nat)
    (hcat : ∀ e, e ∈ est_cpus → e.n = e.table.length)
    (hvolt : MSR2VOLTINC ((perf_status >>> 48) &&& 0xffff) ≤
      MSR2VOLTINC ((perf_status >>> 32) &&& 0xffff) + 1) :
    (est_init_main arch est_cpus vendor bus perf_status perf_ctl).est_fqlist = .NULL ∨
      Functional (est_init_main arch est_cpus vendor bus perf_status perf_ctl) := by
  unfold est_init_main
  simp only
  split
  · left; rfl
  · split
    · left; rfl
    · split
      · left; rfl
      · split
        · left; rfl
        · rename_i hb h386 h64a h64b
          split
          · rename_i found hfound
            split
            · left; rfl
            · split
              · left; rfl
              · rename_i hne hfreq
                right
                apply est_init_finish_functional
                · rfl
                · rfl
                · rfl
                · show (_ : Int).toNat = (est_fake_rows _ _ _ _ _).length
                  rw [est_fake_rows_length]
                  have hf1 := freqinc_lt ((perf_status >>> 48) &&& 0xffff)
                  have hf2 := freqinc_lt ((perf_status >>> 32) &&& 0xffff)
                  have hv1 := voltinc_lt ((perf_status >>> 48) &&& 0xffff)
                  have hv2 := voltinc_lt ((perf_status >>> 32) &&& 0xffff)
                  have hle : MSR2FREQINC ((perf_status >>> 48) &&& 0xffff) ≤
                      MSR2FREQINC ((perf_status >>> 32) &&& 0xffff) := by
                    unfold MSR2FREQINC
                    cases arch with
                    | i386 => simp at h386; omega
                    | amd64 => simp at h64b; omega
                  split <;> omega
          · rename_i fql hfound
            right
            apply est_init_finish_functional
            · rfl
            · rfl
            · rfl
            · show fql.n = (fql.table.take fql.n).length
              have hmem : fql ∈ est_cpus := by
                by_cases ha : arch = .i386
                · simp only [ha, if_true] at hfound
                  exact List.mem_of_find?_eq_some hfound
                · simp only [ha, if_false] at hfound
                  exact absurd hfound (by simp)
              rw [List.length_take, hcat fql hmem]
              simp

/-! ## Frequency selection -/

theorem pairwise_map_index {R : Nat → Nat → Prop} (f : Nat → Nat) (l : List Nat)
    (h : (l.map f).Pairwise R) (i j : Nat) (hij : i < j) (hj : j < l.length) :
    R (f (l.getD i 0)) (f (l.getD j 0)) := by
  have hi : i < l.length := by omega
  have := (List.pairwise_iff_getElem.1 h) i j (by simpa using hi) (by simpa using hj) hij
  simpa [List.getD_eq_getElem?_getD, List.getElem?_eq_getElem hi,
    List.getElem?_eq_getElem hj] using this

theorem setTarget_changed (s : Driver) (fq : Int) (h0 : s.est_fqlist ≠ .NULL)
    (hq : fq ≠ (MSR2MHZ s.perf_ctl s.bus_clock : Int)) :
    setTarget s fq = (0, est_set_state s fq) := by
  unfold setTarget est_sysctl_helper
  simp only [h0, if_false, ne_eq, not_true_eq_false]
  rw [if_pos hq]

theorem setTarget_same (s : Driver) (fq : Int) (h0 : s.est_fqlist ≠ .NULL)
    (hq : fq = (MSR2MHZ s.perf_ctl s.bus_clock : Int)) :
    setTarget s fq = (0, s) := by
  unfold setTarget est_sysctl_helper
  simp only [h0, if_false, ne_eq, not_true_eq_false]
  rw [if_neg (by simpa using hq)]

/-- The row selected by the scan, for a table with at least one row. -/
theorem est_scan_select (s : Driver) (fq : Int) (h : Functional s) (hne : s.heap ≠ []) :
    est_scan s fq (s.fake_fqlist.n - 1) < s.heap.length ∧
    (∀ j, est_scan s fq (s.fake_fqlist.n - 1) < j → j < s.heap.length →
      (MSR2MHZ (s.heap.getD j 0) s.bus_clock : Int) < fq) ∧
    (est_scan s fq (s.fake_fqlist.n - 1) ≠ 0 →
      fq ≤ (MSR2MHZ (s.heap.getD (est_scan s fq (s.fake_fqlist.n - 1)) 0) s.bus_clock : Int)) ∧
    (est_set_state s fq).broadcasts = s.broadcasts ++
      [{ msr_read := true, msr_type := MSR_PERF_CTL, msr_mask := 0xffff,
         msr_value := s.heap.getD (est_scan s fq (s.fake_fqlist.n - 1)) 0 }] := by
  obtain ⟨_, h2, _, _, h5⟩ := h
  have hlen : 0 < s.heap.length := List.length_pos.2 hne
  obtain ⟨a, b, c⟩ := est_scan_spec s fq (s.fake_fqlist.n - 1)
  simp only [h2, load] at b c
  refine ⟨by omega, fun j hj1 hj2 => b j hj1 (by omega), c, ?_⟩
  simp only [est_set_state, do_msr_cpu_broadcast, h2, load]

/-- Claim C8: for a non-empty Live Table whose decoded frequencies strictly
descend and a request that differs from the decoded frequency of the control
register, setTarget returns 0 and issues exactly one broadcast, with mask
`0xffff`, of the unchanged identifier of a row `k` such that: if some row
decodes to at least the request, row `k` does and no such row decodes lower;
if no row does, `k = 0`; and if the request equals the decoded frequency of
row `j`, then `k = j`.  The Live Table is left as it was. -/
theorem C8_setTarget_selects (s : Driver) (fq : Int) (h : Functional s)
    (hne : live_table s ≠ [])
    (hsorted : ((live_table s).map (fun id => MSR2MHZ id s.bus_clock)).Pairwise
      (fun a b => a > b))
    (hq : fq ≠ (MSR2MHZ s.perf_ctl s.bus_clock : Int)) :
    ∃ k, k < (live_table s).length ∧
      (setTarget s fq).1 = 0 ∧
      (setTarget s fq).2.broadcasts = s.broadcasts ++
        [{ msr_read := true, msr_type := MSR_PERF_CTL, msr_mask := 0xffff,
           msr_value := (live_table s).getD k 0 }] ∧
      live_table (setTarget s fq).2 = live_table s ∧
      ((∃ j, j < (live_table s).length ∧
          fq ≤ (MSR2MHZ ((live_table s).getD j 0) s.bus_clock : Int)) →
        fq ≤ (MSR2MHZ ((live_table s).getD k 0) s.bus_clock : Int) ∧
        ∀ j, j < (live_table s).length →
          fq ≤ (MSR2MHZ ((live_table s).getD j 0) s.bus_clock : Int) →
          MSR2MHZ ((live_table s).getD k 0) s.bus_clock ≤
            MSR2MHZ ((live_table s).getD j 0) s.bus_clock) ∧
      ((∀ j, j < (live_table s).length →
          (MSR2MHZ ((live_table s).getD j 0) s.bus_clock : Int) < fq) → k = 0) ∧
      (∀ j, j < (live_table s).length →
          fq = (MSR2MHZ ((live_table s).getD j 0) s.bus_clock : Int) → k = j) := by
  have hf := h
  rw [live_table_eq s hf] at hne hsorted ⊢
  have h0 : s.est_fqlist ≠ .NULL := by rw [h.1]; decide
  obtain ⟨a, b, c, d⟩ := est_scan_select s fq hf hne
  have hs := fun i j hij hj => pairwise_map_index (fun id => MSR2MHZ id s.bus_clock) s.heap
    hsorted i j hij hj
  rw [setTarget_changed s fq h0 hq]
  refine ⟨est_scan s fq (s.fake_fqlist.n - 1), a, rfl, d, ?_, ?_, ?_, ?_⟩
  · rw [live_table_eq _ (functional_est_set_state s fq hf)]; rfl
  · rintro ⟨j, hj, hjq⟩
    have hjk : j ≤ est_scan s fq (s.fake_fqlist.n - 1) := by
      by_contra hc
      have := b j (by omega) hj
      omega
    constructor
    · by_cases hk : est_scan s fq (s.fake_fqlist.n - 1) = 0
      · have : j = 0 := by omega
        rw [hk]; rw [this] at hjq; exact hjq
      · exact c hk
    · intro j2 hj2 hj2q
      have hj2k : j2 ≤ est_scan s fq (s.fake_fqlist.n - 1) := by
        by_contra hc
        have := b j2 (by omega) hj2
        omega
      by_cases e : j2 = est_scan s fq (s.fake_fqlist.n - 1)
      · rw [e]
      · exact Nat.le_of_lt (hs j2 _ (by omega) a)
  · intro hall
    by_contra hk
    have := c hk
    have := hall _ a
    omega
  · intro j hj hjq
    have hjk : j ≤ est_scan s fq (s.fake_fqlist.n - 1) := by
      by_contra hc
      have := b j (by omega) hj
      omega
    by_contra hne2
    have hlt : j < est_scan s fq (s.fake_fqlist.n - 1) := by omega
    have h1 := c (by omega)
    have h2 := hs j _ hlt a
    simp only at h2
    omega

/-- Claim C9 as amended: setTarget maps a request to the nearest Live Table entry
at or above it.  For a Live Table sorted by descending decoded frequency and a
request that differs from the current target and is at most the highest
decoded frequency, the row broadcast decodes to at least the request, and no
row decodes to at least the request and strictly below the selected row. -/
theorem C9_setTarget_nearest_at_or_above (s : Driver) (fq : Int) (h : Functional s)
    (hsorted : ((live_table s).map (fun id => MSR2MHZ id s.bus_clock)).Pairwise
      (fun a b => a ≥ b))
    (hq : fq ≠ (MSR2MHZ s.perf_ctl s.bus_clock : Int))
    (hmax : ∃ j, j < (live_table s).length ∧
      fq ≤ (MSR2MHZ ((live_table s).getD j 0) s.bus_clock : Int)) :
    ∃ k, k < (live_table s).length ∧
      (setTarget s fq).2.broadcasts = s.broadcasts ++
        [{ msr_read := true, msr_type := MSR_PERF_CTL, msr_mask := 0xffff,
           msr_value := (live_table s).getD k 0 }] ∧
      fq ≤ (MSR2MHZ ((live_table s).getD k 0) s.bus_clock : Int) ∧
      ∀ j, j < (live_table s).length →
        ¬ (fq ≤ (MSR2MHZ ((live_table s).getD j 0) s.bus_clock : Int) ∧
          MSR2MHZ ((live_table s).getD j 0) s.bus_clock <
            MSR2MHZ ((live_table s).getD k 0) s.bus_clock) := by
  have hf := h
  rw [live_table_eq s hf] at hsorted hmax ⊢
  have h0 : s.est_fqlist ≠ .NULL := by rw [h.1]; decide
  obtain ⟨j, hj, hjq⟩ := hmax
  have hne : s.heap ≠ [] := by
    intro e; rw [e] at hj; exact absurd hj (Nat.not_lt_zero _)
  obtain ⟨a, b, c, d⟩ := est_scan_select s fq hf hne
  have hs := fun i j hij hj => pairwise_map_index (fun id => MSR2MHZ id s.bus_clock) s.heap
    hsorted i j hij hj
  rw [setTarget_changed s fq h0 hq]
  have hjk : j ≤ est_scan s fq (s.fake_fqlist.n - 1) := by
    by_contra hc
    have := b j (by omega) hj
    omega
  refine ⟨est_scan s fq (s.fake_fqlist.n - 1), a, d, ?_, ?_⟩
  · by_cases hk : est_scan s fq (s.fake_fqlist.n - 1) = 0
    · have : j = 0 := by omega
      rw [hk]; rw [this] at hjq; exact hjq
    · exact c hk
  · rintro j2 hj2 ⟨hq2, hlt⟩
    have hj2k : j2 ≤ est_scan s fq (s.fake_fqlist.n - 1) := by
      by_contra hc
      have := b j2 (by omega) hj2
      omega
    by_cases e : j2 = est_scan s fq (s.fake_fqlist.n - 1)
    · rw [e] at hlt; exact absurd hlt (Nat.lt_irrefl _)
    · have := hs j2 _ (by omega) a
      simp only at this
      omega

theorem mhz_after_broadcast (ctl v bus : Nat) :
    MSR2MHZ (ctl / (0xffff + 1) * (0xffff + 1) + v % (0xffff + 1)) bus = MSR2MHZ v bus := by
  unfold MSR2MHZ
  rw [MSR2FREQINC_eq, MSR2FREQINC_eq]
  congr 3
  omega

/-- Claim C10 as amended: when the request differs from the decoded frequency of
the control register and equals the decoded frequency of a row of the Live
Table (sorted by descending decoded frequency), two setTarget calls in a row
issue exactly one broadcast in total: the second call changes nothing. -/
theorem C10_setTarget_twice (s : Driver) (fq : Int) (h : Functional s)
    (hsorted : ((live_table s).map (fun id => MSR2MHZ id s.bus_clock)).Pairwise
      (fun a b => a ≥ b))
    (hq : fq ≠ (MSR2MHZ s.perf_ctl s.bus_clock : Int))
    (hrow : ∃ j, j < (live_table s).length ∧
      fq = (MSR2MHZ ((live_table s).getD j 0) s.bus_clock : Int)) :
    (setTarget (setTarget s fq).2 fq).2 = (setTarget s fq).2 ∧
      (setTarget (setTarget s fq).2 fq).2.broadcasts.length = s.broadcasts.length + 1 := by
  have hf := h
  rw [live_table_eq s hf] at hsorted hrow
  have h0 : s.est_fqlist ≠ .NULL := by rw [h.1]; decide
  obtain ⟨j, hj, hjq⟩ := hrow
  have hne : s.heap ≠ [] := by
    intro e; rw [e] at hj; exact absurd hj (Nat.not_lt_zero _)
  obtain ⟨a, b, c, d⟩ := est_scan_select s fq hf hne
  have hs := fun i j hij hj => pairwise_map_index (fun id => MSR2MHZ id s.bus_clock) s.heap
    hsorted i j hij hj
  have hjk : j ≤ est_scan s fq (s.fake_fqlist.n - 1) := by
    by_contra hc
    have := b j (by omega) hj
    omega
  have hsel : fq = (MSR2MHZ (s.heap.getD (est_scan s fq (s.fake_fqlist.n - 1)) 0)
      s.bus_clock : Int) := by
    by_cases e : j = est_scan s fq (s.fake_fqlist.n - 1)
    · rw [← e]; exact hjq
    · have h1 := c (by omega)
      have h2 := hs j _ (by omega) a
      simp only at h2
      omega
  have hctl : (MSR2MHZ (est_set_state s fq).perf_ctl (est_set_state s fq).bus_clock : Int)
      = fq := by
    have e : MSR2MHZ (est_set_state s fq).perf_ctl (est_set_state s fq).bus_clock =
        MSR2MHZ (s.heap.getD (est_scan s fq (s.fake_fqlist.n - 1)) 0) s.bus_clock := by
      simp only [est_set_state, do_msr_cpu_broadcast, if_true, h.2.1, load]
      exact mhz_after_broadcast _ _ _
    rw [e]
    exact hsel.symm
  rw [setTarget_changed s fq h0 hq]
  have h0' : (est_set_state s fq).est_fqlist ≠ .NULL := h0
  rw [setTarget_same (est_set_state s fq) fq h0' hctl.symm]
  refine ⟨rfl, ?_⟩
  rw [d]
  simp

/-! ## Evaluations on concrete runs -/

/-- Claim C1, evaluated on the code: after the initialisation `sample_init` the
Origin Table and the Live Table both hold (8,30), (7,22), (6,14); the accepted
override "29 22 14" changes row 0 of the Origin Table to (8,29).  The Origin
Table is not a snapshot: `phc_origin_table` holds the address of the array
that `fake_table` points to. -/
theorem C1_origin_table_follows_override :
    origin_table sample_init = [PHC_ID16 8 30, PHC_ID16 7 22, PHC_ID16 6 14] ∧
    live_table sample_init = [PHC_ID16 8 30, PHC_ID16 7 22, PHC_ID16 6 14] ∧
    (applyOverride sample_init "29 22 14".toList).1 = 0 ∧
    origin_table (applyOverride sample_init "29 22 14".toList).2
      = [PHC_ID16 8 29, PHC_ID16 7 22, PHC_ID16 6 14] := by
  decide

/-- Claim C2, evaluated on the code: after the initialisation `sample_init`
(factory voltage-steps 30, 22, 14) and the accepted override "29 22 14", the
input "30 22 14" made of the factory voltage-steps is rejected with `EINVAL`
and the Live Table keeps the voltage-steps 29, 22, 14. -/
theorem C2_factory_values_rejected_after_override :
    sample_init.phc_string_vids = "30 22 14".toList ∧
    (live_table sample_init).map MSR2VOLTINC = [30, 22, 14] ∧
    (applyOverride sample_init "29 22 14".toList).1 = 0 ∧
    (applyOverride (applyOverride sample_init "29 22 14".toList).2 "30 22 14".toList).1
      = EINVAL ∧
    (live_table (applyOverride (applyOverride sample_init "29 22 14".toList).2
      "30 22 14".toList).2).map MSR2VOLTINC = [29, 22, 14] := by
  decide

/-- Claim C4, evaluated on the code: with ceilings 30, 22, 14 the input
"4294967296 22 14", whose first value exceeds its ceiling, is accepted: the
`int` result of `phc_atoi` wraps to 0, the call returns 0, row 0 gets the
voltage-step 0 and a broadcast is issued. -/
theorem C4_overflowing_value_accepted :
    (live_table sample_init).map MSR2VOLTINC = [30, 22, 14] ∧
    decimal_values "4294967296 22 14".toList = [4294967296, 22, 14] ∧
    (applyOverride sample_init "4294967296 22 14".toList).1 = 0 ∧
    (live_table (applyOverride sample_init "4294967296 22 14".toList).2).map MSR2VOLTINC
      = [0, 22, 14] ∧
    (applyOverride sample_init "4294967296 22 14".toList).2.broadcasts.length = 1 := by
  decide

/-- Witness of claim C3 on the run of three requests after `sample_init`. -/
theorem C3_witness :
    Functional sample_init ∧
    (live_table (run sample_init
        [.phc 0 (some "29 22 14".toList), .est .target 0 (some 700),
          .phc 0 (some "30 22 14".toList)])).length = (live_table sample_init).length ∧
    MSR2VOLTINC ((live_table (run sample_init
        [.phc 0 (some "29 22 14".toList), .est .target 0 (some 700),
          .phc 0 (some "30 22 14".toList)])).getD 0 0) ≤
      MSR2VOLTINC ((live_table sample_init).getD 0 0) :=
  ⟨by decide,
    (C3_voltage_never_above_factory sample_init _ (by decide)).1,
    (C3_voltage_never_above_factory sample_init _ (by decide)).2 0 (by decide)⟩

/-- Witness of claim C7 on a run of three requests after `sample_init`. -/
theorem C7_witness :
    Functional sample_init ∧
    (live_table (run sample_init
        [.phc 0 (some "29 22 14".toList), .est .target 0 (some 700),
          .phc 0 (some "1 2 3 4".toList)])).map MSR2FREQINC =
      (live_table sample_init).map MSR2FREQINC :=
  ⟨by decide, C7_frequency_steps_fixed sample_init _ (by decide)⟩

/-- Witness of claim C5, the scenario of the specification: ceilings 30, 28, 24,
20, 18, 16, 13; "29 28 24 20 18 16 13" is accepted and gives the voltage-steps
29, 28, 24, 20, 18, 16, 13; "31 28 24 20 18 16 13" is rejected, state
unchanged. -/
theorem C5_witness :
    Functional scenario_init ∧
    strncmp_eq_zero "29 28 24 20 18 16 13".toList scenario_init.phc_string_vids PHC_MAXLEN
      = false ∧
    (live_table scenario_init).map MSR2VOLTINC = [30, 28, 24, 20, 18, 16, 13] ∧
    decimal_values "29 28 24 20 18 16 13".toList = [29, 28, 24, 20, 18, 16, 13] ∧
    ((applyOverride scenario_init "29 28 24 20 18 16 13".toList).1 = 0 ∧
      live_table (applyOverride scenario_init "29 28 24 20 18 16 13".toList).2 =
        List.zipWith (fun row v => PHC_ID16 (MSR2FREQINC row) v) (live_table scenario_init)
          (decimal_values "29 28 24 20 18 16 13".toList)) ∧
    (live_table (applyOverride scenario_init "29 28 24 20 18 16 13".toList).2).map
      MSR2VOLTINC = [29, 28, 24, 20, 18, 16, 13] ∧
    applyOverride scenario_init "31 28 24 20 18 16 13".toList = (EINVAL, scenario_init) :=
  ⟨by decide, by decide, by decide, by decide,
    C5_override_applied scenario_init "29 28 24 20 18 16 13".toList (by decide) (by decide)
      (by decide) (by decide),
    by decide, by decide⟩

/-- Counterexample to claim C6 as stated: an input with four values for a table
of three rows is accepted and changes the Live Table. -/
theorem C6_extra_values_accepted :
    (live_table sample_init).length = 3 ∧
    decimal_values "29 22 14 5".toList = [29, 22, 14, 5] ∧
    (applyOverride sample_init "29 22 14 5".toList).1 = 0 ∧
    (live_table (applyOverride sample_init "29 22 14 5".toList).2).map MSR2VOLTINC
      = [29, 22, 14] ∧
    live_table (applyOverride sample_init "29 22 14 5".toList).2 ≠ live_table sample_init := by
  decide

/-- Witness of the amended claim C6 after `sample_init`. -/
theorem C6_witness :
    Functional sample_init ∧
    strncmp_eq_zero "29 22".toList sample_init.phc_string_vids PHC_MAXLEN = false ∧
    strncmp_eq_zero "29 22 14 5".toList sample_init.phc_string_vids PHC_MAXLEN = false ∧
    strncmp_eq_zero "29 22 14".toList sample_init.phc_string_vids PHC_MAXLEN = false ∧
    applyOverride sample_init "29 22".toList = (EINVAL, sample_init) ∧
    ((applyOverride sample_init "29 22 14 5".toList).1 =
        (applyOverride sample_init "29 22 14".toList).1 ∧
      live_table (applyOverride sample_init "29 22 14 5".toList).2 =
        live_table (applyOverride sample_init "29 22 14".toList).2) :=
  ⟨by decide, by decide, by decide, by decide,
    (C6_fewer_rejected_extra_ignored sample_init "29 22".toList "29 22 14".toList
      (by decide) (by decide) (by decide)).1 (by decide),
    (C6_fewer_rejected_extra_ignored sample_init "29 22 14 5".toList "29 22 14".toList
      (by decide) (by decide) (by decide)).2 (by decide)⟩

/-- Witness of claim C8: in the seven-row table of `scenario_init` row 3 decodes
to 1000 MHz, and setTarget(1000) broadcasts the identifier of row 3. -/
theorem C8_witness :
    Functional scenario_init ∧
    live_table scenario_init ≠ [] ∧
    ((live_table scenario_init).map (fun id => MSR2MHZ id scenario_init.bus_clock)).Pairwise
      (fun a b => a > b) ∧
    (1000 : Int) ≠ (MSR2MHZ scenario_init.perf_ctl scenario_init.bus_clock : Int) ∧
    MSR2MHZ ((live_table scenario_init).getD 3 0) scenario_init.bus_clock = 1000 ∧
    (setTarget scenario_init 1000).2.broadcasts =
      [{ msr_read := true, msr_type := MSR_PERF_CTL, msr_mask := 0xffff,
         msr_value := (live_table scenario_init).getD 3 0 }] := by
  have hf : Functional scenario_init := by decide
  have hne : live_table scenario_init ≠ [] := by decide
  have hs : ((live_table scenario_init).map
      (fun id => MSR2MHZ id scenario_init.bus_clock)).Pairwise (fun a b => a > b) := by decide
  have hq : (1000 : Int) ≠ (MSR2MHZ scenario_init.perf_ctl scenario_init.bus_clock : Int) := by
    decide
  obtain ⟨k, _, _, hb, _, _, _, hk⟩ := C8_setTarget_selects scenario_init 1000 hf hne hs hq
  have h3 : k = 3 := hk 3 (by decide) (by decide)
  subst h3
  exact ⟨hf, hne, hs, hq, by decide, hb⟩

/-- Counterexample to claim C9 as stated: with rows at 800, 700 and 600 MHz the
request 750 MHz makes setTarget broadcast row 0 (800 MHz), which is above
the request. -/
theorem C9_selects_above_request :
    (live_table sample_init).map (fun id => MSR2MHZ id sample_init.bus_clock)
      = [800, 700, 600] ∧
    (setTarget sample_init 750).2.broadcasts =
      [{ msr_read := true, msr_type := MSR_PERF_CTL, msr_mask := 0xffff,
         msr_value := (live_table sample_init).getD 0 0 }] ∧
    ¬ ((MSR2MHZ ((live_table sample_init).getD 0 0) sample_init.bus_clock : Int) ≤ 750) := by
  decide

/-- Witness of the amended claim C9 after `sample_init`, request 750 MHz. -/
theorem C9_witness :
    Functional sample_init ∧
    ((live_table sample_init).map (fun id => MSR2MHZ id sample_init.bus_clock)).Pairwise
      (fun a b => a ≥ b) ∧
    (750 : Int) ≠ (MSR2MHZ sample_init.perf_ctl sample_init.bus_clock : Int) ∧
    (∃ k, k < (live_table sample_init).length ∧
      (setTarget sample_init 750).2.broadcasts = sample_init.broadcasts ++
        [{ msr_read := true, msr_type := MSR_PERF_CTL, msr_mask := 0xffff,
           msr_value := (live_table sample_init).getD k 0 }] ∧
      (750 : Int) ≤ (MSR2MHZ ((live_table sample_init).getD k 0) sample_init.bus_clock : Int) ∧
      ∀ j, j < (live_table sample_init).length →
        ¬ ((750 : Int) ≤ (MSR2MHZ ((live_table sample_init).getD j 0)
              sample_init.bus_clock : Int) ∧
          MSR2MHZ ((live_table sample_init).getD j 0) sample_init.bus_clock <
            MSR2MHZ ((live_table sample_init).getD k 0) sample_init.bus_clock)) :=
  ⟨by decide, by decide, by decide,
    C9_setTarget_nearest_at_or_above sample_init 750 (by decide) (by decide) (by decide)
      ⟨0, by decide, by decide⟩⟩

/-- Counterexample to claim C10 as stated: from `sample_init` (target 800 MHz) two
calls setTarget(750) issue two broadcasts, and two calls setTarget(800) issue
none. -/
theorem C10_second_call_broadcasts_again :
    sample_init.broadcasts = [] ∧
    (setTarget (setTarget sample_init 750).2 750).2.broadcasts.length = 2 ∧
    (setTarget (setTarget sample_init 800).2 800).2.broadcasts.length = 0 := by
  decide

/-- Witness of the amended claim C10 after `sample_init`, request 700 MHz. -/
theorem C10_witness :
    Functional sample_init ∧
    ((live_table sample_init).map (fun id => MSR2MHZ id sample_init.bus_clock)).Pairwise
      (fun a b => a ≥ b) ∧
    (700 : Int) ≠ (MSR2MHZ sample_init.perf_ctl sample_init.bus_clock : Int) ∧
    (700 : Int) = (MSR2MHZ ((live_table sample_init).getD 1 0) sample_init.bus_clock : Int) ∧
    (setTarget (setTarget sample_init 700).2 700).2 = (setTarget sample_init 700).2 ∧
    (setTarget (setTarget sample_init 700).2 700).2.broadcasts.length =
      sample_init.broadcasts.length + 1 :=
  ⟨by decide, by decide, by decide, by decide,
    (C10_setTarget_twice sample_init 700 (by decide) (by decide) (by decide)
      ⟨1, by decide, by decide⟩).1,
    (C10_setTarget_twice sample_init 700 (by decide) (by decide) (by decide)
      ⟨1, by decide, by decide⟩).2⟩

/-! ## Claims C11 and C14: the two short-circuits -/

/-- Claim C11: when a Live Table exists and the requested MHz equals the decoded
MHz of the control register, setTarget returns 0 and leaves the whole state as
it was: no broadcast is issued, whatever the table and the register hold. -/
theorem C11_setTarget_same_target_noop (s : Driver) (fq : Int)
    (h0 : s.est_fqlist ≠ .NULL)
    (hq : fq = (MSR2MHZ s.perf_ctl s.bus_clock : Int)) :
    setTarget s fq = (0, s) ∧ (setTarget s fq).2.broadcasts = s.broadcasts := by
  have h := setTarget_same s fq h0 hq
  rw [h]
  exact ⟨rfl, rfl⟩

/-- Witness of claim C11 after `sample_init`, whose control register decodes
to 800 MHz. -/
theorem C11_witness :
    sample_init.est_fqlist ≠ .NULL ∧
    (800 : Int) = (MSR2MHZ sample_init.perf_ctl sample_init.bus_clock : Int) ∧
    (setTarget sample_init 800 = (0, sample_init) ∧
      (setTarget sample_init 800).2.broadcasts = sample_init.broadcasts) :=
  ⟨by decide, by decide, C11_setTarget_same_target_noop sample_init 800 (by decide) (by decide)⟩

/-- Claim C14: when a Live Table exists and the input text agrees with the
session string over the first `PHC_MAXLEN` characters, applyOverride returns 0
and leaves the whole state as it was: Live Table and session string are
unchanged and no broadcast is issued. -/
theorem C14_identical_string_noop (s : Driver) (input : List Char)
    (h0 : s.est_fqlist ≠ .NULL)
    (heq : input.take PHC_MAXLEN = s.phc_string_vids.take PHC_MAXLEN) :
    applyOverride s input = (0, s) ∧
      live_table (applyOverride s input).2 = live_table s ∧
      (applyOverride s input).2.phc_string_vids = s.phc_string_vids ∧
      (applyOverride s input).2.broadcasts = s.broadcasts := by
  have h : applyOverride s input = (0, s) := by
    unfold applyOverride phc_est_sysctl_helper
    have hc : strncmp_eq_zero input s.phc_string_vids PHC_MAXLEN = true := by
      unfold strncmp_eq_zero
      exact decide_eq_true heq
    simp only [h0, hc, if_false, or_true, if_true]
  rw [h]
  exact ⟨rfl, rfl, rfl, rfl⟩

/-- Witness of claim C14 after `sample_init`, whose session string is
"30 22 14". -/
theorem C14_witness :
    sample_init.est_fqlist ≠ .NULL ∧
    "30 22 14".toList.take PHC_MAXLEN = sample_init.phc_string_vids.take PHC_MAXLEN ∧
    (applyOverride sample_init "30 22 14".toList = (0, sample_init) ∧
      live_table (applyOverride sample_init "30 22 14".toList).2 = live_table sample_init ∧
      (applyOverride sample_init "30 22 14".toList).2.phc_string_vids
        = sample_init.phc_string_vids ∧
      (applyOverride sample_init "30 22 14".toList).2.broadcasts = sample_init.broadcasts) :=
  ⟨by decide, by decide,
    C14_identical_string_noop sample_init "30 22 14".toList (by decide) (by decide)⟩

/-! ## Claim C12: the re-clamp after an accepted override -/

/-- The state reached by an override that is accepted. -/
theorem applyOverride_accepted (s : Driver) (input : List Char) (h : Functional s)
    (hd : strncmp_eq_zero input s.phc_string_vids PHC_MAXLEN = false)
    (hok : (applyOverride s input).1 = 0) :
    ∃ vids remain, phc_check_vids s s.fake_fqlist.n 0 input input [] = .ok (vids, remain) ∧
      applyOverride s input =
        (0, est_set_state
          { phc_save_vids vids s.fake_fqlist.n 0 s with
            phc_string_vids := (input.take (input.length - remain.length)).take PHC_MAXLEN }
          (MSR2MHZ (phc_save_vids vids s.fake_fqlist.n 0 s).perf_status
            (phc_save_vids vids s.fake_fqlist.n 0 s).bus_clock)) := by
  have h0 : s.est_fqlist ≠ .NULL := by rw [h.1]; decide
  cases hr : phc_check_vids s s.fake_fqlist.n 0 input input [] with
  | error e =>
    exfalso
    have hrej := phc_helper_reject s input e h0 hd hr
    have hcv : check_values (fun j => MSR2VOLTINC (load s s.phc_origin_table j))
        s.fake_fqlist.n 0 (decimal_values input) = .error e := by
      have hspec := phc_check_vids_spec s s.fake_fqlist.n 0 input input []
      rw [hr] at hspec
      cases hc : check_values (fun j => MSR2VOLTINC (load s s.phc_origin_table j))
          s.fake_fqlist.n 0 (decimal_values input) with
      | error e2 =>
        rw [hc] at hspec
        simp only [Except.map, Except.error.injEq] at hspec
        rw [hspec]
      | ok l => rw [hc] at hspec; simp [Except.map] at hspec
    have he := check_values_error _ _ _ _ _ hcv
    unfold applyOverride at hok
    rw [hrej, he] at hok
    simp [EINVAL] at hok
  | ok p =>
    obtain ⟨vids, remain⟩ := p
    exact ⟨vids, remain, rfl, phc_helper_accept s input remain vids h0 hd hr⟩

theorem MSR2MHZ_congr (a b bus : Nat) (h : MSR2FREQINC a = MSR2FREQINC b) :
    MSR2MHZ a bus = MSR2MHZ b bus := by
  unfold MSR2MHZ; rw [h]

/-- Claim C12 as amended: after an accepted override of a non-empty Live Table
sorted by descending decoded frequency, the re-clamp issues exactly one
broadcast, with mask `0xffff`, of the identifier that row `k` of the rewritten
Live Table now holds, where `k` is the row nearest at or above the frequency
decoded from the status register: that row decodes to at least that
frequency and no row decodes to at least it and strictly lower; `k = 0` when
no row decodes to at least it. -/
theorem C12_reclamp_at_or_above (s : Driver) (input : List Char) (h : Functional s)
    (hd : strncmp_eq_zero input s.phc_string_vids PHC_MAXLEN = false)
    (hok : (applyOverride s input).1 = 0)
    (hne : live_table s ≠ [])
    (hsorted : ((live_table s).map (fun id => MSR2MHZ id s.bus_clock)).Pairwise
      (fun a b => a ≥ b)) :
    ∃ k, k < (live_table s).length ∧
      (applyOverride s input).2.broadcasts = s.broadcasts ++
        [{ msr_read := true, msr_type := MSR_PERF_CTL, msr_mask := 0xffff,
           msr_value := (live_table (applyOverride s input).2).getD k 0 }] ∧
      ((∃ j, j < (live_table s).length ∧
          MSR2MHZ s.perf_status s.bus_clock ≤
            MSR2MHZ ((live_table (applyOverride s input).2).getD j 0) s.bus_clock) →
        MSR2MHZ s.perf_status s.bus_clock ≤
            MSR2MHZ ((live_table (applyOverride s input).2).getD k 0) s.bus_clock ∧
        ∀ j, j < (live_table s).length →
          ¬ (MSR2MHZ s.perf_status s.bus_clock ≤
              MSR2MHZ ((live_table (applyOverride s input).2).getD j 0) s.bus_clock ∧
            MSR2MHZ ((live_table (applyOverride s input).2).getD j 0) s.bus_clock <
              MSR2MHZ ((live_table (applyOverride s input).2).getD k 0) s.bus_clock)) ∧
      ((∀ j, j < (live_table s).length →
          MSR2MHZ ((live_table (applyOverride s input).2).getD j 0) s.bus_clock <
            MSR2MHZ s.perf_status s.bus_clock) → k = 0) := by
  have hf := h
  obtain ⟨vids, remain, hr, hacc⟩ := applyOverride_accepted s input h hd hok
  obtain ⟨hs1, hlen, _⟩ := phc_save_vids_spec vids s.fake_fqlist.n 0 s h.2.2.2.1 h.2.2.1
  obtain ⟨hfun, hlow⟩ := phc_accept_state s hf input remain vids
    ((input.take (input.length - remain.length)).take PHC_MAXLEN)
    (MSR2MHZ (phc_save_vids vids s.fake_fqlist.n 0 s).perf_status
      (phc_save_vids vids s.fake_fqlist.n 0 s).bus_clock) hr
  rw [hacc]
  rw [live_table_eq s hf] at hne hsorted ⊢
  rw [live_table_eq _ hfun]
  -- the state before the broadcast
  generalize hs2 : ({ phc_save_vids vids s.fake_fqlist.n 0 s with
      phc_string_vids := (input.take (input.length - remain.length)).take PHC_MAXLEN }
        : Driver) = s2 at hfun hlow ⊢
  have hst : (phc_save_vids vids s.fake_fqlist.n 0 s).perf_status = s.perf_status := by
    rw [hs1]
  have hbc : (phc_save_vids vids s.fake_fqlist.n 0 s).bus_clock = s.bus_clock := by
    rw [hs1]
  have hbc2 : s2.bus_clock = s.bus_clock := by rw [← hs2]; exact hbc
  have hbr2 : s2.broadcasts = s.broadcasts := by rw [← hs2, hs1]
  have hn2 : s2.fake_fqlist.n = s.fake_fqlist.n := by rw [← hs2, hs1]
  have hheap : (est_set_state s2 (MSR2MHZ (phc_save_vids vids s.fake_fqlist.n 0 s).perf_status
      (phc_save_vids vids s.fake_fqlist.n 0 s).bus_clock)).heap = s2.heap := rfl
  have hfun2 : Functional s2 := hfun
  have hlow2 : Lowered s2.heap s.heap := hlow
  have hne2 : s2.heap ≠ [] := by
    intro e
    have := hlow2.1
    rw [e] at this
    exact hne (List.length_eq_zero.1 this.symm)
  rw [hst, hbc]
  obtain ⟨a, b, c, d⟩ := est_scan_select s2 (MSR2MHZ s.perf_status s.bus_clock) hfun2 hne2
  have hmhz : ∀ j, MSR2MHZ (s2.heap.getD j 0) s.bus_clock =
      MSR2MHZ (s.heap.getD j 0) s.bus_clock :=
    fun j => MSR2MHZ_congr _ _ _ (hlow2.2 j).1
  have hs := fun i j hij hj => pairwise_map_index (fun id => MSR2MHZ id s.bus_clock) s.heap
    hsorted i j hij hj
  rw [hbc2] at b c
  have hd2 : (est_set_state s2 (MSR2MHZ s.perf_status s.bus_clock)).broadcasts =
      s.broadcasts ++
        [{ msr_read := true, msr_type := MSR_PERF_CTL, msr_mask := 0xffff,
           msr_value := (est_set_state s2 (MSR2MHZ s.perf_status s.bus_clock)).heap.getD
            (est_scan s2 (MSR2MHZ s.perf_status s.bus_clock) (s2.fake_fqlist.n - 1)) 0 }] := by
    rw [d, hbr2]; rfl
  have hh : (est_set_state s2 (MSR2MHZ s.perf_status s.bus_clock)).heap = s2.heap := rfl
  rw [hh] at hd2 ⊢
  generalize est_scan s2 (MSR2MHZ s.perf_status s.bus_clock) (s2.fake_fqlist.n - 1) = k
    at a b c hd2
  have hl := hlow2.1
  refine ⟨k, by omega, hd2, ?_, ?_⟩
  · rintro ⟨j, hj, hjq⟩
    have hjk : j ≤ k := by
      by_contra hc
      have := b j (by omega) (by omega)
      omega
    constructor
    · by_cases hk : k = 0
      · have : j = 0 := by omega
        rw [hk]; rw [this] at hjq; exact hjq
      · have := c hk
        omega
    · rintro j2 hj2 ⟨hq2, hlt⟩
      have hj2k : j2 ≤ k := by
        by_contra hc
        have := b j2 (by omega) (by omega)
        omega
      by_cases e : j2 = k
      · rw [e] at hlt; exact absurd hlt (Nat.lt_irrefl _)
      · have := hs j2 k (by omega) (by omega)
        simp only at this
        rw [hmhz j2, hmhz k] at hlt
        omega
  · intro hall
    by_contra hk
    have h1 := c hk
    have h2 := hall k (by omega)
    omega

/-! ## Claim C13: the session string after an accepted override -/

theorem phc_skip_eq (l : List Char) : phc_skip l = l.dropWhile (fun c => !isdigit c) := by
  induction l with
  | nil => rfl
  | cons c l ih =>
    by_cases hc : isdigit c = true
    · simp [phc_skip, List.dropWhile, hc]
    · simp only [Bool.not_eq_true] at hc
      simp [phc_skip, List.dropWhile, hc, ih]

theorem phc_digits_snd (l : List Char) : ∀ r : Int, (phc_digits r l).2 = l.dropWhile isdigit := by
  induction l with
  | nil => intro r; rfl
  | cons c l ih =>
    intro r
    by_cases hc : isdigit c = true
    · simp only [phc_digits, hc, if_true, List.dropWhile]
      exact ih _
    · simp only [Bool.not_eq_true] at hc
      simp [phc_digits, List.dropWhile, hc]

theorem phc_atoi_remain (string remain : List Char) (h : phc_skip string ≠ []) :
    (phc_atoi string remain).2 =
      (string.dropWhile (fun c => !isdigit c)).dropWhile isdigit := by
  unfold phc_atoi
  cases hs : phc_skip string with
  | nil => exact absurd hs h
  | cons c pc =>
    simp only
    rw [phc_digits_snd, ← hs, phc_skip_eq]

theorem phc_atoi_none (string remain : List Char) (h : phc_skip string = []) :
    phc_atoi string remain = (-1, remain) := by
  unfold phc_atoi
  rw [h]

/-- The text consumed by an accepted first round. -/
theorem phc_check_vids_remain (s : Driver) (k : Nat) :
    ∀ (i : Nat) (string : List Char) (vids out : List Int) (remain : List Char),
      phc_check_vids s k i string string vids = .ok (out, remain) →
      string = text_through_values k string ++ remain := by
  induction k with
  | zero =>
    intro i string vids out remain h
    simp only [phc_check_vids, Except.ok.injEq, Prod.mk.injEq] at h
    simp [text_through_values, h.2]
  | succ k ih =>
    intro i string vids out remain h
    by_cases hsk : phc_skip string = []
    · exfalso
      simp [phc_check_vids, phc_atoi_none string string hsk] at h
    · have hrem := phc_atoi_remain string string hsk
      simp only [phc_check_vids] at h
      generalize phc_atoi string string = r at h hrem
      obtain ⟨v, rest⟩ := r
      simp only at h hrem
      by_cases c1 : v = -1
      · simp [c1] at h
      · by_cases c2 : v < 0 ∨ v > (MSR2VOLTINC (load s s.phc_origin_table i) : Int)
        · simp [c1, c2] at h
        · simp only [c1, c2, if_false] at h
          have := ih (i + 1) rest _ out remain h
          simp only [text_through_values]
          rw [← hrem, List.append_assoc, List.append_assoc, ← this, hrem,
            List.takeWhile_append_dropWhile, List.takeWhile_append_dropWhile]

/-- Claim C13 as amended: after an accepted override (of an input that differs
from the session string) the session string is the input text as written, cut
after its N-th run of digits and to at most `PHC_MAXLEN` characters, N being
the number of rows of the Live Table. -/
theorem C13_session_string_is_input_text (s : Driver) (input : List Char)
    (h : Functional s)
    (hd : strncmp_eq_zero input s.phc_string_vids PHC_MAXLEN = false)
    (hok : (applyOverride s input).1 = 0) :
    (applyOverride s input).2.phc_string_vids =
      (text_through_values (live_table s).length input).take PHC_MAXLEN := by
  obtain ⟨vids, remain, hr, hacc⟩ := applyOverride_accepted s input h hd hok
  have hrem := phc_check_vids_remain s s.fake_fqlist.n 0 input [] vids remain hr
  rw [hacc, live_table_eq s h, ← h.2.2.2.2]
  show (input.take (input.length - remain.length)).take PHC_MAXLEN = _
  congr 1
  generalize text_through_values s.fake_fqlist.n input = pre at hrem
  rw [hrem]
  simp

/-! ## Facts about the catalog -/

theorem est_cpus_first_last_differ :
    ∀ e ∈ est_cpus,
      MSR2FREQINC (e.table.getD 0 0) ≠ MSR2FREQINC (e.table.getD (e.n - 1) 0) := by
  decide

theorem est_cpus_arraycount : ∀ e ∈ est_cpus, e.n = e.table.length := by
  decide

theorem est_cpus_self_match :
    ∀ e ∈ est_cpus,
      est_cpus.find? (est_match e.vendor (BUS_CLK e.bus_clk) (e.table.getD 0 0)
        (e.table.getD (e.n - 1) 0)) = some e := by
  decide

/-! ## The paths of `est_init_main` -/

theorem est_init_main_eq (arch : Arch) (cpus : List fqentry) (vendor : Int)
    (bus st ctl : Nat) :
    est_init_main arch cpus vendor bus st ctl =
      if bus = 0 then est_no_table bus st ctl
      else if arch = .i386 ∧ (raw_highest st = 0 ∨ raw_lowest st = 0 ∨ raw_current st = 0 ∨
          MSR2FREQINC (raw_current st) < MSR2FREQINC (raw_lowest st) ∨
          MSR2FREQINC (raw_current st) > MSR2FREQINC (raw_highest st)) then
        est_no_table bus st ctl
      else if arch = .amd64 ∧ (MSR2FREQINC (raw_lowest st) = 0 ∨
          MSR2FREQINC (raw_highest st) = MSR2FREQINC (raw_lowest st)) then
        est_no_table bus st ctl
      else if arch = .amd64 ∧ (MSR2FREQINC (raw_highest st) = 0 ∨
          MSR2FREQINC (raw_current st) = 0 ∨
          MSR2FREQINC (raw_lowest st) > MSR2FREQINC (raw_highest st) ∨
          MSR2FREQINC (raw_current st) < MSR2FREQINC (raw_lowest st) ∨
          MSR2FREQINC (raw_current st) > MSR2FREQINC (raw_highest st)) then
        est_no_table bus st ctl
      else
        match (if arch = .i386 then
            cpus.find? (est_match vendor bus (raw_highest st) (raw_lowest st)) else none) with
        | none =>
          if raw_highest st = raw_lowest st then est_no_table bus st ctl
          else if (MSR2FREQINC (raw_highest st) : Int) - MSR2FREQINC (raw_lowest st) = 0 then
            est_no_table bus st ctl
          else
            est_init_finish
              { est_no_table bus st ctl with
                heap := est_fake_table (raw_highest st) (raw_lowest st)
                fake_table := .heap
                fake_fqlist :=
                  { vendor := vendor, bus_clk := 0,
                    n := (est_fake_size (raw_highest st) (raw_lowest st) % 4294967296).toNat,
                    table := .heap }
                est_fqlist := .fake_fqlist }
        | some fql =>
          est_init_finish
            { est_no_table bus st ctl with
              heap := fql.table.take fql.n
              fake_table := .heap
              fake_fqlist :=
                { vendor := fql.vendor, bus_clk := fql.bus_clk, n := fql.n, table := .heap }
              est_fqlist := .fake_fqlist } := by
  rfl

theorem MSR2FREQINC_zero : MSR2FREQINC 0 = 0 := by decide

theorem est_no_table_fqlist (bus st ctl : Nat) :
    (est_no_table bus st ctl).est_fqlist = .NULL := rfl

theorem est_no_table_live (bus st ctl : Nat) :
    live_table (est_no_table bus st ctl) = [] := rfl

theorem est_cpus_find_none (vendor : Int) (bus idhi idlo : Nat)
    (h : MSR2FREQINC idhi = MSR2FREQINC idlo) :
    est_cpus.find? (est_match vendor bus idhi idlo) = none := by
  rw [List.find?_eq_none]
  intro e he hm
  have hd := est_cpus_first_last_differ e he
  simp only [est_match, Bool.and_eq_true, decide_eq_true_eq] at hm
  obtain ⟨⟨⟨_, _⟩, h1⟩, h2⟩ := hm
  rw [← h1, ← h2] at hd
  exact hd h

theorem est_init_main_insane (arch : Arch) (vendor : Int) (bus st ctl : Nat)
    (h : raw_highest st = 0 ∨ raw_lowest st = 0 ∨ raw_current st = 0 ∨
      MSR2FREQINC (raw_current st) < MSR2FREQINC (raw_lowest st) ∨
      MSR2FREQINC (raw_current st) > MSR2FREQINC (raw_highest st) ∨
      ¬ MSR2FREQINC (raw_highest st) > MSR2FREQINC (raw_lowest st)) :
    est_init_main arch est_cpus vendor bus st ctl = est_no_table bus st ctl := by
  rw [est_init_main_eq]
  have z1 : raw_highest st = 0 → MSR2FREQINC (raw_highest st) = 0 := by
    intro h; rw [h]; rfl
  have z2 : raw_lowest st = 0 → MSR2FREQINC (raw_lowest st) = 0 := by
    intro h; rw [h]; rfl
  have z3 : raw_current st = 0 → MSR2FREQINC (raw_current st) = 0 := by
    intro h; rw [h]; rfl
  by_cases hb : bus = 0
  · simp only [hb, if_true]
  simp only [hb, if_false]
  split
  · rfl
  rename_i h1
  split
  · rfl
  rename_i h2
  split
  · rfl
  rename_i h3
  cases arch with
  | amd64 =>
    exfalso
    simp only [true_and, not_or] at h2 h3
    omega
  | i386 =>
    simp only [true_and, not_or] at h1
    have he : MSR2FREQINC (raw_highest st) = MSR2FREQINC (raw_lowest st) := by omega
    simp only [if_true, est_cpus_find_none vendor bus _ _ he]
    split
    · rfl
    · rw [he]; simp

theorem run_null (calls : List Call) : ∀ (s : Driver), s.est_fqlist = .NULL →
    (run s calls).est_fqlist = .NULL ∧ (run s calls).broadcasts = s.broadcasts := by
  induction calls with
  | nil => intro s h; exact ⟨h, rfl⟩
  | cons c calls ih =>
    intro s h
    have hc : (c.apply s).est_fqlist = .NULL ∧ (c.apply s).broadcasts = s.broadcasts := by
      cases c with
      | est rnode error newp =>
        simp only [Call.apply, est_sysctl_helper, h, if_true, and_self]
      | phc error newp =>
        simp only [Call.apply, phc_est_sysctl_helper, h, if_true, and_self]
      | registers a b => exact ⟨h, rfl⟩
    obtain ⟨h1, h2⟩ := ih (c.apply s) hc.1
    exact ⟨h1, h2.trans hc.2⟩

theorem find_first {α : Type} (p : α → Bool) : ∀ (l : List α) (i : Nat) (e : α),
    l[i]? = some e → p e = true →
    (∀ j a, j < i → l[j]? = some a → p a = false) → l.find? p = some e := by
  intro l
  induction l with
  | nil => intro i e h; simp at h
  | cons x l ih =>
    intro i e h hp hf
    cases i with
    | zero =>
      simp only [List.getElem?_cons_zero, Option.some.injEq] at h
      subst h
      simp only [List.find?, hp]
    | succ i =>
      have hx : p x = false := hf 0 x (by omega) (by simp)
      simp only [List.find?, hx]
      simp only [List.getElem?_cons_succ] at h
      exact ih i e h hp (fun j a hj ha => hf (j + 1) a (by omega) (by simpa using ha))

theorem est_cpus_ends_nonzero : ∀ e ∈ est_cpus,
    e.table.getD 0 0 ≠ 0 ∧ e.table.getD (e.n - 1) 0 ≠ 0 := by decide

theorem est_init_main_copy (vendor : Int) (bus st ctl : Nat) (fql : fqentry)
    (hcur : raw_current st ≠ 0 ∧
      MSR2FREQINC (raw_lowest st) ≤ MSR2FREQINC (raw_current st) ∧
      MSR2FREQINC (raw_current st) ≤ MSR2FREQINC (raw_highest st))
    (hfind : est_cpus.find? (est_match vendor bus (raw_highest st) (raw_lowest st)) = some fql) :
    est_init_main .i386 est_cpus vendor bus st ctl =
      est_init_finish
        { est_no_table bus st ctl with
          heap := fql.table.take fql.n
          fake_table := .heap
          fake_fqlist :=
            { vendor := fql.vendor, bus_clk := fql.bus_clk, n := fql.n, table := .heap }
          est_fqlist := .fake_fqlist } := by
  have hmem := List.mem_of_find?_eq_some hfind
  have hm := List.find?_some hfind
  simp only [est_match, Bool.and_eq_true, decide_eq_true_eq] at hm
  obtain ⟨⟨⟨_, hb⟩, h1⟩, h2⟩ := hm
  have hz := est_cpus_ends_nonzero fql hmem
  rw [← h1, ← h2] at hz
  have hbus : bus ≠ 0 := by
    rw [hb]; unfold BUS_CLK BUS133 BUS100; split <;> decide
  rw [est_init_main_eq]
  have c1 : ¬ (raw_highest st = 0 ∨ raw_lowest st = 0 ∨
      raw_current st = 0 ∨
      MSR2FREQINC (raw_current st) < MSR2FREQINC (raw_lowest st) ∨
      MSR2FREQINC (raw_current st) > MSR2FREQINC (raw_highest st)) := by
    intro h
    rcases h with h | h | h | h | h
    · exact hz.1 h
    · exact hz.2 h
    · exact hcur.1 h
    · omega
    · omega
  simp only [hbus, if_false, true_and, c1, if_true, hfind, reduceCtorEq, false_and]

theorem est_copy_result (x x0 : Driver) (fql : fqentry) (hn : fql.n = fql.table.length)
    (hx : x = est_init_finish
        { x0 with
          heap := fql.table.take fql.n
          fake_table := .heap
          fake_fqlist :=
            { vendor := fql.vendor, bus_clk := fql.bus_clk, n := fql.n, table := .heap }
          est_fqlist := .fake_fqlist }) :
    x.est_fqlist = .fake_fqlist ∧ live_table x = fql.table ∧
      x.fake_fqlist.vendor = fql.vendor ∧ x.fake_fqlist.bus_clk = fql.bus_clk ∧
      x.fake_fqlist.n = fql.table.length := by
  subst hx
  refine ⟨rfl, ?_, rfl, rfl, hn⟩
  have hf : Functional (est_init_finish
        { x0 with
          heap := fql.table.take fql.n
          fake_table := .heap
          fake_fqlist :=
            { vendor := fql.vendor, bus_clk := fql.bus_clk, n := fql.n, table := .heap }
          est_fqlist := .fake_fqlist }) := by
    apply est_init_finish_functional _ rfl rfl rfl
    simp [hn]
  rw [live_table_eq _ hf]
  show fql.table.take fql.n = fql.table
  rw [hn]; exact List.take_length _

/-- Claim C19: for every build, vendor, bus clock and register contents, a raw
triple that fails a sanity check (highest, lowest or current identifier zero;
current's frequency-step below lowest's or above highest's; highest's
frequency-step not strictly greater than lowest's) makes `est_init_main`, run
on the catalog of the source, return without a table: `est_fqlist` stays
`NULL` and the Live Table is empty. -/
theorem C19_insane_triple_no_table (arch : Arch) (vendor : Int) (bus st ctl : Nat)
    (h : raw_highest st = 0 ∨ raw_lowest st = 0 ∨ raw_current st = 0 ∨
      MSR2FREQINC (raw_current st) < MSR2FREQINC (raw_lowest st) ∨
      MSR2FREQINC (raw_current st) > MSR2FREQINC (raw_highest st) ∨
      ¬ MSR2FREQINC (raw_highest st) > MSR2FREQINC (raw_lowest st)) :
    (est_init_main arch est_cpus vendor bus st ctl).est_fqlist = .NULL ∧
      live_table (est_init_main arch est_cpus vendor bus st ctl) = [] ∧
      ¬ Functional (est_init_main arch est_cpus vendor bus st ctl) := by
  rw [est_init_main_insane arch vendor bus st ctl h]
  refine ⟨rfl, rfl, ?_⟩
  intro hf
  exact absurd hf.1 (by simp [est_no_table, boot])

/-- Claim C19 at work: on the i386 build a triple whose current identifier is
zero, and on the amd64 build a triple whose highest frequency-step equals the
lowest one, leave the driver without a table. -/
theorem C19_witness :
    (est_init_main .i386 est_cpus CPUVENDOR_INTEL 10000 0x060D081E00000000 0).est_fqlist
        = .NULL ∧
      (est_init_main .amd64 est_cpus CPUVENDOR_INTEL 10000 0x060D061E0000061E 0).est_fqlist
        = .NULL :=
  ⟨(C19_insane_triple_no_table .i386 CPUVENDOR_INTEL 10000 0x060D081E00000000 0
      (Or.inr (Or.inr (Or.inl (by decide))))).1,
   (C19_insane_triple_no_table .amd64 CPUVENDOR_INTEL 10000 0x060D061E0000061E 0
      (Or.inr (Or.inr (Or.inr (Or.inr (Or.inr (by decide))))))).1⟩

/-- Claim C20: for every build, vendor, bus clock and register contents, a raw
triple whose highest and lowest identifiers are equal matches no entry of the
catalog and makes `est_init_main` return without a table; afterwards, whatever
requests arrive, no hardware broadcast has been issued and every call of
`est_sysctl_helper` (read current, read target, setTarget) and of
`phc_est_sysctl_helper` (read or write of `phc.vids`, applyOverride) returns
`EOPNOTSUPP` and leaves the state as it is. -/
theorem C20_equal_identifiers_unsupported (arch : Arch) (vendor : Int) (bus st ctl : Nat)
    (h : raw_highest st = raw_lowest st) (calls : List Call) :
    (est_init_main arch est_cpus vendor bus st ctl).est_fqlist = .NULL ∧
      est_cpus.find? (est_match vendor bus (raw_highest st) (raw_lowest st)) = none ∧
      (run (est_init_main arch est_cpus vendor bus st ctl) calls).broadcasts = [] ∧
      (∀ rnode error newp,
        est_sysctl_helper (run (est_init_main arch est_cpus vendor bus st ctl) calls)
            rnode error newp
          = (EOPNOTSUPP, run (est_init_main arch est_cpus vendor bus st ctl) calls)) ∧
      (∀ error newp,
        phc_est_sysctl_helper (run (est_init_main arch est_cpus vendor bus st ctl) calls)
            error newp
          = (EOPNOTSUPP, run (est_init_main arch est_cpus vendor bus st ctl) calls)) ∧
      (∀ fq, setTarget (run (est_init_main arch est_cpus vendor bus st ctl) calls) fq
          = (EOPNOTSUPP, run (est_init_main arch est_cpus vendor bus st ctl) calls)) ∧
      (∀ input, applyOverride (run (est_init_main arch est_cpus vendor bus st ctl) calls) input
          = (EOPNOTSUPP, run (est_init_main arch est_cpus vendor bus st ctl) calls)) := by
  have hi : est_init_main arch est_cpus vendor bus st ctl = est_no_table bus st ctl :=
    est_init_main_insane arch vendor bus st ctl
      (Or.inr (Or.inr (Or.inr (Or.inr (Or.inr (by rw [h]; omega))))))
  have hn : (est_init_main arch est_cpus vendor bus st ctl).est_fqlist = .NULL := by
    rw [hi]; rfl
  obtain ⟨hr, hb⟩ := run_null calls _ hn
  refine ⟨hn, est_cpus_find_none vendor bus _ _ (by rw [h]), ?_, ?_, ?_, ?_, ?_⟩
  · rw [hb, hi]; rfl
  · intro rnode error newp
    simp only [est_sysctl_helper, hr, if_true]
  · intro error newp
    simp only [phc_est_sysctl_helper, hr, if_true]
  · intro fq
    simp only [setTarget, est_sysctl_helper, hr, if_true]
  · intro input
    simp only [applyOverride, phc_est_sysctl_helper, hr, if_true]

/-- Claim C20 at work: highest = lowest = (8, 30) on the i386 build; a write of
800 to `frequency.target` followed by a write to `phc.vids` returns
`EOPNOTSUPP` and nothing is broadcast. -/
theorem C20_witness :
    raw_highest 0x081E081E0000081E = raw_lowest 0x081E081E0000081E ∧
      (run (est_init_main .i386 est_cpus CPUVENDOR_INTEL 10000 0x081E081E0000081E 0x081E)
        [Call.est .target 0 (some 800)]).broadcasts = [] ∧
      applyOverride
          (run (est_init_main .i386 est_cpus CPUVENDOR_INTEL 10000 0x081E081E0000081E 0x081E)
            [Call.est .target 0 (some 800)]) "29".toList
        = (EOPNOTSUPP,
          run (est_init_main .i386 est_cpus CPUVENDOR_INTEL 10000 0x081E081E0000081E 0x081E)
            [Call.est .target 0 (some 800)]) :=
  ⟨by decide,
   (C20_equal_identifiers_unsupported .i386 CPUVENDOR_INTEL 10000 0x081E081E0000081E 0x081E
      (by decide) [Call.est .target 0 (some 800)]).2.2.1,
   (C20_equal_identifiers_unsupported .i386 CPUVENDOR_INTEL 10000 0x081E081E0000081E 0x081E
      (by decide) [Call.est .target 0 (some 800)]).2.2.2.2.2.2 "29".toList⟩

/-- Claim C18: on the i386 build (the one that searches the catalog), for every
vendor, bus clock and register contents whose current identifier is sane
(non-zero, frequency-step between lowest's and highest's): if entry `e` of the
catalog has the detected vendor and bus-clock class, first element equal to
the highest identifier and last element equal to the lowest identifier, and no
earlier entry of the catalog has, then `est_init_main` leaves a table, the
Live Table is `e.table` row by row (same length, same identifiers) and
`fake_fqlist` carries the vendor and bus-clock class of `e`; and every entry
of the catalog, presented with its own vendor, bus clock, first and last
identifiers, resolves to a copy of itself. -/
theorem C18_catalog_match_copied (vendor : Int) (bus st ctl : Nat)
    (hcur : raw_current st ≠ 0 ∧
      MSR2FREQINC (raw_lowest st) ≤ MSR2FREQINC (raw_current st) ∧
      MSR2FREQINC (raw_current st) ≤ MSR2FREQINC (raw_highest st)) :
    (∀ (i : Nat) (e : fqentry), est_cpus[i]? = some e →
      est_match vendor bus (raw_highest st) (raw_lowest st) e = true →
      (∀ (j : Nat) (a : fqentry), j < i → est_cpus[j]? = some a →
        est_match vendor bus (raw_highest st) (raw_lowest st) a = false) →
      (est_init_main .i386 est_cpus vendor bus st ctl).est_fqlist = .fake_fqlist ∧
        live_table (est_init_main .i386 est_cpus vendor bus st ctl) = e.table ∧
        (est_init_main .i386 est_cpus vendor bus st ctl).fake_fqlist.vendor = e.vendor ∧
        (est_init_main .i386 est_cpus vendor bus st ctl).fake_fqlist.bus_clk = e.bus_clk ∧
        (est_init_main .i386 est_cpus vendor bus st ctl).fake_fqlist.n = e.table.length) ∧
    (∀ e, e ∈ est_cpus → vendor = e.vendor → bus = BUS_CLK e.bus_clk →
      raw_highest st = e.table.getD 0 0 → raw_lowest st = e.table.getD (e.n - 1) 0 →
      (est_init_main .i386 est_cpus vendor bus st ctl).est_fqlist = .fake_fqlist ∧
        live_table (est_init_main .i386 est_cpus vendor bus st ctl) = e.table ∧
        (est_init_main .i386 est_cpus vendor bus st ctl).fake_fqlist.vendor = e.vendor ∧
        (est_init_main .i386 est_cpus vendor bus st ctl).fake_fqlist.bus_clk = e.bus_clk ∧
        (est_init_main .i386 est_cpus vendor bus st ctl).fake_fqlist.n = e.table.length) := by
  have key : ∀ e, est_cpus.find? (est_match vendor bus (raw_highest st) (raw_lowest st))
      = some e →
      (est_init_main .i386 est_cpus vendor bus st ctl).est_fqlist = .fake_fqlist ∧
        live_table (est_init_main .i386 est_cpus vendor bus st ctl) = e.table ∧
        (est_init_main .i386 est_cpus vendor bus st ctl).fake_fqlist.vendor = e.vendor ∧
        (est_init_main .i386 est_cpus vendor bus st ctl).fake_fqlist.bus_clk = e.bus_clk ∧
        (est_init_main .i386 est_cpus vendor bus st ctl).fake_fqlist.n = e.table.length := by
    intro e hfind
    exact est_copy_result _ (est_no_table bus st ctl) e
      (est_cpus_arraycount e (List.mem_of_find?_eq_some hfind))
      (est_init_main_copy vendor bus st ctl e hcur hfind)
  constructor
  · intro i e hi hm hfirst
    exact key e (find_first _ est_cpus i e hi hm hfirst)
  · intro e he hv hb h1 h2
    apply key e
    rw [hv, hb, h1, h2]
    exact est_cpus_self_match e he

/-- Claim C18 at work: the i386 build, Intel, bus clock 100 MHz, the registers
reporting the first and the last identifier of `pm90_n738` (1400 MHz and
600 MHz): the Live Table is `pm90_n738`. -/
theorem C18_witness :
    (raw_current 0x06120E1A00000712 ≠ 0 ∧
      MSR2FREQINC (raw_lowest 0x06120E1A00000712)
        ≤ MSR2FREQINC (raw_current 0x06120E1A00000712) ∧
      MSR2FREQINC (raw_current 0x06120E1A00000712)
        ≤ MSR2FREQINC (raw_highest 0x06120E1A00000712)) ∧
    live_table (est_init_main .i386 est_cpus CPUVENDOR_INTEL 10000 0x06120E1A00000712 0x0D1A)
      = pm90_n738 :=
  ⟨by decide,
   ((C18_catalog_match_copied CPUVENDOR_INTEL 10000 0x06120E1A00000712 0x0D1A
      (by decide)).2 (ENTRY CPUVENDOR_INTEL BUS100 pm90_n738) (by decide) (by decide)
      (by decide) (by decide) (by decide)).2.1⟩

/-- Counterexample to claim C12 as stated: after `n738_init` (rows 1400, 1300,
1200, 1100, 1000, 900, 800, 600 MHz; the control register targets 1300 MHz,
the status register reads 700 MHz) the accepted override
"25 25 25 23 22 21 20 18" broadcasts row 6, which decodes to 800 MHz: above
what the status register reads, and not the highest row at or below the target
(row 1, 1300 MHz) or at or below the status frequency (row 7, 600 MHz). -/
theorem C12_reclamp_selects_above :
    (live_table n738_init).map (fun id => MSR2MHZ id n738_init.bus_clock)
      = [1400, 1300, 1200, 1100, 1000, 900, 800, 600] ∧
    MSR2MHZ n738_init.perf_ctl n738_init.bus_clock = 1300 ∧
    MSR2MHZ n738_init.perf_status n738_init.bus_clock = 700 ∧
    (applyOverride n738_init "25 25 25 23 22 21 20 18".toList).1 = 0 ∧
    (applyOverride n738_init "25 25 25 23 22 21 20 18".toList).2.broadcasts =
      [{ msr_read := true, msr_type := MSR_PERF_CTL, msr_mask := 0xffff,
         msr_value :=
           (live_table (applyOverride n738_init "25 25 25 23 22 21 20 18".toList).2).getD 6 0 }] ∧
    MSR2MHZ ((live_table (applyOverride n738_init "25 25 25 23 22 21 20 18".toList).2).getD 6 0)
      n738_init.bus_clock = 800 ∧
    ¬ (MSR2MHZ
        ((live_table (applyOverride n738_init "25 25 25 23 22 21 20 18".toList).2).getD 6 0)
        n738_init.bus_clock ≤ MSR2MHZ n738_init.perf_status n738_init.bus_clock) ∧
    ¬ (∀ r, r ∈ live_table (applyOverride n738_init "25 25 25 23 22 21 20 18".toList).2 →
        MSR2MHZ r n738_init.bus_clock ≤ MSR2MHZ n738_init.perf_ctl n738_init.bus_clock →
        MSR2MHZ r n738_init.bus_clock ≤ MSR2MHZ
          ((live_table (applyOverride n738_init "25 25 25 23 22 21 20 18".toList).2).getD 6 0)
          n738_init.bus_clock) := by
  decide

/-- Witness of the amended claim C12 after `n738_init`: the accepted override
"25 25 25 23 22 21 20 18". -/
theorem C12_witness :
    Functional n738_init ∧
    strncmp_eq_zero "25 25 25 23 22 21 20 18".toList n738_init.phc_string_vids PHC_MAXLEN
      = false ∧
    (applyOverride n738_init "25 25 25 23 22 21 20 18".toList).1 = 0 ∧
    (∃ k, k < (live_table n738_init).length ∧
      (applyOverride n738_init "25 25 25 23 22 21 20 18".toList).2.broadcasts =
        n738_init.broadcasts ++
        [{ msr_read := true, msr_type := MSR_PERF_CTL, msr_mask := 0xffff,
           msr_value :=
             (live_table (applyOverride n738_init "25 25 25 23 22 21 20 18".toList).2).getD
               k 0 }]) :=
  ⟨by decide, by decide, by decide,
    (C12_reclamp_at_or_above n738_init "25 25 25 23 22 21 20 18".toList (by decide)
      (by decide) (by decide) (by decide) (by decide)).imp
      (fun _ hk => ⟨hk.1, hk.2.1⟩)⟩

/-- Counterexample to claim C13 as stated: after `sample_init` the accepted
input "29,22,014 5" leaves the session string "29,22,014" (the text of the
input up to the end of its third value), not the voltage-steps of the Live
Table joined by single spaces, "29 22 14". -/
theorem C13_session_string_keeps_input_text :
    (applyOverride sample_init "29,22,014 5".toList).1 = 0 ∧
    (live_table (applyOverride sample_init "29,22,014 5".toList).2).map MSR2VOLTINC
      = [29, 22, 14] ∧
    joined_voltage_steps (live_table (applyOverride sample_init "29,22,014 5".toList).2)
      = "29 22 14".toList ∧
    (applyOverride sample_init "29,22,014 5".toList).2.phc_string_vids = "29,22,014".toList ∧
    (applyOverride sample_init "29,22,014 5".toList).2.phc_string_vids ≠
      joined_voltage_steps (live_table (applyOverride sample_init "29,22,014 5".toList).2) := by
  decide

/-- Witness of the amended claim C13 after `sample_init`: the accepted input
"29,22,014 5". -/
theorem C13_witness :
    Functional sample_init ∧
    strncmp_eq_zero "29,22,014 5".toList sample_init.phc_string_vids PHC_MAXLEN = false ∧
    (applyOverride sample_init "29,22,014 5".toList).1 = 0 ∧
    (applyOverride sample_init "29,22,014 5".toList).2.phc_string_vids =
      (text_through_values (live_table sample_init).length "29,22,014 5".toList).take
        PHC_MAXLEN ∧
    (text_through_values (live_table sample_init).length "29,22,014 5".toList).take PHC_MAXLEN
      = "29,22,014".toList :=
  ⟨by decide, by decide, by decide,
    C13_session_string_is_input_text sample_init "29,22,014 5".toList (by decide) (by decide)
      (by decide),
    by decide⟩

/-- Claim C15 evaluated at a triple that passes every sanity check and yields
an empty table: amd64 and i386 builds, bus clock 100 MHz, highest = (8, 12),
lowest = (6, 13), current = highest.  `tablesize` is `12 - 13 + 1 = 0`;
`est_fqlist` is set, `fake_fqlist.n` is 0 and the Live Table has no row. -/
theorem C15_sane_triple_empty_table :
    raw_highest 0x060D080C0000080C ≠ 0 ∧ raw_lowest 0x060D080C0000080C ≠ 0 ∧
    raw_current 0x060D080C0000080C ≠ 0 ∧
    MSR2FREQINC (raw_lowest 0x060D080C0000080C)
      ≤ MSR2FREQINC (raw_current 0x060D080C0000080C) ∧
    MSR2FREQINC (raw_current 0x060D080C0000080C)
      ≤ MSR2FREQINC (raw_highest 0x060D080C0000080C) ∧
    MSR2FREQINC (raw_highest 0x060D080C0000080C)
      > MSR2FREQINC (raw_lowest 0x060D080C0000080C) ∧
    est_fake_size (raw_highest 0x060D080C0000080C) (raw_lowest 0x060D080C0000080C) = 0 ∧
    (est_init_main .amd64 est_cpus CPUVENDOR_INTEL 10000 0x060D080C0000080C 0x080C).est_fqlist
      = .fake_fqlist ∧
    (est_init_main .amd64 est_cpus CPUVENDOR_INTEL 10000 0x060D080C0000080C 0x080C).fake_fqlist.n
      = 0 ∧
    live_table (est_init_main .amd64 est_cpus CPUVENDOR_INTEL 10000 0x060D080C0000080C 0x080C)
      = [] ∧
    (est_init_main .i386 est_cpus CPUVENDOR_INTEL 10000 0x060D080C0000080C 0x080C).est_fqlist
      = .fake_fqlist ∧
    live_table (est_init_main .i386 est_cpus CPUVENDOR_INTEL 10000 0x060D080C0000080C 0x080C)
      = [] := by
  decide

/-- Claim C17 evaluated at lowest = (6, 13), highest = (8, 12), where
`maxF > minF`: the interpolation of lines 1324-1365 computes `tablesize = 0`
and stores no row, so the table it leaves has no first row. -/
theorem C17_interpolation_without_first_row :
    MSR2FREQINC 0x080C > MSR2FREQINC 0x060D ∧
    est_fake_size 0x080C 0x060D = 0 ∧
    est_fake_table 0x080C 0x060D = [] ∧
    (est_init_main .amd64 est_cpus CPUVENDOR_INTEL 10000 0x060D080C0000080C 0x080C).heap = [] ∧
    (live_table
      (est_init_main .amd64 est_cpus CPUVENDOR_INTEL 10000 0x060D080C0000080C 0x080C)).head?
      = none := by
  decide

/-! ## The interpolated table -/

theorem est_fake_rows_getD (fi vi : Int) : ∀ (k : Nat) (freq volt : Int) (j : Nat), j < k →
    (est_fake_rows fi vi k freq volt).getD j 0 =
      ((((freq - j * fi + 99).tdiv 100) * 256 + (volt - j * vi + 99).tdiv 100) % 65536).toNat := by
  intro k
  induction k with
  | zero => intro _ _ j hj; omega
  | succ k ih =>
    intro freq volt j hj
    cases j with
    | zero => simp [est_fake_rows]
    | succ j =>
      simp only [est_fake_rows, List.getD_cons_succ]
      rw [ih (freq - fi) (volt - vi) j (by omega)]
      have e1 : freq - fi - (j : Int) * fi = freq - ((j + 1 : Nat) : Int) * fi := by
        push_cast; ring
      have e2 : volt - vi - (j : Int) * vi = volt - ((j + 1 : Nat) : Int) * vi := by
        push_cast; ring
      rw [e1, e2]

theorem fake_entry_freq (f v : Int) (hf0 : 0 ≤ f) (hf : f ≤ 25500) (hv0 : 0 ≤ v)
    (hv : v ≤ 25500) :
    (MSR2FREQINC ((((f + 99).tdiv 100) * 256 + (v + 99).tdiv 100) % 65536).toNat : Int)
      = (f + 99) / 100 := by
  rw [Int.tdiv_eq_ediv (by omega) (by omega), Int.tdiv_eq_ediv (by omega) (by omega),
    MSR2FREQINC_eq]
  omega

theorem span_div_bounds (x y : Int) (hy : 0 < y) (hxy : y ≤ x) (j : Int) (hj0 : 0 ≤ j)
    (hj : j ≤ y) :
    99 ≤ (x * 100).tdiv y - 1 ∧ 0 ≤ j * ((x * 100).tdiv y - 1) ∧
      j * ((x * 100).tdiv y - 1) ≤ x * 100 - y := by
  rw [Int.tdiv_eq_ediv (by omega) (by omega)]
  have hq : 100 ≤ x * 100 / y := by
    apply Int.le_ediv_of_mul_le hy
    nlinarith
  have hm : x * 100 / y * y ≤ x * 100 := Int.ediv_mul_le _ (by omega)
  have h1 : j * (x * 100 / y - 1) ≤ y * (x * 100 / y - 1) :=
    Int.mul_le_mul_of_nonneg_right hj (by omega)
  have h0 : 0 ≤ j * (x * 100 / y - 1) := Int.mul_nonneg hj0 (by omega)
  refine ⟨by omega, h0, ?_⟩
  have h2 : y * (x * 100 / y - 1) = x * 100 / y * y - y := by ring
  omega

theorem fake_bounds (idhi idlo : Nat) (hdf : MSR2FREQINC idlo < MSR2FREQINC idhi)
    (hdv : MSR2VOLTINC idlo ≤ MSR2VOLTINC idhi) :
    0 < est_fake_size idhi idlo ∧ est_fake_size idhi idlo ≤ 256 ∧
      99 ≤ est_fake_freqinc idhi idlo ∧
      ∀ j : Nat, (j : Int) < est_fake_size idhi idlo →
        0 ≤ (MSR2FREQINC idhi : Int) * 100 - j * est_fake_freqinc idhi idlo ∧
        (MSR2FREQINC idhi : Int) * 100 - j * est_fake_freqinc idhi idlo ≤ 25500 ∧
        0 ≤ (MSR2VOLTINC idhi : Int) * 100 - j * est_fake_voltinc idhi idlo ∧
        (MSR2VOLTINC idhi : Int) * 100 - j * est_fake_voltinc idhi idlo ≤ 25500 := by
  have ha : (MSR2FREQINC idhi : Int) < 256 := by exact_mod_cast freqinc_lt idhi
  have hc : (MSR2VOLTINC idhi : Int) < 256 := by exact_mod_cast voltinc_lt idhi
  have hab : (MSR2FREQINC idlo : Int) < MSR2FREQINC idhi := by exact_mod_cast hdf
  have hdc : (MSR2VOLTINC idlo : Int) ≤ MSR2VOLTINC idhi := by exact_mod_cast hdv
  have hb0 : (0 : Int) ≤ MSR2FREQINC idlo := Int.ofNat_nonneg _
  have hd0 : (0 : Int) ≤ MSR2VOLTINC idlo := Int.ofNat_nonneg _
  unfold est_fake_size est_fake_freqinc est_fake_voltinc
  simp only []
  generalize (MSR2FREQINC idhi : Int) = a at *
  generalize (MSR2FREQINC idlo : Int) = b at *
  generalize (MSR2VOLTINC idhi : Int) = c at *
  generalize (MSR2VOLTINC idlo : Int) = d at *
  by_cases hbr : a - b < c - d ∨ c - d = 0
  · simp only [hbr, if_true]
    refine ⟨by omega, by omega, by omega, ?_⟩
    intro j hj
    by_cases hz : c - d = 0
    · simp only [hz, ne_eq, not_true_eq_false, if_false, mul_zero, sub_zero]
      omega
    · simp only [ne_eq, hz, not_false_eq_true, if_true]
      have hlt : a - b < c - d := by
        rcases hbr with h | h
        · exact h
        · exact absurd h hz
      obtain ⟨_, h0, h1⟩ := span_div_bounds (c - d) (a - b) (by omega) (by omega) j
        (by omega) (by omega)
      omega
  · simp only [hbr, if_false]
    have hpos : 0 < c - d := by omega
    have hle : c - d ≤ a - b := by omega
    refine ⟨by omega, by omega, ?_, ?_⟩
    · exact (span_div_bounds (a - b) (c - d) hpos hle 0 (by omega) (by omega)).1
    · intro j hj
      obtain ⟨_, h0, h1⟩ := span_div_bounds (a - b) (c - d) hpos hle j (by omega) (by omega)
      omega

theorem fake_table_length (idhi idlo : Nat) :
    (est_fake_table idhi idlo).length = (est_fake_size idhi idlo).toNat := by
  unfold est_fake_table
  exact est_fake_rows_length _ _ _ _ _

theorem fake_table_freq (idhi idlo : Nat) (hdf : MSR2FREQINC idlo < MSR2FREQINC idhi)
    (hdv : MSR2VOLTINC idlo ≤ MSR2VOLTINC idhi) (j : Nat)
    (hj : j < (est_fake_table idhi idlo).length) :
    (MSR2FREQINC ((est_fake_table idhi idlo).getD j 0) : Int) =
      ((MSR2FREQINC idhi : Int) * 100 - j * est_fake_freqinc idhi idlo + 99) / 100 := by
  rw [fake_table_length] at hj
  obtain ⟨_, _, _, hb⟩ := fake_bounds idhi idlo hdf hdv
  obtain ⟨b1, b2, b3, b4⟩ := hb j (by omega)
  unfold est_fake_table
  rw [est_fake_rows_getD _ _ _ _ _ j hj]
  exact fake_entry_freq _ _ b1 b2 b3 b4

theorem pairwise_of_index {R : Nat → Nat → Prop} (f : Nat → Nat) (l : List Nat)
    (h : ∀ i j, i < j → j < l.length → R (f (l.getD i 0)) (f (l.getD j 0))) :
    (l.map f).Pairwise R := by
  rw [List.pairwise_iff_getElem]
  intro i j hi hj hij
  simp only [List.length_map] at hi hj
  have := h i j hij hj
  simpa [List.getD_eq_getElem?_getD, List.getElem?_eq_getElem hi,
    List.getElem?_eq_getElem hj] using this

theorem fake_table_sorted (idhi idlo : Nat) (hdf : MSR2FREQINC idlo < MSR2FREQINC idhi)
    (hdv : MSR2VOLTINC idlo ≤ MSR2VOLTINC idhi) :
    ((est_fake_table idhi idlo).map MSR2FREQINC).Pairwise (fun a b => a ≥ b) ∧
      (100 ≤ est_fake_freqinc idhi idlo →
        ((est_fake_table idhi idlo).map MSR2FREQINC).Pairwise (fun a b => a > b)) := by
  obtain ⟨_, _, hfi, _⟩ := fake_bounds idhi idlo hdf hdv
  constructor
  · apply pairwise_of_index
    intro i j hij hj
    have e1 := fake_table_freq idhi idlo hdf hdv i (by omega)
    have e2 := fake_table_freq idhi idlo hdf hdv j hj
    have hm : (i : Int) * est_fake_freqinc idhi idlo ≤ j * est_fake_freqinc idhi idlo :=
      Int.mul_le_mul_of_nonneg_right (by omega) (by omega)
    show MSR2FREQINC _ ≥ MSR2FREQINC _
    omega
  · intro h100
    apply pairwise_of_index
    intro i j hij hj
    have e1 := fake_table_freq idhi idlo hdf hdv i (by omega)
    have e2 := fake_table_freq idhi idlo hdf hdv j hj
    have hm : ((i : Int) + 1) * est_fake_freqinc idhi idlo ≤ j * est_fake_freqinc idhi idlo :=
      Int.mul_le_mul_of_nonneg_right (by omega) (by omega)
    have hr : ((i : Int) + 1) * est_fake_freqinc idhi idlo
        = i * est_fake_freqinc idhi idlo + est_fake_freqinc idhi idlo := by ring
    show MSR2FREQINC _ > MSR2FREQINC _
    omega

theorem fake_freqinc_ge (idhi idlo : Nat) (hdf : MSR2FREQINC idlo < MSR2FREQINC idhi)
    (hdv : MSR2VOLTINC idlo ≤ MSR2VOLTINC idhi)
    (h : MSR2FREQINC idhi + MSR2VOLTINC idlo < MSR2VOLTINC idhi + MSR2FREQINC idlo ∨
      MSR2VOLTINC idhi = MSR2VOLTINC idlo ∨
      101 * (MSR2VOLTINC idhi - MSR2VOLTINC idlo)
        ≤ 100 * (MSR2FREQINC idhi - MSR2FREQINC idlo)) :
    100 ≤ est_fake_freqinc idhi idlo := by
  unfold est_fake_freqinc
  simp only []
  split
  · omega
  · rename_i hbr
    have hpos : (0 : Int) < (MSR2VOLTINC idhi : Int) - MSR2VOLTINC idlo := by omega
    rw [Int.tdiv_eq_ediv (by omega) (by omega)]
    have : 101 ≤ ((MSR2FREQINC idhi : Int) - MSR2FREQINC idlo) * 100 /
        ((MSR2VOLTINC idhi : Int) - MSR2VOLTINC idlo) := by
      apply Int.le_ediv_of_mul_le hpos
      omega
    omega

theorem est_cpus_strictly_decreasing : ∀ e ∈ est_cpus,
    (e.table.map MSR2FREQINC).Pairwise (fun a b => a > b) := by decide

theorem est_init_main_cases (arch : Arch) (cpus : List fqentry) (vendor : Int)
    (bus st ctl : Nat) :
    est_init_main arch cpus vendor bus st ctl = est_no_table bus st ctl ∨
    (∃ fql, arch = .i386 ∧
      cpus.find? (est_match vendor bus (raw_highest st) (raw_lowest st)) = some fql ∧
      est_init_main arch cpus vendor bus st ctl =
        est_init_finish
          { est_no_table bus st ctl with
            heap := fql.table.take fql.n
            fake_table := .heap
            fake_fqlist :=
              { vendor := fql.vendor, bus_clk := fql.bus_clk, n := fql.n, table := .heap }
            est_fqlist := .fake_fqlist }) ∨
    (MSR2FREQINC (raw_lowest st) < MSR2FREQINC (raw_highest st) ∧
      (arch = .amd64 ∨
        cpus.find? (est_match vendor bus (raw_highest st) (raw_lowest st)) = none) ∧
      est_init_main arch cpus vendor bus st ctl =
        est_init_finish
          { est_no_table bus st ctl with
            heap := est_fake_table (raw_highest st) (raw_lowest st)
            fake_table := .heap
            fake_fqlist :=
              { vendor := vendor, bus_clk := 0,
                n := (est_fake_size (raw_highest st) (raw_lowest st) % 4294967296).toNat,
                table := .heap }
            est_fqlist := .fake_fqlist }) := by
  rw [est_init_main_eq]
  split
  · left; rfl
  split
  · left; rfl
  rename_i h1
  split
  · left; rfl
  rename_i h2
  split
  · left; rfl
  rename_i h3
  cases hfound : (if arch = .i386 then
      cpus.find? (est_match vendor bus (raw_highest st) (raw_lowest st)) else none) with
  | some fql =>
    right; left
    refine ⟨fql, ?_, ?_, rfl⟩
    · by_contra hne
      simp only [hne, if_false, reduceCtorEq] at hfound
    · split at hfound
      · exact hfound
      · exact absurd hfound (by simp)
  | none =>
    simp only []
    split
    · left; rfl
    split
    · left; rfl
    rename_i h5
    right; right
    refine ⟨?_, ?_, rfl⟩
    · cases arch with
      | amd64 =>
        simp only [true_and, not_or] at h2 h3
        omega
      | i386 =>
        simp only [true_and, not_or] at h1
        omega
    · cases arch with
      | amd64 => left; rfl
      | i386 =>
        right
        simpa using hfound

theorem est_interp_result (x x0 : Driver) (vendor : Int) (idhi idlo : Nat)
    (hdf : MSR2FREQINC idlo < MSR2FREQINC idhi)
    (hdv : MSR2VOLTINC idlo ≤ MSR2VOLTINC idhi)
    (hx : x = est_init_finish
        { x0 with
          heap := est_fake_table idhi idlo
          fake_table := .heap
          fake_fqlist :=
            { vendor := vendor, bus_clk := 0,
              n := (est_fake_size idhi idlo % 4294967296).toNat,
              table := .heap }
          est_fqlist := .fake_fqlist }) :
    Functional x ∧ live_table x = est_fake_table idhi idlo := by
  subst hx
  obtain ⟨hs0, hs1, _, _⟩ := fake_bounds idhi idlo hdf hdv
  have hf : Functional (est_init_finish
        { x0 with
          heap := est_fake_table idhi idlo
          fake_table := .heap
          fake_fqlist :=
            { vendor := vendor, bus_clk := 0,
              n := (est_fake_size idhi idlo % 4294967296).toNat,
              table := .heap }
          est_fqlist := .fake_fqlist }) := by
    apply est_init_finish_functional _ rfl rfl rfl
    show (est_fake_size idhi idlo % 4294967296).toNat = (est_fake_table idhi idlo).length
    rw [fake_table_length]
    omega
  exact ⟨hf, live_table_eq _ hf⟩

/-- Claim C16 as amended: for every build, vendor, bus clock and register
contents, a Live Table that `est_init_main` copies from the catalog of the
source is strictly decreasing in frequency-step; a Live Table that it
synthesizes by interpolation from identifiers with highest's voltage-step at
least lowest's is non-increasing in frequency-step from row 0 to the last
row, and strictly decreasing when the frequency-step span is smaller than the
voltage-step span, when the two voltage-steps are equal, or when 100 times the
frequency-step span is at least 101 times the voltage-step span. -/
theorem C16_frequency_steps_never_increase (arch : Arch) (vendor : Int) (bus st ctl : Nat) :
    (∀ fql, arch = .i386 →
      est_cpus.find? (est_match vendor bus (raw_highest st) (raw_lowest st)) = some fql →
      ((live_table (est_init_main arch est_cpus vendor bus st ctl)).map MSR2FREQINC).Pairwise
        (fun a b => a > b)) ∧
    ((arch = .amd64 ∨
        est_cpus.find? (est_match vendor bus (raw_highest st) (raw_lowest st)) = none) →
      MSR2VOLTINC (raw_lowest st) ≤ MSR2VOLTINC (raw_highest st) →
      ((live_table (est_init_main arch est_cpus vendor bus st ctl)).map MSR2FREQINC).Pairwise
          (fun a b => a ≥ b) ∧
        (MSR2FREQINC (raw_highest st) + MSR2VOLTINC (raw_lowest st)
              < MSR2VOLTINC (raw_highest st) + MSR2FREQINC (raw_lowest st) ∨
            MSR2VOLTINC (raw_highest st) = MSR2VOLTINC (raw_lowest st) ∨
            101 * (MSR2VOLTINC (raw_highest st) - MSR2VOLTINC (raw_lowest st))
              ≤ 100 * (MSR2FREQINC (raw_highest st) - MSR2FREQINC (raw_lowest st)) →
          ((live_table (est_init_main arch est_cpus vendor bus st ctl)).map
            MSR2FREQINC).Pairwise (fun a b => a > b))) := by
  rcases est_init_main_cases arch est_cpus vendor bus st ctl with
    h | ⟨fql, ha, hfind, h⟩ | ⟨hdf, hor, h⟩
  · rw [h]
    exact ⟨fun _ _ _ => List.Pairwise.nil,
      fun _ _ => ⟨List.Pairwise.nil, fun _ => List.Pairwise.nil⟩⟩
  · have hmem := List.mem_of_find?_eq_some hfind
    obtain ⟨_, hl, _⟩ := est_copy_result _ (est_no_table bus st ctl) fql
      (est_cpus_arraycount fql hmem) h
    constructor
    · intro _ _ _
      rw [hl]
      exact est_cpus_strictly_decreasing fql hmem
    · intro hor _
      rcases hor with hor | hor
      · rw [ha] at hor; exact absurd hor (by decide)
      · rw [hfind] at hor; exact absurd hor (by simp)
  · constructor
    · intro fql ha hfind
      rcases hor with hor | hor
      · rw [ha] at hor; exact absurd hor (by decide)
      · rw [hfind] at hor; exact absurd hor (by simp)
    · intro _ hdv
      obtain ⟨_, hl⟩ := est_interp_result _ (est_no_table bus st ctl) vendor _ _ hdf hdv h
      rw [hl]
      obtain ⟨s1, s2⟩ := fake_table_sorted _ _ hdf hdv
      exact ⟨s1, fun hc => s2 (fake_freqinc_ge _ _ hdf hdv hc)⟩

/-- Counterexample to claim C16 as stated: amd64 build, highest = (8, 15),
lowest = (6, 13), current = highest.  The interpolated Live Table is
(8, 15), (8, 14), (7, 13): rows 0 and 1 share the frequency-step 8. -/
theorem C16_rows_share_frequency_step :
    live_table (est_init_main .amd64 est_cpus CPUVENDOR_INTEL 10000 0x060D080F0000080F 0x080F)
      = [PHC_ID16 8 15, PHC_ID16 8 14, PHC_ID16 7 13] ∧
    (live_table (est_init_main .amd64 est_cpus CPUVENDOR_INTEL 10000 0x060D080F0000080F
      0x080F)).map MSR2FREQINC = [8, 8, 7] ∧
    ¬ ((live_table (est_init_main .amd64 est_cpus CPUVENDOR_INTEL 10000 0x060D080F0000080F
      0x080F)).map MSR2FREQINC).Pairwise (fun a b => a > b) := by
  decide

/-- Witness of the amended claim C16: the interpolation from highest = (8, 30),
lowest = (6, 13) on the amd64 build (frequency span 2, voltage span 17) is
strictly decreasing in frequency-step, and the copy of `pm90_n738` on the i386
build is strictly decreasing. -/
theorem C16_witness :
    MSR2VOLTINC (raw_lowest 0x060D081E0000081E) ≤ MSR2VOLTINC (raw_highest 0x060D081E0000081E) ∧
    ((live_table (est_init_main .amd64 est_cpus CPUVENDOR_INTEL 10000 0x060D081E0000081E
      0x081E)).map MSR2FREQINC).Pairwise (fun a b => a > b) ∧
    ((live_table (est_init_main .i386 est_cpus CPUVENDOR_INTEL 10000 0x06120E1A00000712
      0x0D1A)).map MSR2FREQINC).Pairwise (fun a b => a > b) :=
  ⟨by decide,
   ((C16_frequency_steps_never_increase .amd64 CPUVENDOR_INTEL 10000 0x060D081E0000081E
      0x081E).2 (Or.inl rfl) (by decide)).2 (Or.inl (by decide)),
   (C16_frequency_steps_never_increase .i386 CPUVENDOR_INTEL 10000 0x06120E1A00000712
      0x0D1A).1 (ENTRY CPUVENDOR_INTEL BUS100 pm90_n738) rfl (by decide)⟩

theorem raw_highest_lt (msr : Nat) : raw_highest msr < 65536 := by
  unfold raw_highest
  have := Nat.and_pow_two_sub_one_eq_mod (msr >>> 32) 16
  simp only [Nat.reducePow, Nat.reduceSub] at this
  rw [this]; omega

/-- Where highest's voltage-step is at least lowest's, the interpolation of
lines 1324-1365 yields a table that is not empty and whose first row is the
highest identifier. -/
theorem fake_table_first_row (idhi idlo : Nat) (hdf : MSR2FREQINC idlo < MSR2FREQINC idhi)
    (hdv : MSR2VOLTINC idlo ≤ MSR2VOLTINC idhi) (h16 : idhi < 65536) :
    est_fake_table idhi idlo ≠ [] ∧ (est_fake_table idhi idlo).head? = some idhi := by
  obtain ⟨hs0, _, _, _⟩ := fake_bounds idhi idlo hdf hdv
  have hF := MSR2FREQINC_eq idhi
  have hV := MSR2VOLTINC_eq idhi
  obtain ⟨k, hk⟩ : ∃ k, (est_fake_size idhi idlo).toNat = k + 1 := ⟨_, (Nat.succ_pred_eq_of_pos
    (by omega)).symm⟩
  unfold est_fake_table
  rw [hk]
  simp only [est_fake_rows, ne_eq, reduceCtorEq, not_false_eq_true, List.head?_cons,
    Option.some.injEq, true_and]
  rw [Int.tdiv_eq_ediv (by omega) (by omega), Int.tdiv_eq_ediv (by omega) (by omega)]
  omega

/-! ## Rows of the interpolated table -/

theorem fake_entry_volt (f v : Int) (hf0 : 0 ≤ f) (hf : f ≤ 25500) (hv0 : 0 ≤ v)
    (hv : v ≤ 25500) :
    (MSR2VOLTINC ((((f + 99).tdiv 100) * 256 + (v + 99).tdiv 100) % 65536).toNat : Int)
      = (v + 99) / 100 := by
  rw [Int.tdiv_eq_ediv (by omega) (by omega), Int.tdiv_eq_ediv (by omega) (by omega),
    MSR2VOLTINC_eq]
  omega

theorem fake_entry_pack (f v : Int) (hf0 : 0 ≤ f) (hf : f ≤ 25500) (hv0 : 0 ≤ v)
    (hv : v ≤ 25500) :
    ((((f + 99).tdiv 100) * 256 + (v + 99).tdiv 100) % 65536).toNat
      = PHC_ID16 ((f + 99) / 100).toNat ((v + 99) / 100).toNat := by
  rw [Int.tdiv_eq_ediv (by omega) (by omega), Int.tdiv_eq_ediv (by omega) (by omega),
    PHC_ID16_eq _ _ (by omega)]
  omega

/-- The two branches of lines 1335-1344, with the spans as natural numbers. -/
theorem fake_branch_freq (idhi idlo : Nat) (hdf : MSR2FREQINC idlo < MSR2FREQINC idhi)
    (hdv : MSR2VOLTINC idlo ≤ MSR2VOLTINC idhi)
    (hbr : MSR2FREQINC idhi - MSR2FREQINC idlo < MSR2VOLTINC idhi - MSR2VOLTINC idlo ∨
      MSR2VOLTINC idhi - MSR2VOLTINC idlo = 0) :
    est_fake_size idhi idlo = ((MSR2FREQINC idhi - MSR2FREQINC idlo + 1 : Nat) : Int) ∧
      est_fake_freqinc idhi idlo = 100 ∧
      est_fake_voltinc idhi idlo =
        ((if MSR2VOLTINC idhi - MSR2VOLTINC idlo = 0 then 0
          else (MSR2VOLTINC idhi - MSR2VOLTINC idlo) * 100
            / (MSR2FREQINC idhi - MSR2FREQINC idlo) - 1 : Nat) : Int) := by
  unfold est_fake_size est_fake_freqinc est_fake_voltinc
  simp only []
  have hc : (MSR2FREQINC idhi : Int) - MSR2FREQINC idlo
      < (MSR2VOLTINC idhi : Int) - MSR2VOLTINC idlo ∨
      (MSR2VOLTINC idhi : Int) - MSR2VOLTINC idlo = 0 := by omega
  simp only [hc, if_true]
  refine ⟨by omega, trivial, ?_⟩
  by_cases hz : MSR2VOLTINC idhi - MSR2VOLTINC idlo = 0
  · have hz2 : (MSR2VOLTINC idhi : Int) - MSR2VOLTINC idlo = 0 := by omega
    simp only [hz, hz2, ne_eq, not_true_eq_false, if_false, if_true, Nat.cast_zero]
  · have hz2 : (MSR2VOLTINC idhi : Int) - MSR2VOLTINC idlo ≠ 0 := by omega
    simp only [hz, hz2, ne_eq, not_false_eq_true, if_true, if_false]
    rw [Int.tdiv_eq_ediv (by omega) (by omega)]
    have h100 : 100 ≤ (MSR2VOLTINC idhi - MSR2VOLTINC idlo) * 100
        / (MSR2FREQINC idhi - MSR2FREQINC idlo) := by
      rw [Nat.le_div_iff_mul_le (by omega)]
      have : MSR2FREQINC idhi - MSR2FREQINC idlo ≤ MSR2VOLTINC idhi - MSR2VOLTINC idlo := by
        omega
      calc 100 * (MSR2FREQINC idhi - MSR2FREQINC idlo)
          ≤ 100 * (MSR2VOLTINC idhi - MSR2VOLTINC idlo) := Nat.mul_le_mul_left 100 this
        _ = (MSR2VOLTINC idhi - MSR2VOLTINC idlo) * 100 := Nat.mul_comm _ _
    push_cast [Nat.cast_sub (by omega : 1 ≤ (MSR2VOLTINC idhi - MSR2VOLTINC idlo) * 100
        / (MSR2FREQINC idhi - MSR2FREQINC idlo)),
      Nat.cast_sub hdv, Nat.cast_sub (Nat.le_of_lt hdf)]
    rfl

theorem fake_branch_volt (idhi idlo : Nat) (hdf : MSR2FREQINC idlo < MSR2FREQINC idhi)
    (hdv : MSR2VOLTINC idlo ≤ MSR2VOLTINC idhi)
    (hbr : ¬ (MSR2FREQINC idhi - MSR2FREQINC idlo < MSR2VOLTINC idhi - MSR2VOLTINC idlo ∨
      MSR2VOLTINC idhi - MSR2VOLTINC idlo = 0)) :
    est_fake_size idhi idlo = ((MSR2VOLTINC idhi - MSR2VOLTINC idlo + 1 : Nat) : Int) ∧
      est_fake_voltinc idhi idlo = 100 ∧
      est_fake_freqinc idhi idlo =
        (((MSR2FREQINC idhi - MSR2FREQINC idlo) * 100
            / (MSR2VOLTINC idhi - MSR2VOLTINC idlo) - 1 : Nat) : Int) := by
  unfold est_fake_size est_fake_freqinc est_fake_voltinc
  simp only []
  have hc : ¬ ((MSR2FREQINC idhi : Int) - MSR2FREQINC idlo
      < (MSR2VOLTINC idhi : Int) - MSR2VOLTINC idlo ∨
      (MSR2VOLTINC idhi : Int) - MSR2VOLTINC idlo = 0) := by omega
  simp only [hc, if_false]
  refine ⟨by omega, trivial, ?_⟩
  rw [Int.tdiv_eq_ediv (by omega) (by omega)]
  have h100 : 100 ≤ (MSR2FREQINC idhi - MSR2FREQINC idlo) * 100
      / (MSR2VOLTINC idhi - MSR2VOLTINC idlo) := by
    rw [Nat.le_div_iff_mul_le (by omega)]
    have : MSR2VOLTINC idhi - MSR2VOLTINC idlo ≤ MSR2FREQINC idhi - MSR2FREQINC idlo := by
      omega
    calc 100 * (MSR2VOLTINC idhi - MSR2VOLTINC idlo)
        ≤ 100 * (MSR2FREQINC idhi - MSR2FREQINC idlo) := Nat.mul_le_mul_left 100 this
      _ = (MSR2FREQINC idhi - MSR2FREQINC idlo) * 100 := Nat.mul_comm _ _
  push_cast [Nat.cast_sub (by omega : 1 ≤ (MSR2FREQINC idhi - MSR2FREQINC idlo) * 100
      / (MSR2VOLTINC idhi - MSR2VOLTINC idlo)),
    Nat.cast_sub hdv, Nat.cast_sub (Nat.le_of_lt hdf)]
  rfl

/-- The running values `freq` and `volt` of the loop of lines 1353-1365 stay
between a hundred times the lowest and a hundred times the highest step. -/
theorem fake_bounds_strong (idhi idlo : Nat) (hdf : MSR2FREQINC idlo < MSR2FREQINC idhi)
    (hdv : MSR2VOLTINC idlo ≤ MSR2VOLTINC idhi) (j : Nat)
    (hj : (j : Int) < est_fake_size idhi idlo) :
    (MSR2FREQINC idlo : Int) * 100
        ≤ (MSR2FREQINC idhi : Int) * 100 - j * est_fake_freqinc idhi idlo ∧
      (MSR2FREQINC idhi : Int) * 100 - j * est_fake_freqinc idhi idlo
        ≤ (MSR2FREQINC idhi : Int) * 100 ∧
      (MSR2VOLTINC idlo : Int) * 100
        ≤ (MSR2VOLTINC idhi : Int) * 100 - j * est_fake_voltinc idhi idlo ∧
      (MSR2VOLTINC idhi : Int) * 100 - j * est_fake_voltinc idhi idlo
        ≤ (MSR2VOLTINC idhi : Int) * 100 := by
  have hab : (MSR2FREQINC idlo : Int) < MSR2FREQINC idhi := by exact_mod_cast hdf
  have hdc : (MSR2VOLTINC idlo : Int) ≤ MSR2VOLTINC idhi := by exact_mod_cast hdv
  revert hj
  unfold est_fake_size est_fake_freqinc est_fake_voltinc
  simp only []
  generalize (MSR2FREQINC idhi : Int) = a at *
  generalize (MSR2FREQINC idlo : Int) = b at *
  generalize (MSR2VOLTINC idhi : Int) = c at *
  generalize (MSR2VOLTINC idlo : Int) = d at *
  by_cases hbr : a - b < c - d ∨ c - d = 0
  · simp only [hbr, if_true]
    intro hj
    by_cases hz : c - d = 0
    · simp only [hz, ne_eq, not_true_eq_false, if_false, mul_zero, sub_zero]
      omega
    · simp only [ne_eq, hz, not_false_eq_true, if_true]
      have hlt : a - b < c - d := by
        rcases hbr with h | h
        · exact h
        · exact absurd h hz
      obtain ⟨_, h0, h1⟩ := span_div_bounds (c - d) (a - b) (by omega) (by omega) j
        (by omega) (by omega)
      omega
  · simp only [hbr, if_false]
    intro hj
    have hpos : 0 < c - d := by omega
    have hle : c - d ≤ a - b := by omega
    obtain ⟨_, h0, h1⟩ := span_div_bounds (a - b) (c - d) hpos hle j (by omega) (by omega)
    omega

/-- Row `j` of the interpolated table: the two running values, each rounded up
to whole steps, packed without carry. -/
theorem fake_table_row (idhi idlo : Nat) (hdf : MSR2FREQINC idlo < MSR2FREQINC idhi)
    (hdv : MSR2VOLTINC idlo ≤ MSR2VOLTINC idhi) (j : Nat)
    (hj : j < (est_fake_table idhi idlo).length) :
    (est_fake_table idhi idlo).getD j 0 =
        PHC_ID16
          (((MSR2FREQINC idhi : Int) * 100 - j * est_fake_freqinc idhi idlo + 99) / 100).toNat
          (((MSR2VOLTINC idhi : Int) * 100 - j * est_fake_voltinc idhi idlo + 99) / 100).toNat ∧
      (MSR2FREQINC ((est_fake_table idhi idlo).getD j 0) : Int) =
        ((MSR2FREQINC idhi : Int) * 100 - j * est_fake_freqinc idhi idlo + 99) / 100 ∧
      (MSR2VOLTINC ((est_fake_table idhi idlo).getD j 0) : Int) =
        ((MSR2VOLTINC idhi : Int) * 100 - j * est_fake_voltinc idhi idlo + 99) / 100 := by
  rw [fake_table_length] at hj
  obtain ⟨_, _, _, hb⟩ := fake_bounds idhi idlo hdf hdv
  obtain ⟨b1, b2, b3, b4⟩ := hb j (by omega)
  unfold est_fake_table
  rw [est_fake_rows_getD _ _ _ _ _ j hj]
  exact ⟨fake_entry_pack _ _ b1 b2 b3 b4, fake_entry_freq _ _ b1 b2 b3 b4,
    fake_entry_volt _ _ b1 b2 b3 b4⟩

/-- Every row of the interpolated table lies between the lowest and the
highest identifier in both fields and is packed without carry. -/
theorem fake_row_range (idhi idlo : Nat)
    (hdf : MSR2FREQINC idlo < MSR2FREQINC idhi)
    (hdv : MSR2VOLTINC idlo ≤ MSR2VOLTINC idhi) (j : Nat)
    (hj : j < (est_fake_table idhi idlo).length) :
    MSR2FREQINC idlo ≤ MSR2FREQINC ((est_fake_table idhi idlo).getD j 0) ∧
      MSR2FREQINC ((est_fake_table idhi idlo).getD j 0) ≤ MSR2FREQINC idhi ∧
      MSR2VOLTINC idlo ≤ MSR2VOLTINC ((est_fake_table idhi idlo).getD j 0) ∧
      MSR2VOLTINC ((est_fake_table idhi idlo).getD j 0) ≤ MSR2VOLTINC idhi ∧
      MSR2FREQINC ((est_fake_table idhi idlo).getD j 0) < 256 ∧
      MSR2VOLTINC ((est_fake_table idhi idlo).getD j 0) < 256 ∧
      (est_fake_table idhi idlo).getD j 0 =
        MSR2FREQINC ((est_fake_table idhi idlo).getD j 0) * 256
          + MSR2VOLTINC ((est_fake_table idhi idlo).getD j 0) ∧
      (est_fake_table idhi idlo).getD j 0 < 65536 := by
  obtain ⟨hrow, hF, hV⟩ := fake_table_row idhi idlo hdf hdv j hj
  rw [fake_table_length] at hj
  obtain ⟨s1, s2, s3, s4⟩ := fake_bounds_strong idhi idlo hdf hdv j (by omega)
  have ha := freqinc_lt idhi
  have hc := voltinc_lt idhi
  have hF2 := freqinc_lt ((est_fake_table idhi idlo).getD j 0)
  have hV2 := voltinc_lt ((est_fake_table idhi idlo).getD j 0)
  have hpack : (est_fake_table idhi idlo).getD j 0 =
      MSR2FREQINC ((est_fake_table idhi idlo).getD j 0) * 256
        + MSR2VOLTINC ((est_fake_table idhi idlo).getD j 0) := by
    have e1 : (((MSR2FREQINC idhi : Int) * 100 - j * est_fake_freqinc idhi idlo + 99)
        / 100).toNat = MSR2FREQINC ((est_fake_table idhi idlo).getD j 0) := by omega
    have e2 : (((MSR2VOLTINC idhi : Int) * 100 - j * est_fake_voltinc idhi idlo + 99)
        / 100).toNat = MSR2VOLTINC ((est_fake_table idhi idlo).getD j 0) := by omega
    rw [e1, e2, PHC_ID16_eq _ _ hV2] at hrow
    exact hrow
  refine ⟨by omega, by omega, by omega, by omega, hF2, hV2, hpack, by omega⟩

/-- Claim C30: for every raw lowest = (minF, minV) and highest = (maxF, maxV)
with maxF > minF and maxV ≥ minV, every row of the table that the
interpolation of lines 1324-1365 builds has its frequency-step in
[minF, maxF] and its voltage-step in [minV, maxV]; both fields are below 256,
the row is the frequency-step times 256 plus the voltage-step (the addition of
line 1354 carries nothing into the frequency byte) and fits in 16 bits. -/
theorem C30_rows_within_reported_range (idhi idlo : Nat)
    (hdf : MSR2FREQINC idlo < MSR2FREQINC idhi)
    (hdv : MSR2VOLTINC idlo ≤ MSR2VOLTINC idhi) (j : Nat)
    (hj : j < (est_fake_table idhi idlo).length) :
    MSR2FREQINC idlo ≤ MSR2FREQINC ((est_fake_table idhi idlo).getD j 0) ∧
      MSR2FREQINC ((est_fake_table idhi idlo).getD j 0) ≤ MSR2FREQINC idhi ∧
      MSR2VOLTINC idlo ≤ MSR2VOLTINC ((est_fake_table idhi idlo).getD j 0) ∧
      MSR2VOLTINC ((est_fake_table idhi idlo).getD j 0) ≤ MSR2VOLTINC idhi ∧
      MSR2FREQINC ((est_fake_table idhi idlo).getD j 0) < 256 ∧
      MSR2VOLTINC ((est_fake_table idhi idlo).getD j 0) < 256 ∧
      (est_fake_table idhi idlo).getD j 0 =
        MSR2FREQINC ((est_fake_table idhi idlo).getD j 0) * 256
          + MSR2VOLTINC ((est_fake_table idhi idlo).getD j 0) ∧
      (est_fake_table idhi idlo).getD j 0 < 65536 := by
  exact fake_row_range idhi idlo hdf hdv j hj

/-- Claim C30 at work: the interpolation from highest = (8, 30) and
lowest = (6, 13), which is the Live Table of `sample_init`; row 1 is (7, 22). -/
theorem C30_witness :
    live_table sample_init = est_fake_table 0x081E 0x060D ∧
    MSR2FREQINC 0x060D < MSR2FREQINC 0x081E ∧ MSR2VOLTINC 0x060D ≤ MSR2VOLTINC 0x081E ∧
    1 < (est_fake_table 0x081E 0x060D).length ∧
    MSR2FREQINC 0x060D ≤ MSR2FREQINC ((est_fake_table 0x081E 0x060D).getD 1 0) ∧
    MSR2VOLTINC ((est_fake_table 0x081E 0x060D).getD 1 0) ≤ MSR2VOLTINC 0x081E ∧
    (est_fake_table 0x081E 0x060D).getD 1 0 = 7 * 256 + 22 :=
  ⟨by decide, by decide, by decide, by decide,
    (C30_rows_within_reported_range 0x081E 0x060D (by decide) (by decide) 1 (by decide)).1,
    (C30_rows_within_reported_range 0x081E 0x060D (by decide) (by decide) 1
      (by decide)).2.2.2.1,
    by decide⟩

theorem span_div_mul (x y : Int) (hy : 0 < y) (hxy : y ≤ x) :
    99 ≤ (x * 100).tdiv y - 1 ∧ ((x * 100).tdiv y - 1) * y ≤ x * 100 - y := by
  obtain ⟨h1, _, h3⟩ := span_div_bounds x y hy hxy y (by omega) (by omega)
  refine ⟨h1, ?_⟩
  rw [Int.mul_comm]
  exact h3

/-- Branch `freqinc < voltinc || voltinc == 0` of lines 1335-1339. -/
theorem fake_incs_freq (idhi idlo : Nat) (hdf : MSR2FREQINC idlo < MSR2FREQINC idhi)
    (hdv : MSR2VOLTINC idlo ≤ MSR2VOLTINC idhi)
    (hbr : MSR2FREQINC idhi - MSR2FREQINC idlo < MSR2VOLTINC idhi - MSR2VOLTINC idlo ∨
      MSR2VOLTINC idhi - MSR2VOLTINC idlo = 0) :
    est_fake_size idhi idlo = (MSR2FREQINC idhi : Int) - MSR2FREQINC idlo + 1 ∧
      est_fake_freqinc idhi idlo = 100 ∧
      0 ≤ est_fake_voltinc idhi idlo ∧
      est_fake_voltinc idhi idlo * ((MSR2FREQINC idhi : Int) - MSR2FREQINC idlo)
        ≤ 100 * ((MSR2VOLTINC idhi : Int) - MSR2VOLTINC idlo) ∧
      (MSR2VOLTINC idlo < MSR2VOLTINC idhi →
        est_fake_voltinc idhi idlo * ((MSR2FREQINC idhi : Int) - MSR2FREQINC idlo)
          ≤ 100 * ((MSR2VOLTINC idhi : Int) - MSR2VOLTINC idlo)
            - ((MSR2FREQINC idhi : Int) - MSR2FREQINC idlo)) := by
  have hab : (MSR2FREQINC idlo : Int) < MSR2FREQINC idhi := by exact_mod_cast hdf
  have hdc : (MSR2VOLTINC idlo : Int) ≤ MSR2VOLTINC idhi := by exact_mod_cast hdv
  have hc : (MSR2FREQINC idhi : Int) - MSR2FREQINC idlo
      < (MSR2VOLTINC idhi : Int) - MSR2VOLTINC idlo ∨
      (MSR2VOLTINC idhi : Int) - MSR2VOLTINC idlo = 0 := by omega
  have hs : MSR2VOLTINC idlo < MSR2VOLTINC idhi ↔
      (MSR2VOLTINC idlo : Int) < MSR2VOLTINC idhi := by omega
  rw [hs]
  unfold est_fake_size est_fake_freqinc est_fake_voltinc
  simp only []
  generalize (MSR2FREQINC idhi : Int) = a at *
  generalize (MSR2FREQINC idlo : Int) = b at *
  generalize (MSR2VOLTINC idhi : Int) = c at *
  generalize (MSR2VOLTINC idlo : Int) = d at *
  simp only [hc, if_true, true_and]
  by_cases hz : c - d = 0
  · simp only [hz, ne_eq, not_true_eq_false, if_false, zero_mul, mul_zero, le_refl, true_and]
    intro h
    omega
  · simp only [ne_eq, hz, not_false_eq_true, if_true]
    have hlt : a - b < c - d := by
      rcases hc with h | h
      · exact h
      · exact absurd h hz
    obtain ⟨h1, h2⟩ := span_div_mul (c - d) (a - b) (by omega) (by omega)
    refine ⟨by omega, by omega, fun _ => by omega⟩

/-- Branch `else` of lines 1340-1344. -/
theorem fake_incs_volt (idhi idlo : Nat) (hdf : MSR2FREQINC idlo < MSR2FREQINC idhi)
    (hdv : MSR2VOLTINC idlo ≤ MSR2VOLTINC idhi)
    (hbr : ¬ (MSR2FREQINC idhi - MSR2FREQINC idlo < MSR2VOLTINC idhi - MSR2VOLTINC idlo ∨
      MSR2VOLTINC idhi - MSR2VOLTINC idlo = 0)) :
    est_fake_size idhi idlo = (MSR2VOLTINC idhi : Int) - MSR2VOLTINC idlo + 1 ∧
      est_fake_voltinc idhi idlo = 100 ∧
      99 ≤ est_fake_freqinc idhi idlo ∧
      est_fake_freqinc idhi idlo * ((MSR2VOLTINC idhi : Int) - MSR2VOLTINC idlo)
        ≤ 100 * ((MSR2FREQINC idhi : Int) - MSR2FREQINC idlo)
          - ((MSR2VOLTINC idhi : Int) - MSR2VOLTINC idlo) := by
  have hab : (MSR2FREQINC idlo : Int) < MSR2FREQINC idhi := by exact_mod_cast hdf
  have hdc : (MSR2VOLTINC idlo : Int) ≤ MSR2VOLTINC idhi := by exact_mod_cast hdv
  have hc : ¬ ((MSR2FREQINC idhi : Int) - MSR2FREQINC idlo
      < (MSR2VOLTINC idhi : Int) - MSR2VOLTINC idlo ∨
      (MSR2VOLTINC idhi : Int) - MSR2VOLTINC idlo = 0) := by omega
  unfold est_fake_size est_fake_freqinc est_fake_voltinc
  simp only []
  generalize (MSR2FREQINC idhi : Int) = a at *
  generalize (MSR2FREQINC idlo : Int) = b at *
  generalize (MSR2VOLTINC idhi : Int) = c at *
  generalize (MSR2VOLTINC idlo : Int) = d at *
  simp only [hc, if_false, true_and]
  obtain ⟨h1, h2⟩ := span_div_mul (a - b) (c - d) (by omega) (by omega)
  refine ⟨h1, by omega⟩

/-! ## Claims on the interpolated table -/

/-- Rounding up along one axis keeps a row on the upper side of the straight
line through the two end points: the arithmetic behind both branches. -/
theorem round_up_above_line (w u T R j q : Int) (hw : 0 ≤ w) (hj : 0 ≤ j)
    (h100 : T * 100 - j * q ≤ 100 * R) (hq : q * w ≤ 100 * u) :
    T * w - j * u ≤ R * w := by
  have m1 := Int.mul_le_mul_of_nonneg_right h100 hw
  have m2 := Int.mul_le_mul_of_nonneg_left hq hj
  nlinarith [m1, m2]

/-- Claim C22 as amended: for every raw lowest = (minF, minV) and
highest = (maxF, maxV) with maxF > minF and maxV ≥ minV, and every row (f, v)
of the interpolated table: when the frequency span is smaller than the
voltage span or the voltage span is zero (the branch that steps frequency by
whole units), v is at least the linearly interpolated voltage at f, that is
v·(maxF−minF) ≥ minV·(maxF−minF) + (f−minF)·(maxV−minV); otherwise (the branch
that steps voltage by whole units) it is the frequency that is rounded up, f is
at least the linearly interpolated frequency at v,
(f−minF)·(maxV−minV) ≥ (v−minV)·(maxF−minF), which is the converse
inequality. -/
theorem C22_interpolation_rounds_up (idhi idlo : Nat)
    (hdf : MSR2FREQINC idlo < MSR2FREQINC idhi)
    (hdv : MSR2VOLTINC idlo ≤ MSR2VOLTINC idhi) (j : Nat)
    (hj : j < (est_fake_table idhi idlo).length) :
    ((MSR2FREQINC idhi - MSR2FREQINC idlo < MSR2VOLTINC idhi - MSR2VOLTINC idlo ∨
        MSR2VOLTINC idhi - MSR2VOLTINC idlo = 0) →
      MSR2VOLTINC idlo * (MSR2FREQINC idhi - MSR2FREQINC idlo)
          + (MSR2FREQINC ((est_fake_table idhi idlo).getD j 0) - MSR2FREQINC idlo)
            * (MSR2VOLTINC idhi - MSR2VOLTINC idlo)
        ≤ MSR2VOLTINC ((est_fake_table idhi idlo).getD j 0)
          * (MSR2FREQINC idhi - MSR2FREQINC idlo)) ∧
    (¬ (MSR2FREQINC idhi - MSR2FREQINC idlo < MSR2VOLTINC idhi - MSR2VOLTINC idlo ∨
        MSR2VOLTINC idhi - MSR2VOLTINC idlo = 0) →
      (MSR2VOLTINC ((est_fake_table idhi idlo).getD j 0) - MSR2VOLTINC idlo)
          * (MSR2FREQINC idhi - MSR2FREQINC idlo)
        ≤ (MSR2FREQINC ((est_fake_table idhi idlo).getD j 0) - MSR2FREQINC idlo)
          * (MSR2VOLTINC idhi - MSR2VOLTINC idlo)) := by
  obtain ⟨_, hF, hV⟩ := fake_table_row idhi idlo hdf hdv j hj
  obtain ⟨r1, r2, r3, r4, _⟩ := fake_row_range idhi idlo hdf hdv j hj
  have I1 := fake_incs_freq idhi idlo hdf hdv
  have I2 := fake_incs_volt idhi idlo hdf hdv
  clear hj
  generalize (est_fake_table idhi idlo).getD j 0 = row at *
  generalize est_fake_voltinc idhi idlo = vi at *
  generalize est_fake_freqinc idhi idlo = fi at *
  generalize est_fake_size idhi idlo = sz at *
  generalize MSR2FREQINC idhi = a at *
  generalize MSR2FREQINC idlo = b at *
  generalize MSR2VOLTINC idhi = c at *
  generalize MSR2VOLTINC idlo = d at *
  generalize MSR2FREQINC row = rf at *
  generalize MSR2VOLTINC row = rv at *
  have e1 : ((a - b : Nat) : Int) = (a : Int) - b := by omega
  have e2 : ((c - d : Nat) : Int) = (c : Int) - d := by omega
  have e3 : ((rf - b : Nat) : Int) = (rf : Int) - b := by omega
  have e4 : ((rv - d : Nat) : Int) = (rv : Int) - d := by omega
  have hj0 : (0 : Int) ≤ j := Int.ofNat_nonneg j
  constructor
  · intro hbr
    obtain ⟨hs, hfi, hvi0, hvi, _⟩ := I1 hbr
    rw [hfi] at hF
    have h100 : (c : Int) * 100 - j * vi ≤ 100 * rv := by omega
    have hRF : (rf : Int) = a - j := by omega
    have key := round_up_above_line ((a : Int) - b) ((c : Int) - d) c rv j vi (by omega) hj0
      h100 hvi
    apply Int.ofNat_le.1
    push_cast only [Nat.cast_add, Nat.cast_mul]
    rw [e1, e2, e3, hRF]
    have g : (d : Int) * ((a : Int) - b) + ((a : Int) - j - b) * ((c : Int) - d)
        = c * ((a : Int) - b) - j * ((c : Int) - d) := by ring
    rw [g]
    exact key
  · intro hbr
    obtain ⟨hs, hvi, hfi0, hfi⟩ := I2 hbr
    rw [hvi] at hV
    have h100 : (a : Int) * 100 - j * fi ≤ 100 * rf := by omega
    have hRV : (rv : Int) = c - j := by omega
    have key := round_up_above_line ((c : Int) - d) ((a : Int) - b) a rf j fi (by omega) hj0
      h100 (by omega)
    apply Int.ofNat_le.1
    push_cast only [Nat.cast_add, Nat.cast_mul]
    rw [e1, e2, e3, e4, hRV]
    have g : ((c : Int) - j - d) * ((a : Int) - b)
        = a * ((c : Int) - d) - j * ((a : Int) - b) - b * ((c : Int) - d) := by ring
    have g2 : ((rf : Int) - b) * ((c : Int) - d)
        = rf * ((c : Int) - d) - b * ((c : Int) - d) := by ring
    rw [g, g2]
    omega

/-- Counterexample to claim C22 as stated: highest = (8, 15), lowest = (6, 13)
(maxF > minF, maxV ≥ minV).  The interpolated table, the Live Table of the
amd64 build, is (8, 15), (8, 14), (7, 13); its row 1 has v = 14 at f = 8, and
v·(maxF−minF) = 28 is below minV·(maxF−minF) + (f−minF)·(maxV−minV) = 30. -/
theorem C22_row_below_line :
    live_table (est_init_main .amd64 est_cpus CPUVENDOR_INTEL 10000 0x060D080F0000080F 0x080F)
      = est_fake_table 0x080F 0x060D ∧
    MSR2FREQINC 0x060D < MSR2FREQINC 0x080F ∧ MSR2VOLTINC 0x060D ≤ MSR2VOLTINC 0x080F ∧
    (est_fake_table 0x080F 0x060D).getD 1 0 = PHC_ID16 8 14 ∧
    ¬ (MSR2VOLTINC ((est_fake_table 0x080F 0x060D).getD 1 0)
          * (MSR2FREQINC 0x080F - MSR2FREQINC 0x060D)
        ≥ MSR2VOLTINC 0x060D * (MSR2FREQINC 0x080F - MSR2FREQINC 0x060D)
          + (MSR2FREQINC ((est_fake_table 0x080F 0x060D).getD 1 0) - MSR2FREQINC 0x060D)
            * (MSR2VOLTINC 0x080F - MSR2VOLTINC 0x060D)) := by
  decide

/-- Witness of the amended claim C22: row 1 of the interpolation from
highest = (8, 30), lowest = (6, 13) (frequency span 2, voltage span 17), and
row 1 of the interpolation from highest = (8, 15), lowest = (6, 13). -/
theorem C22_witness :
    1 < (est_fake_table 0x081E 0x060D).length ∧
    MSR2VOLTINC 0x060D * (MSR2FREQINC 0x081E - MSR2FREQINC 0x060D)
        + (MSR2FREQINC ((est_fake_table 0x081E 0x060D).getD 1 0) - MSR2FREQINC 0x060D)
          * (MSR2VOLTINC 0x081E - MSR2VOLTINC 0x060D)
      ≤ MSR2VOLTINC ((est_fake_table 0x081E 0x060D).getD 1 0)
        * (MSR2FREQINC 0x081E - MSR2FREQINC 0x060D) ∧
    (MSR2VOLTINC ((est_fake_table 0x080F 0x060D).getD 1 0) - MSR2VOLTINC 0x060D)
        * (MSR2FREQINC 0x080F - MSR2FREQINC 0x060D)
      ≤ (MSR2FREQINC ((est_fake_table 0x080F 0x060D).getD 1 0) - MSR2FREQINC 0x060D)
        * (MSR2VOLTINC 0x080F - MSR2VOLTINC 0x060D) :=
  ⟨by decide,
   (C22_interpolation_rounds_up 0x081E 0x060D (by decide) (by decide) 1 (by decide)).1
      (by decide),
   (C22_interpolation_rounds_up 0x080F 0x060D (by decide) (by decide) 1 (by decide)).2
      (by decide)⟩

/-- Claim C24 as amended: when the frequency span equals the voltage span
(both non-zero) the interpolation takes the branch that steps the voltage by
whole units: the table has voltSpan + 1 rows, row j has voltage-step exactly
maxV − j, and its frequency-step is maxF − j + ⌈j / 100⌉, that is maxF for
row 0 and maxF − j + 1 for the rows 1 to 100. -/
theorem C24_equal_spans_step_voltage (idhi idlo : Nat)
    (hdf : MSR2FREQINC idlo < MSR2FREQINC idhi)
    (hspan : MSR2FREQINC idhi - MSR2FREQINC idlo = MSR2VOLTINC idhi - MSR2VOLTINC idlo) :
    (est_fake_table idhi idlo).length = MSR2VOLTINC idhi - MSR2VOLTINC idlo + 1 ∧
      ∀ j, j < (est_fake_table idhi idlo).length →
        MSR2VOLTINC ((est_fake_table idhi idlo).getD j 0) = MSR2VOLTINC idhi - j ∧
        MSR2FREQINC ((est_fake_table idhi idlo).getD j 0) + j
          = MSR2FREQINC idhi + (j + 99) / 100 := by
  have hdv : MSR2VOLTINC idlo ≤ MSR2VOLTINC idhi := by omega
  have hbr : ¬ (MSR2FREQINC idhi - MSR2FREQINC idlo
      < MSR2VOLTINC idhi - MSR2VOLTINC idlo ∨
      MSR2VOLTINC idhi - MSR2VOLTINC idlo = 0) := by omega
  obtain ⟨hs, hvi, hfi⟩ := fake_branch_volt idhi idlo hdf hdv hbr
  have h99 : (MSR2FREQINC idhi - MSR2FREQINC idlo) * 100
      / (MSR2VOLTINC idhi - MSR2VOLTINC idlo) - 1 = 99 := by
    rw [hspan, Nat.mul_div_cancel_left 100 (by omega)]
  rw [h99] at hfi
  have hlen : (est_fake_table idhi idlo).length
      = MSR2VOLTINC idhi - MSR2VOLTINC idlo + 1 := by
    rw [fake_table_length, hs]; rfl
  refine ⟨hlen, ?_⟩
  intro j hj
  obtain ⟨_, hF, hV⟩ := fake_table_row idhi idlo hdf hdv j hj
  rw [hfi] at hF
  rw [hvi] at hV
  rw [hlen] at hj
  omega

/-- Counterexample to claim C24 as stated: highest = (8, 15), lowest = (6, 13)
have equal spans (2 and 2), and row 1 of the interpolated table has
frequency-step 8, not maxF − 1 = 7. -/
theorem C24_row_keeps_frequency_step :
    MSR2FREQINC 0x080F - MSR2FREQINC 0x060D = MSR2VOLTINC 0x080F - MSR2VOLTINC 0x060D ∧
    MSR2FREQINC 0x080F - MSR2FREQINC 0x060D ≠ 0 ∧
    (est_fake_table 0x080F 0x060D).map MSR2FREQINC = [8, 8, 7] ∧
    (est_fake_table 0x080F 0x060D).map MSR2VOLTINC = [15, 14, 13] ∧
    MSR2FREQINC ((est_fake_table 0x080F 0x060D).getD 1 0) ≠ MSR2FREQINC 0x080F - 1 := by
  decide

/-- Witness of the amended claim C24: highest = (8, 15), lowest = (6, 13). -/
theorem C24_witness :
    MSR2FREQINC 0x060D < MSR2FREQINC 0x080F ∧
    MSR2FREQINC 0x080F - MSR2FREQINC 0x060D = MSR2VOLTINC 0x080F - MSR2VOLTINC 0x060D ∧
    (est_fake_table 0x080F 0x060D).length = 3 ∧
    MSR2VOLTINC ((est_fake_table 0x080F 0x060D).getD 2 0) = MSR2VOLTINC 0x080F - 2 ∧
    MSR2FREQINC ((est_fake_table 0x080F 0x060D).getD 2 0) + 2
      = MSR2FREQINC 0x080F + (2 + 99) / 100 :=
  ⟨by decide, by decide,
   (C24_equal_spans_step_voltage 0x080F 0x060D (by decide) (by decide)).1,
   ((C24_equal_spans_step_voltage 0x080F 0x060D (by decide) (by decide)).2 2 (by decide)).1,
   ((C24_equal_spans_step_voltage 0x080F 0x060D (by decide) (by decide)).2 2 (by decide)).2⟩

theorem getLast?_getD (l : List Nat) (h : l ≠ []) :
    l.getLast? = some (l.getD (l.length - 1) 0) := by
  have hpos : 0 < l.length := List.length_pos.2 h
  rw [List.getLast?_eq_getElem?, List.getD_eq_getElem?_getD,
    List.getElem?_eq_getElem (by omega)]
  rfl

/-- The last row of the interpolated table, by branch: what it is in the axis
stepped by whole units and how far above the lowest identifier it stays in
the other one. -/
theorem fake_last_row (idhi idlo : Nat) (hdf : MSR2FREQINC idlo < MSR2FREQINC idhi)
    (hdv : MSR2VOLTINC idlo ≤ MSR2VOLTINC idhi) :
    ∃ last, (est_fake_table idhi idlo).getLast? = some last ∧
      last = MSR2FREQINC last * 256 + MSR2VOLTINC last ∧
      (MSR2VOLTINC idhi = MSR2VOLTINC idlo →
        MSR2FREQINC last = MSR2FREQINC idlo ∧ MSR2VOLTINC last = MSR2VOLTINC idlo) ∧
      (MSR2VOLTINC idlo < MSR2VOLTINC idhi →
        (MSR2FREQINC idhi - MSR2FREQINC idlo < MSR2VOLTINC idhi - MSR2VOLTINC idlo →
          MSR2FREQINC last = MSR2FREQINC idlo ∧ MSR2VOLTINC idlo < MSR2VOLTINC last) ∧
        (¬ MSR2FREQINC idhi - MSR2FREQINC idlo < MSR2VOLTINC idhi - MSR2VOLTINC idlo →
          MSR2VOLTINC last = MSR2VOLTINC idlo ∧ MSR2FREQINC idlo < MSR2FREQINC last)) := by
  obtain ⟨hs0, _, _, _⟩ := fake_bounds idhi idlo hdf hdv
  have hlen := fake_table_length idhi idlo
  have hne : est_fake_table idhi idlo ≠ [] := by
    intro h
    rw [h] at hlen
    simp only [List.length_nil] at hlen
    omega
  have hj : (est_fake_table idhi idlo).length - 1 < (est_fake_table idhi idlo).length := by
    have := List.length_pos.2 hne
    omega
  refine ⟨(est_fake_table idhi idlo).getD ((est_fake_table idhi idlo).length - 1) 0,
    getLast?_getD _ hne, ?_⟩
  obtain ⟨_, hF, hV⟩ := fake_table_row idhi idlo hdf hdv _ hj
  obtain ⟨_, _, _, _, _, _, hpack, _⟩ := fake_row_range idhi idlo hdf hdv _ hj
  have I1 := fake_incs_freq idhi idlo hdf hdv
  have I2 := fake_incs_volt idhi idlo hdf hdv
  have hjv : (((est_fake_table idhi idlo).length - 1 : Nat) : Int)
      = est_fake_size idhi idlo - 1 := by omega
  clear hj hne
  generalize (est_fake_table idhi idlo).length - 1 = j at *
  generalize (est_fake_table idhi idlo).getD j 0 = row at *
  generalize est_fake_voltinc idhi idlo = vi at *
  generalize est_fake_freqinc idhi idlo = fi at *
  generalize est_fake_size idhi idlo = sz at *
  generalize MSR2FREQINC idhi = a at *
  generalize MSR2FREQINC idlo = b at *
  generalize MSR2VOLTINC idhi = c at *
  generalize MSR2VOLTINC idlo = d at *
  generalize MSR2FREQINC row = rf at *
  generalize MSR2VOLTINC row = rv at *
  refine ⟨hpack, ?_, ?_⟩
  · intro hcd
    obtain ⟨hs, hfi, hvi0, hvi, _⟩ := I1 (Or.inr (by omega))
    have hjEq : (j : Int) = (a : Int) - b := by omega
    have hp : (j : Int) * vi = vi * ((a : Int) - b) := by rw [hjEq]; ring
    have hp0 : 0 ≤ vi * ((a : Int) - b) := Int.mul_nonneg hvi0 (by omega)
    rw [hfi] at hF
    rw [hp] at hV
    omega
  · intro hcd
    constructor
    · intro hbr
      obtain ⟨hs, hfi, hvi0, _, hvi⟩ := I1 (Or.inl hbr)
      have hvi2 := hvi hcd
      have hjEq : (j : Int) = (a : Int) - b := by omega
      have hp : (j : Int) * vi = vi * ((a : Int) - b) := by rw [hjEq]; ring
      rw [hfi] at hF
      rw [hp] at hV
      omega
    · intro hbr
      obtain ⟨hs, hvi, _, hfi⟩ := I2 (by omega)
      have hjEq : (j : Int) = (c : Int) - d := by omega
      have hp : (j : Int) * fi = fi * ((c : Int) - d) := by rw [hjEq]; ring
      rw [hvi] at hV
      rw [hp] at hF
      omega

/-- Claim C29: for every raw lowest = (minF, minV) and highest = (maxF, maxV)
with maxF > minF and maxV ≥ minV, the last row of the interpolated table is
the lowest identifier if and only if maxV = minV; when maxV > minV the last
row has voltage-step above minV (at frequency-step minF) if the frequency span
is smaller than the voltage span, and frequency-step above minF (at
voltage-step minV) otherwise, so the lowest identifier is not in the last
row. -/
theorem C29_last_row_and_lowest (idhi idlo : Nat)
    (hdf : MSR2FREQINC idlo < MSR2FREQINC idhi)
    (hdv : MSR2VOLTINC idlo ≤ MSR2VOLTINC idhi) (h16 : idlo < 65536) :
    ((est_fake_table idhi idlo).getLast? = some idlo ↔
        MSR2VOLTINC idhi = MSR2VOLTINC idlo) ∧
    (MSR2VOLTINC idlo < MSR2VOLTINC idhi →
      ∃ last, (est_fake_table idhi idlo).getLast? = some last ∧
        (MSR2FREQINC idhi - MSR2FREQINC idlo < MSR2VOLTINC idhi - MSR2VOLTINC idlo →
          MSR2FREQINC last = MSR2FREQINC idlo ∧ MSR2VOLTINC idlo < MSR2VOLTINC last) ∧
        (¬ MSR2FREQINC idhi - MSR2FREQINC idlo < MSR2VOLTINC idhi - MSR2VOLTINC idlo →
          MSR2VOLTINC last = MSR2VOLTINC idlo ∧ MSR2FREQINC idlo < MSR2FREQINC last)) := by
  obtain ⟨last, hlast, hpack, heq, hgt⟩ := fake_last_row idhi idlo hdf hdv
  have hF := MSR2FREQINC_eq idlo
  have hV := MSR2VOLTINC_eq idlo
  constructor
  · constructor
    · intro h
      rw [hlast] at h
      have hl : last = idlo := Option.some.inj h
      by_contra hne
      have hlt : MSR2VOLTINC idlo < MSR2VOLTINC idhi := by omega
      obtain ⟨g1, g2⟩ := hgt hlt
      rw [hl] at g1 g2
      by_cases hbr : MSR2FREQINC idhi - MSR2FREQINC idlo
          < MSR2VOLTINC idhi - MSR2VOLTINC idlo
      · have := (g1 hbr).2
        omega
      · have := (g2 hbr).2
        omega
    · intro h
      obtain ⟨g1, g2⟩ := heq h
      rw [hlast]
      congr 1
      rw [hpack, g1, g2]
      omega
  · intro hlt
    exact ⟨last, hlast, (hgt hlt).1, (hgt hlt).2⟩

/-- Claim C29 at work: highest = (8, 30), lowest = (6, 13) gives the last row
(6, 14), above the lowest identifier in voltage; highest = (8, 13),
lowest = (6, 13) gives the last row (6, 13), the lowest identifier. -/
theorem C29_witness :
    (est_fake_table 0x081E 0x060D).getLast? = some (PHC_ID16 6 14) ∧
    ¬ (est_fake_table 0x081E 0x060D).getLast? = some 0x060D ∧
    (est_fake_table 0x080D 0x060D).getLast? = some 0x060D :=
  ⟨by decide,
   fun h => absurd ((C29_last_row_and_lowest 0x081E 0x060D (by decide) (by decide)
      (by decide)).1.1 h) (by decide),
   (C29_last_row_and_lowest 0x080D 0x060D (by decide) (by decide) (by decide)).1.2
      (by decide)⟩

theorem ceil100_spec (x : Int) : x ≤ 100 * ceil100 x ∧ 100 * (ceil100 x - 1) < x := by
  unfold ceil100; omega

theorem ceil100_eq (x : Int) : ceil100 x = (x + 99) / 100 := by
  unfold ceil100; omega

theorem list_ext_getD (l1 l2 : List Nat) (hlen : l1.length = l2.length)
    (h : ∀ j, j < l1.length → l1.getD j 0 = l2.getD j 0) : l1 = l2 := by
  apply List.ext_getElem hlen
  intro i h1 h2
  have := h i h1
  simpa [List.getD_eq_getElem?_getD, List.getElem?_eq_getElem h1,
    List.getElem?_eq_getElem h2] using this

theorem range_map_getD_lt (f : Nat → Nat) (n j : Nat) (hj : j < n) :
    ((List.range n).map f).getD j 0 = f j := by
  simp [List.getD_eq_getElem?_getD, List.getElem?_map, List.getElem?_range hj]

/-- Claim C23: for every raw lowest = (minF, minV) and highest = (maxF, maxV)
with freqSpan = maxF − minF > 0 and voltSpan = maxV − minV ≥ 0, the table
built by the loop of lines 1324-1365 is the closed form `closed_form_table`:
if freqSpan < voltSpan or voltSpan = 0 it has freqSpan + 1 rows and row j is
pack(maxF − j, ceil((100·maxV − j·d) / 100)) with d = voltSpan·100/freqSpan − 1
(d = 0 when voltSpan = 0); otherwise it has voltSpan + 1 rows and row j is
pack(ceil((100·maxF − j·d) / 100), maxV − j) with d = freqSpan·100/voltSpan − 1. -/
theorem C23_interpolation_closed_form (idhi idlo : Nat)
    (hdf : MSR2FREQINC idlo < MSR2FREQINC idhi)
    (hdv : MSR2VOLTINC idlo ≤ MSR2VOLTINC idhi) :
    est_fake_table idhi idlo =
        closed_form_table (MSR2FREQINC idhi) (MSR2FREQINC idlo) (MSR2VOLTINC idhi)
          (MSR2VOLTINC idlo) ∧
      (est_fake_table idhi idlo).length =
        (if MSR2FREQINC idhi - MSR2FREQINC idlo < MSR2VOLTINC idhi - MSR2VOLTINC idlo ∨
            MSR2VOLTINC idhi - MSR2VOLTINC idlo = 0
          then MSR2FREQINC idhi - MSR2FREQINC idlo + 1
          else MSR2VOLTINC idhi - MSR2VOLTINC idlo + 1) := by
  have hlen := fake_table_length idhi idlo
  by_cases hbr : MSR2FREQINC idhi - MSR2FREQINC idlo
      < MSR2VOLTINC idhi - MSR2VOLTINC idlo ∨ MSR2VOLTINC idhi - MSR2VOLTINC idlo = 0
  · obtain ⟨hs, hfi, hvi⟩ := fake_branch_freq idhi idlo hdf hdv hbr
    have hl : (est_fake_table idhi idlo).length
        = MSR2FREQINC idhi - MSR2FREQINC idlo + 1 := by
      rw [hlen, hs]; rfl
    refine ⟨?_, by simp only [hbr, if_true]; exact hl⟩
    unfold closed_form_table
    simp only [hbr, if_true]
    apply list_ext_getD
    · simp only [List.length_map, List.length_range]; exact hl
    · intro j hj
      obtain ⟨hrow, _, _⟩ := fake_table_row idhi idlo hdf hdv j hj
      obtain ⟨_, _, b3, b4⟩ := fake_bounds_strong idhi idlo hdf hdv j (by omega)
      rw [hl] at hj
      rw [range_map_getD_lt _ _ _ hj, hrow, hfi, hvi, ceil100_eq]
      rw [hvi] at b3 b4
      generalize ((j : Int) * ((if MSR2VOLTINC idhi - MSR2VOLTINC idlo = 0 then 0
        else (MSR2VOLTINC idhi - MSR2VOLTINC idlo) * 100
          / (MSR2FREQINC idhi - MSR2FREQINC idlo) - 1 : Nat) : Int)) = p at *
      congr 1
      · omega
      · omega
  · obtain ⟨hs, hvi, hfi⟩ := fake_branch_volt idhi idlo hdf hdv hbr
    have hl : (est_fake_table idhi idlo).length
        = MSR2VOLTINC idhi - MSR2VOLTINC idlo + 1 := by
      rw [hlen, hs]; rfl
    refine ⟨?_, by simp only [hbr, if_false]; exact hl⟩
    unfold closed_form_table
    simp only [hbr, if_false]
    apply list_ext_getD
    · simp only [List.length_map, List.length_range]; exact hl
    · intro j hj
      obtain ⟨hrow, _, _⟩ := fake_table_row idhi idlo hdf hdv j hj
      obtain ⟨b1, b2, _, _⟩ := fake_bounds_strong idhi idlo hdf hdv j (by omega)
      rw [hl] at hj
      rw [range_map_getD_lt _ _ _ hj, hrow, hfi, hvi, ceil100_eq]
      rw [hfi] at b1 b2
      generalize ((j : Int) * (((MSR2FREQINC idhi - MSR2FREQINC idlo) * 100
          / (MSR2VOLTINC idhi - MSR2VOLTINC idlo) - 1 : Nat) : Int)) = p at *
      congr 1
      · omega
      · omega

/-- Claim C23 at work: highest = (8, 30), lowest = (6, 13) (frequency span 2,
voltage span 17, d = 849) gives the three rows (8, 30), (7, 22), (6, 14), and
the Live Table of `sample_init` is that table. -/
theorem C23_witness :
    live_table sample_init = est_fake_table 0x081E 0x060D ∧
    est_fake_table 0x081E 0x060D = closed_form_table 8 6 30 13 ∧
    closed_form_table 8 6 30 13 = [PHC_ID16 8 30, PHC_ID16 7 22, PHC_ID16 6 14] :=
  ⟨by decide,
   (C23_interpolation_closed_form 0x081E 0x060D (by decide) (by decide)).1,
   by decide⟩

/-! ## The codec and the catalog -/

/-- Packing two bytes with `PHC_ID16` and unpacking them gives the bytes back. -/
theorem pack_unpack (f v : Nat) (hf : f < 256) (hv : v < 256) :
    MSR2FREQINC (PHC_ID16 f v) = f ∧ MSR2VOLTINC (PHC_ID16 f v) = v ∧
      PHC_ID16 f v < 65536 := by
  rw [PHC_ID16_eq f v hv, MSR2FREQINC_eq, MSR2VOLTINC_eq]
  omega

/-- Claim C21: for all f and v in [0, 255], unpacking `PHC_ID16(f, v)` with
`MSR2FREQINC` and `MSR2VOLTINC` gives back f and v, and the packed value fits
in 16 bits. -/
theorem C21_pack_unpack_round_trip (f v : Nat) (hf : f ≤ 255) (hv : v ≤ 255) :
    MSR2FREQINC (PHC_ID16 f v) = f ∧ MSR2VOLTINC (PHC_ID16 f v) = v ∧
      PHC_ID16 f v < 65536 :=
  pack_unpack f v (by omega) (by omega)

/-- Claim C21 at work: the identifier (8, 30) and the extreme (255, 255). -/
theorem C21_witness :
    MSR2FREQINC (PHC_ID16 8 30) = 8 ∧ MSR2VOLTINC (PHC_ID16 8 30) = 30 ∧
    PHC_ID16 255 255 < 65536 :=
  ⟨(C21_pack_unpack_round_trip 8 30 (by decide) (by decide)).1,
   (C21_pack_unpack_round_trip 8 30 (by decide) (by decide)).2.1,
   (C21_pack_unpack_round_trip 255 255 (by decide) (by decide)).2.2⟩

theorem est_cpus_keys_distinct : est_cpus.Pairwise (fun a b =>
    ¬ (a.vendor = b.vendor ∧ BUS_CLK a.bus_clk = BUS_CLK b.bus_clk ∧
      a.table.getD 0 0 = b.table.getD 0 0 ∧
      a.table.getD (a.n - 1) 0 = b.table.getD (b.n - 1) 0)) := by decide

/-- Claim C25: no two entries of the catalog `est_cpus` (at different
positions) have the same vendor, the same bus-clock class, the same first
identifier and the same last identifier; hence, for every vendor, bus clock,
highest and lowest identifier, at most one entry matches. -/
theorem C25_catalog_keys_unambiguous :
    (∀ (i j : Nat) (a b : fqentry), est_cpus[i]? = some a → est_cpus[j]? = some b →
      i ≠ j →
      ¬ (a.vendor = b.vendor ∧ BUS_CLK a.bus_clk = BUS_CLK b.bus_clk ∧
        a.table.getD 0 0 = b.table.getD 0 0 ∧
        a.table.getD (a.n - 1) 0 = b.table.getD (b.n - 1) 0)) ∧
    (∀ (vendor : Int) (bus idhi idlo i j : Nat) (a b : fqentry),
      est_cpus[i]? = some a → est_cpus[j]? = some b →
      est_match vendor bus idhi idlo a = true → est_match vendor bus idhi idlo b = true →
      i = j) := by
  have key : ∀ (i j : Nat) (a b : fqentry), est_cpus[i]? = some a → est_cpus[j]? = some b →
      i < j →
      ¬ (a.vendor = b.vendor ∧ BUS_CLK a.bus_clk = BUS_CLK b.bus_clk ∧
        a.table.getD 0 0 = b.table.getD 0 0 ∧
        a.table.getD (a.n - 1) 0 = b.table.getD (b.n - 1) 0) := by
    intro i j a b hi hj hij
    obtain ⟨h1, e1⟩ := List.getElem?_eq_some.1 hi
    obtain ⟨h2, e2⟩ := List.getElem?_eq_some.1 hj
    have := (List.pairwise_iff_getElem.1 est_cpus_keys_distinct) i j h1 h2 hij
    rw [e1, e2] at this
    exact this
  have all : ∀ (i j : Nat) (a b : fqentry), est_cpus[i]? = some a → est_cpus[j]? = some b →
      i ≠ j →
      ¬ (a.vendor = b.vendor ∧ BUS_CLK a.bus_clk = BUS_CLK b.bus_clk ∧
        a.table.getD 0 0 = b.table.getD 0 0 ∧
        a.table.getD (a.n - 1) 0 = b.table.getD (b.n - 1) 0) := by
    intro i j a b hi hj hne
    rcases Nat.lt_or_gt_of_ne hne with h | h
    · exact key i j a b hi hj h
    · intro hc
      exact key j i b a hj hi h ⟨hc.1.symm, hc.2.1.symm, hc.2.2.1.symm, hc.2.2.2.symm⟩
  refine ⟨all, ?_⟩
  intro vendor bus idhi idlo i j a b hi hj ha hb
  by_contra hne
  simp only [est_match, Bool.and_eq_true, decide_eq_true_eq] at ha hb
  obtain ⟨⟨⟨a1, a2⟩, a3⟩, a4⟩ := ha
  obtain ⟨⟨⟨b1, b2⟩, b3⟩, b4⟩ := hb
  exact all i j a b hi hj hne ⟨a1.symm.trans b1, a2.symm.trans b2, a3.symm.trans b3,
    a4.symm.trans b4⟩

/-- Claim C25 at work: `pm90_n738` is entry 30 of the catalog (counted from
0), and its vendor, bus clock, first and last identifier match at position 30
only. -/
theorem C25_witness :
    est_cpus[30]? = some (ENTRY CPUVENDOR_INTEL BUS100 pm90_n738) ∧
    ∀ (j : Nat) (b : fqentry), est_cpus[j]? = some b →
      est_match CPUVENDOR_INTEL 10000 (pm90_n738.getD 0 0) (pm90_n738.getD 7 0) b = true →
      30 = j :=
  ⟨by decide, fun j b hj hb =>
    C25_catalog_keys_unambiguous.2 CPUVENDOR_INTEL 10000 (pm90_n738.getD 0 0)
      (pm90_n738.getD 7 0) 30 j (ENTRY CPUVENDOR_INTEL BUS100 pm90_n738) b (by decide) hj
      (by decide) hb⟩

/-- Claim C26: every table of the catalog `est_cpus`, its rows encoded by
`ID16` with the bus clock written in the table, is non-empty (and `n` is its
length) and strictly decreasing in frequency-step from its first identifier
to its last. -/
theorem C26_catalog_tables_decreasing : ∀ e ∈ est_cpus,
    e.table ≠ [] ∧ 0 < e.n ∧ e.n = e.table.length ∧
      (e.table.map MSR2FREQINC).Pairwise (fun a b => a > b) := by
  decide

/-- Claim C26 at work: the table `pm90_n710` has the frequency-steps
10, 9, 7, 6, 4. -/
theorem C26_witness :
    pm90_n710.map MSR2FREQINC = [10, 9, 7, 6, 4] ∧
    (pm90_n710.map MSR2FREQINC).Pairwise (fun a b => a > b) :=
  ⟨by decide,
   (C26_catalog_tables_decreasing (ENTRY CPUVENDOR_INTEL BUS133 pm90_n710)
      (by decide)).2.2.2⟩

/-- The identifier that `ID16` yields for a frequency-step and a millivolt
offset that fit: the two bytes packed by `PHC_ID16`. -/
theorem ID16_pack (MHz mV bus : Nat) (hbus : 0 < bus)
    (hmv : mV = 0 ∨ 700 ≤ mV) :
    ID16 MHz mV bus =
      (PHC_ID16 ((MHz * 100 + 50) / bus) ((if mV = 0 then 0 else mV - 700) / 16)) % 65536 := by
  unfold ID16 PHC_ID16
  have h1 : ((MHz : Int) * 100 + 50).tdiv (bus : Int) = (((MHz * 100 + 50) / bus : Nat) : Int) := by
    rw [Int.tdiv_eq_ediv (by omega) (by omega)]
    push_cast
    rfl
  have h2 : (if (mV : Int) ≠ 0 then (mV : Int) - 700 else 0)
      = ((if mV = 0 then 0 else mV - 700 : Nat) : Int) := by
    rcases hmv with h | h
    · subst h; rfl
    · have hz : mV ≠ 0 := by omega
      have hz2 : (mV : Int) ≠ 0 := by omega
      simp only [hz, hz2, ne_eq, not_false_eq_true, if_true, if_false]
      omega
  rw [h1, h2]
  have e8 : (8 : Int) = ((8 : Nat) : Int) := rfl
  have e4 : (4 : Int) = ((4 : Nat) : Int) := rfl
  rw [e8, e4, Int.shiftLeft_coe_nat, Int.shiftRight_coe_nat, Nat.shiftRight_eq_div_pow]
  show ((((((MHz * 100 + 50) / bus) <<< 8 |||
    (if mV = 0 then 0 else mV - 700) / 2 ^ 4 : Nat) : Int)) % 65536).toNat = _
  have e16 : (2 : Nat) ^ 4 = 16 := rfl
  rw [e16]
  omega

/-- Claim C27 as amended: the frequency-step of `ID16(MHz, mV, bus_clk)` is
`(MHz * 100 + 50) / bus_clk` with the division truncated (the macro adds half
a MHz, in hundredths, before dividing; it does not round the quotient to the
nearest integer), for every MHz ≥ 0 whose step fits in 8 bits, every mV that is
0 or from 700 to 4795, and every bus clock in {10000, 13333, 16666, 20000}. -/
theorem C27_frequency_step_of_ID16 (MHz mV bus : Nat)
    (hbus : bus = BUS100 ∨ bus = BUS133 ∨ bus = BUS166 ∨ bus = BUS200)
    (hfit : (MHz * 100 + 50) / bus ≤ 255)
    (hmv : mV = 0 ∨ (700 ≤ mV ∧ mV ≤ 4795)) :
    MSR2FREQINC (ID16 MHz mV bus) = (MHz * 100 + 50) / bus := by
  have hpos : 0 < bus := by
    unfold BUS100 BUS133 BUS166 BUS200 at hbus
    omega
  have hv : (if mV = 0 then 0 else mV - 700) / 16 < 256 := by
    split <;> omega
  rw [ID16_pack MHz mV bus hpos (by omega)]
  obtain ⟨h1, _, h3⟩ := pack_unpack ((MHz * 100 + 50) / bus)
    ((if mV = 0 then 0 else mV - 700) / 16) (by omega) hv
  rw [Nat.mod_eq_of_lt h3]
  exact h1

/-- Counterexample to claim C27 as stated: the catalog row
`ID16(1400, 1340, BUS133)` of `pm90_n710` has frequency-step 10, whereas
1400·100/13333 = 10.5003 rounded to the nearest integer is 11 (11·13333 is
nearer to 140000 than 10·13333). -/
theorem C27_step_below_nearest :
    pm90_n710.head? = some (ID16 1400 1340 BUS133) ∧
    MSR2FREQINC (ID16 1400 1340 BUS133) = 10 ∧
    round_nearest (1400 * 100) BUS133 = 11 ∧
    11 * BUS133 - 1400 * 100 < 1400 * 100 - 10 * BUS133 ∧
    MSR2FREQINC (ID16 1400 1340 BUS133) ≠ round_nearest (1400 * 100) BUS133 := by
  decide

/-- Witness of the amended claim C27: the catalog row `ID16(1400, 1340, BUS133)`
has frequency-step (1400·100 + 50) / 13333 = 10. -/
theorem C27_witness :
    (1400 * 100 + 50) / BUS133 = 10 ∧ MSR2FREQINC (ID16 (1400 : Nat) (1340 : Nat) BUS133)
      = (1400 * 100 + 50) / BUS133 :=
  ⟨by decide,
   C27_frequency_step_of_ID16 1400 1340 BUS133 (Or.inr (Or.inl rfl)) (by decide)
      (Or.inr ⟨by decide, by decide⟩)⟩

/-- Claim C28 evaluated at strings of ten digits: "4294967295" contains
decimal digits, yet `phc_atoi` returns -1, the value that tells its caller
that no digit was found, because the value accumulated in the `int` wraps
around; "x2147483648y" returns -2147483648, a negative value other than -1. -/
theorem C28_ten_digit_run_misread :
    "4294967295".toList.length ≤ 29 ∧
    decimal_values "4294967295".toList = [4294967295] ∧
    phc_atoi "4294967295".toList ['r'] = (-1, []) ∧
    phc_atoi "".toList ['r'] = (-1, ['r']) ∧
    decimal_values "x2147483648y".toList = [2147483648] ∧
    phc_atoi "x2147483648y".toList [] = (-2147483648, ['y']) := by
  decide

/-! ## Further lemmas: the fallback within `est_init_main`, `phc_atoi` on small values -/

/-- The Live Table that `est_init_main` leaves after the interpolation
fallback (no catalog search or no match, highest's voltage-step at least
lowest's) is `est_fake_table` of the highest and lowest identifiers. -/
theorem est_init_main_live_interp (arch : Arch) (vendor : Int) (bus st ctl : Nat)
    (hdv : MSR2VOLTINC (raw_lowest st) ≤ MSR2VOLTINC (raw_highest st))
    (hno : arch = .amd64 ∨
      est_cpus.find? (est_match vendor bus (raw_highest st) (raw_lowest st)) = none)
    (htab : (est_init_main arch est_cpus vendor bus st ctl).est_fqlist ≠ .NULL) :
    MSR2FREQINC (raw_lowest st) < MSR2FREQINC (raw_highest st) ∧
      live_table (est_init_main arch est_cpus vendor bus st ctl)
        = est_fake_table (raw_highest st) (raw_lowest st) := by
  rcases est_init_main_cases arch est_cpus vendor bus st ctl with
    h | ⟨fql, ha, hfind, h⟩ | ⟨hdf, _, h⟩
  · rw [h] at htab
    exact absurd rfl htab
  · rcases hno with hno | hno
    · rw [ha] at hno; exact absurd hno (by decide)
    · rw [hfind] at hno; exact absurd hno (by simp)
  · exact ⟨hdf, (est_interp_result _ (est_no_table bus st ctl) vendor _ _ hdf hdv h).2⟩

/-- For a run whose first value is below 2^31, `phc_atoi` does what its
comment says: it returns that value and leaves in `remain` the text after the
run; it returns -1 with `remain` untouched when the text has no digit. -/
theorem phc_atoi_small (string remain : List Char) :
    (decimal_values string = [] → phc_atoi string remain = (-1, remain)) ∧
    (∀ v vs, decimal_values string = v :: vs → v < 2147483648 →
      phc_atoi string remain =
        ((v : Int), (string.dropWhile (fun c => !isdigit c)).dropWhile isdigit)) := by
  refine ⟨phc_atoi_nil string remain, ?_⟩
  intro v vs h hv
  obtain ⟨rest, h1, _⟩ := phc_atoi_cons string remain v vs h
  have hs : phc_skip string ≠ [] := by
    intro hs
    have := phc_atoi_none string remain hs
    obtain ⟨p1, _⟩ := phc_skip_spec string
    rw [hs] at p1
    unfold decimal_values at h
    rw [h] at p1
    simp [decimal_values_from] at p1
  have h2 := phc_atoi_remain string remain hs
  rw [h1] at h2
  rw [h1, wrap32_of_small v hv]
  simp only at h2
  rw [h2]

/-! ## Long tables and the input buffer; decoding the catalog rows -/

/-- The tables of `est_cpus` are the rows of `est_cpus_rows`, each encoded by
`ID16`. -/
theorem est_cpus_rows_encoded :
    est_cpus.map (fun e => e.table) = est_cpus_rows.map (fun t => t.map row_id) := by
  decide

/-- Every row of a table is written with the bus clock of its catalog entry. -/
theorem est_cpus_rows_bus : ∀ p ∈ (est_cpus.zip est_cpus_rows),
    ∀ r ∈ p.2, r.2.2 = BUS_CLK p.1.bus_clk := by
  decide

/-- Every row of the catalog decodes to the MHz and mV it lists, four rows
apart: three of `pm90_n710` and one of `pm90_n778`. -/
theorem est_cpus_rows_decode : ∀ t ∈ est_cpus_rows, ∀ p ∈ t,
    row_faithful p ∨
      p ∈ [(1400, 1340, BUS133), (1000, 1148, BUS133), (600, 998, BUS133),
        (1300, 1184, BUS100)] := by
  decide

/-- A text of `n` characters holds at most `(n + 1) / 2` runs of digits: two
runs are separated by at least one other character. -/
theorem decimal_values_from_length (l : List Char) :
    (decimal_values_from none l).length * 2 ≤ l.length + 1 ∧
      ∀ v, (decimal_values_from (some v) l).length * 2 ≤ l.length + 2 := by
  induction l with
  | nil => exact ⟨by simp [decimal_values_from], fun v => by simp [decimal_values_from]⟩
  | cons c cs ih =>
    obtain ⟨ih1, ih2⟩ := ih
    constructor
    · by_cases hc : isdigit c = true
      · simp only [decimal_values_from, hc, if_true, List.length_cons]
        have := ih2 (c.toNat - 48)
        omega
      · simp only [decimal_values_from, hc, Bool.false_eq_true, if_false, List.length_cons]
        omega
    · intro v
      by_cases hc : isdigit c = true
      · simp only [decimal_values_from, hc, if_true, List.length_cons]
        have := ih2 (10 * v + (c.toNat - 48))
        omega
      · simp only [decimal_values_from, hc, Bool.false_eq_true, if_false, List.length_cons]
        omega

theorem decimal_values_length (l : List Char) :
    (decimal_values l).length * 2 ≤ l.length + 1 :=
  (decimal_values_from_length l).1

/-- Claim C31: for every Live Table with more than 15 rows and every input
text of at most 30 characters, applyOverride leaves the Live Table (and the
whole state) as it is: the input holds at most 15 runs of digits, so the call
is the identical-string no-op, returning 0, or it fails with `EINVAL` for
want of values. -/
theorem C31_long_table_never_overridden (s : Driver) (input : List Char)
    (h : Functional s) (hrows : 15 < (live_table s).length) (hlen : input.length ≤ 30) :
    (decimal_values input).length ≤ 15 ∧
      (strncmp_eq_zero input s.phc_string_vids PHC_MAXLEN = true →
        applyOverride s input = (0, s)) ∧
      (strncmp_eq_zero input s.phc_string_vids PHC_MAXLEN = false →
        applyOverride s input = (EINVAL, s)) ∧
      live_table (applyOverride s input).2 = live_table s ∧
      (applyOverride s input).2.broadcasts = s.broadcasts := by
  have hcount : (decimal_values input).length ≤ 15 := by
    have := decimal_values_length input
    omega
  have h0 : s.est_fqlist ≠ .NULL := by rw [h.1]; decide
  have hsame : strncmp_eq_zero input s.phc_string_vids PHC_MAXLEN = true →
      applyOverride s input = (0, s) := by
    intro hc
    unfold applyOverride phc_est_sysctl_helper
    simp only [h0, hc, if_false, or_true, if_true]
  have hdiff : strncmp_eq_zero input s.phc_string_vids PHC_MAXLEN = false →
      applyOverride s input = (EINVAL, s) := by
    intro hc
    rw [live_table_eq s h, ← h.2.2.2.2] at hrows
    exact (applyOverride_of_values s input h hc).1 _
      (check_values_short _ _ _ _ (by omega))
  refine ⟨hcount, hsame, hdiff, ?_⟩
  cases hc : strncmp_eq_zero input s.phc_string_vids PHC_MAXLEN with
  | true => rw [hsame hc]; exact ⟨rfl, rfl⟩
  | false => rw [hdiff hc]; exact ⟨rfl, rfl⟩

/-- Claim C31 at work: after `long_init` the table has 19 rows, and the write
"39 37 35 33 31 29 27 25 23 21", of 29 characters, is rejected with nothing
changed. -/
theorem C31_witness :
    Functional long_init ∧ (live_table long_init).length = 19 ∧
    "39 37 35 33 31 29 27 25 23 21".toList.length = 29 ∧
    applyOverride long_init "39 37 35 33 31 29 27 25 23 21".toList = (EINVAL, long_init) :=
  ⟨by decide, by decide, by decide,
   (C31_long_table_never_overridden long_init "39 37 35 33 31 29 27 25 23 21".toList
      (by decide) (by decide) (by decide)).2.2.1 (by decide)⟩

/-- Claim C32 evaluated at rows of the catalog: `ID16(1400, 1340, BUS133)` of
`pm90_n710` decodes to 1333 MHz, `ID16(600, 998, BUS133)` of `pm90_n710` to
533 MHz and 988 mV, and `ID16(1300, 1184, BUS100)` of `pm90_n778` to 1180 mV. -/
theorem C32_rows_decode_to_other_values :
    ID16 1400 1340 BUS133 ∈ pm90_n710 ∧ ID16 600 998 BUS133 ∈ pm90_n710 ∧
    ID16 1300 1184 BUS100 ∈ pm90_n778 ∧
    ENTRY CPUVENDOR_INTEL BUS133 pm90_n710 ∈ est_cpus ∧
    ENTRY CPUVENDOR_INTEL BUS100 pm90_n778 ∈ est_cpus ∧
    MSR2MHZ (ID16 1400 1340 BUS133) BUS133 = 1333 ∧
    MSR2MV (ID16 1400 1340 BUS133) = 1340 ∧
    MSR2MHZ (ID16 600 998 BUS133) BUS133 = 533 ∧
    MSR2MV (ID16 600 998 BUS133) = 988 ∧
    MSR2MHZ (ID16 1300 1184 BUS100) BUS100 = 1300 ∧
    MSR2MV (ID16 1300 1184 BUS100) = 1180 := by
  decide

end EstPhc
